import Mathlib

set_option linter.unusedTactic false
set_option linter.unreachableTactic false
set_option linter.unusedVariables false

/-!
# Bonsai: the iteration controller of `runtime/src/gpu_iterate.cpp`

A shallow embedding of `octree::iterate_setup`, `octree::iterate_once`,
`octree::iterate_teardown`, `octree::iterate` and of the functions they call
(`predict`, `direct_gravity`, `approximate_gravity`, `approximate_gravity_let`,
`makeLET`, `correct`, `compute_energies`).

Conventions of the embedding.

* The member variables and file-level globals the functions read and write are
  the fields of `State`; values that never change during a run, and the
  compile-time switches (`USE_MPI`, `DO_BLOCK_TIMESTEP`), are the fields of
  `Config`.
* Everything that is produced by code outside `gpu_iterate.cpp` (GPU kernels,
  MPI collectives, the wall clock, the I/O thread) is read from an `Env`
  record of oracles; theorems quantify over all of them.
* Every call and device operation issued by the code is appended to
  `State.trace`, in program order.
* `float`/`double` quantities are idealised as exact rationals; `int`
  quantities are integers, with the faulting cases of `%` and `/` explicit.
* A function body is a state transformer that either returns or halts the
  process (`exit`, undefined behaviour such as `x % 0`, a failed `assert`, a
  wait that is never released).
-/

namespace Bonsai

/-! ## Machine arithmetic -/

/-- Two's-complement wrap of an integer to the range of a 32-bit `int`. -/
def wrap32 (x : Int) : Int := (x + 2147483648) % 4294967296 - 2147483648

/-- The smallest 32-bit `int`. -/
def INT_MIN : Int := -2147483648

/-- The largest 32-bit `int`. -/
def INT_MAX : Int := 2147483647

/-- C++ `a % b` on `int`: undefined when `b` is zero or
the quotient overflows, otherwise the remainder of truncated division. -/
def cmod (a b : Int) : Option Int :=
  if b = 0 ∨ (a = INT_MIN ∧ b = -1) then none else some (Int.tmod a b)

/-! ## Operations recorded in the trace -/

/-- GPU kernels launched by the iteration code. -/
inductive Kernel
  | getTNext | predictParticles | directGrav | SPHDensity | SPHDensityNGBTest
  | approxGrav | approxGravLET | getNActive | correctParticles | computeDt
  | computeEnergy
  deriving DecidableEq

/-- The four execution channels owned by `octree`. -/
inductive Stream
  | execStream | gravStream | copyStream | LETDataToHostStream
  deriving DecidableEq

/-- Device buffers touched by the modelled code. -/
inductive Buffer
  | activePartlist | ngbOffsets | ngbsList | interactions | bodies_grad
  | bodies_acc1 | bodies_acc0 | bodies_time | bodies_h | bodies_ids
  | bodies_Ppos | bodies_dens | bodies_hydro | bodies_pos | bodies_vel
  | boxSizeInfo | boxCenterInfo | multipole | fullRemoteTree | tnext | nactive
  | energy
  deriving DecidableEq

/-- The two CUDA event pairs of the file. -/
inductive GpuEvent
  | startLocalGrav | endLocalGrav | startRemoteGrav | endRemoteGrav
  deriving DecidableEq

/-- One entry of the trace: a call of a member function (named as in the
source) or a device, MPI or process operation. -/
inductive Event
  | iterate_setup | iterate_once | iterate_teardown
  | predict | parallelDataSummary | mpiSync | direct_gravity
  | sort_bodies (doDomainUpdate : Bool) (third : Option Bool)
  | build | allocateTreePropMemory | compute_properties | setActiveGrpsFunc
  | approximate_gravity | makeLET | sendCurrentInfoGrpTree
  | essential_tree_exchangeV2 | approximate_gravity_let
  | correct | compute_energies
  | execute2 (k : Kernel) (st : Stream)
  | sync (st : Stream)
  | cudaDeviceSynchronize | cudaDeviceReset
  | cudaEventCreate (e : GpuEvent)
  | cudaEventRecord (e : GpuEvent) (st : Stream)
  | zeroMem (b : Buffer) | zeroMemGPUAsync (b : Buffer) (st : Stream)
  | h2d (b : Buffer) | d2h (b : Buffer) | copy_devonly (b : Buffer)
  | d2hShared (b : Buffer) (writingFinished : Bool)
  | setWritingFinished (b : Bool)
  | MPI_Allreduce | AllSum
  | DENSITY | DISKSTATS | dumpData | dumpDataMPI
  | newStream (st : Stream) | deleteStream (st : Stream)
  | writeLogToFile
  | exit (code : Int)
  deriving DecidableEq

/-! ## Data model -/

/-- The running timers and counters of `IterationData`. -/
structure IterationData where
  Nact_since_last_tree_rebuild : Int
  totalGPUGravTimeLocal : ℚ
  totalGPUGravTimeLET : ℚ
  totalLETCommTime : ℚ
  totalBuildTime : ℚ
  totalDomTime : ℚ
  totalGravTime : ℚ
  totalDomUp : ℚ
  totalDomEx : ℚ
  totalDomWait : ℚ
  totalPredCor : ℚ
  totalWaitTime : ℚ
  lastWaitTime : ℚ
  lastGravTime : ℚ
  lastBuildTime : ℚ
  lastDomTime : ℚ
  lastLETCommTime : ℚ
  lastGPUGravTimeLocal : ℚ
  lastGPUGravTimeLET : ℚ
  startTime : ℚ
  deriving DecidableEq

/-- The record shared with the snapshot-writing thread. -/
structure IoSharedData where
  writingFinished : Bool
  nBodies : Int
  t_current : ℚ
  deriving DecidableEq

/-- Energy bookkeeping of `octree`. The file-level maxima `de_max` and `dde_max`
are only printed and are left out. -/
structure Energies where
  Ekin : ℚ
  Epot : ℚ
  Etot : ℚ
  Ekin0 : ℚ
  Epot0 : ℚ
  Etot0 : ℚ
  Ekin1 : ℚ
  Epot1 : ℚ
  Etot1 : ℚ
  tinit : ℚ
  store_energy_flag : Bool
  deriving DecidableEq

/-- The mutable state read and written by the iteration code. -/
structure State where
  iter : Int
  t_current : ℚ
  t_previous : ℚ
  /-- The function-local `static int temp` of `predict`. -/
  predictTemp : Int
  letRunning : Bool
  runningLETTimeSum : ℚ
  lastTotal : ℚ
  lastLocal : ℚ
  thisPartLETExTime : ℚ
  maxExecTimePrevStep : ℚ
  avgExecTimePrevStep : ℚ
  /-- The particle count `localTree.n`. -/
  n : Int
  n_active_particles : Int
  /-- What `cudaEventElapsedTime(startLocalGrav, endLocalGrav)` reports. -/
  elapsedLocalGrav : ℚ
  /-- What `cudaEventElapsedTime(startRemoteGrav, endRemoteGrav)` reports. -/
  elapsedRemoteGrav : ℚ
  execStream : Option Nat
  gravStream : Option Nat
  copyStream : Option Nat
  LETDataToHostStream : Option Nat
  /-- Number of stream objects allocated so far (source of fresh handles). -/
  streamsMade : Nat
  nextStatsTime : ℚ
  nextSnapTime : ℚ
  ioSharedData : IoSharedData
  en : Energies
  idata : IterationData
  /-- Number of `get_time()` readings taken so far. -/
  clock : Nat
  trace : List Event
  deriving DecidableEq

/-- Run parameters and compile-time switches; none is written by the modelled
code. -/
structure Config where
  USE_MPI : Bool
  DO_BLOCK_TIMESTEP : Bool
  NBLOCK_REDUCE : Nat
  nProcs : Int
  procId : Int
  useDirectGravity : Bool
  rebuild_tree_rate : Int
  iterEnd : Int
  tEnd : ℚ
  timeStep : ℚ
  statisticsIter : ℚ
  snapshotIter : ℚ
  useMPIIO : Bool
  mpiRenderMode : Bool
  deriving DecidableEq

/-- One remote tree handed to `approximate_gravity_let` during the exchange. -/
structure LetCall where
  /-- The fields `x y z w` of `remoteTree.remoteTreeStruct`. -/
  remoteP : Int
  remoteN : Int
  nodeTexOffset : Int
  topNodes : Nat
  bufferSize : Int
  doActiveParticles : Bool
  /-- GPU time of the remote-force kernel launched for this tree. -/
  gpuTime : ℚ
  deriving DecidableEq

/-- Results of one redistribution pass of `iterate_setup`. -/
structure SetupPass where
  /-- The value of `localTree.n` after `parallelDataSummary`. -/
  newN : Int
  maxN : Int
  minN : Int
  deriving DecidableEq

/-- Everything the modelled code obtains from outside the file. -/
structure Env where
  /-- The `k`-th reading of the wall clock. -/
  get_time : Nat → ℚ
  /-- The per-block minima written by the `getTNext` kernel. -/
  tnext : Nat → ℚ
  /-- The per-block counts written by the `getNActive` kernel. -/
  nactive : Nat → Int
  /-- The per-block partial sums `(x, y)` written by `computeEnergy`. -/
  energy : Nat → ℚ × ℚ
  /-- Potential and kinetic energy held by the other processes. -/
  remoteEpot : ℚ
  remoteEkin : ℚ
  /-- Outputs of `parallelDataSummary` in a step: new `localTree.n`, `domUp`, `domEx`. -/
  domainN : Int
  domUp : ℚ
  domEx : ℚ
  /-- GPU times of the two kernels timed in `approximate_gravity`. -/
  gpuSPHDensity : ℚ
  gpuApproxGrav : ℚ
  /-- The remote trees processed by `essential_tree_exchangeV2`, in order. -/
  letCalls : List LetCall
  letExTime : ℚ
  /-- Results of the two load-balance reductions. -/
  reduceMax : ℚ
  reduceSum : ℚ
  /-- The snapshot thread: the record it leaves when a pending write
  completes, or `none` when it never does. -/
  ioThread : IoSharedData → Option IoSharedData
  /-- Redistribution passes of `iterate_setup`. -/
  setupPass : Nat → SetupPass
  /-- Floating-point addition in the type of `t_current`: `fadd a b` is the
  rounded sum that `a += b` stores. -/
  fadd : ℚ → ℚ → ℚ

/-! ## Control: returning and halting -/

/-- Ways a function body stops the process instead of returning. -/
inductive Halt
  | exit (code : Int)
  | undefinedBehaviour
  | assertFailed
  | waitsForever
  deriving DecidableEq

/-- Result of running a function body from a state. -/
inductive Outcome (α : Type)
  | ret (a : α) (s : State)
  | halt (h : Halt) (s : State)

/-- A function body: a state transformer that returns or halts. -/
def Exec (α : Type) : Type := State → Outcome α

instance : Monad Exec where
  pure a := fun s => Outcome.ret a s
  bind m f := fun s =>
    match m s with
    | Outcome.ret a s1 => f a s1
    | Outcome.halt h s1 => Outcome.halt h s1

/-- The state an outcome ends in. -/
def Outcome.state {α : Type} : Outcome α → State
  | Outcome.ret _ s => s
  | Outcome.halt _ s => s

/-- Whether the body returned. -/
def Outcome.returned {α : Type} : Outcome α → Bool
  | Outcome.ret _ _ => true
  | Outcome.halt _ _ => false

/-- Record one operation in the trace. -/
def emit (e : Event) : Exec Unit :=
  fun s => Outcome.ret () { s with trace := s.trace ++ [e] }

/-- Read the state. -/
def getS : Exec State := fun s => Outcome.ret s s

/-- Update the state. -/
def modifyS (f : State → State) : Exec Unit := fun s => Outcome.ret () (f s)

/-- Stop the process. -/
def haltWith {α : Type} (h : Halt) : Exec α := fun s => Outcome.halt h s

/-- The call `get_time()`: the next reading of the wall clock. -/
def get_time (env : Env) : Exec ℚ :=
  fun s => Outcome.ret (env.get_time s.clock) { s with clock := s.clock + 1 }

/-! ## The time integrator: `predict` and `correct` -/

/-- Embedding of `octree::predict` (lines 464-511). -/
def predict (cfg : Config) (env : Env) : Exec Unit := do
  emit Event.predict
  if cfg.DO_BLOCK_TIMESTEP then
    emit (Event.execute2 Kernel.getTNext Stream.execStream)
    let s ← getS
    if s.n = 0 then
      modifyS fun s => { s with
        t_previous := s.t_current, t_current := env.fadd s.t_current cfg.timeStep }
    else
      emit (Event.d2h Buffer.tnext)
      modifyS fun s => { s with
        t_previous := s.t_current,
        t_current := (List.range' 1 (cfg.NBLOCK_REDUCE - 1)).foldl
          (fun t i => min t (env.tnext i)) (env.tnext 0) }
  else
    modifyS fun s => { s with t_previous := s.t_current }
    let s ← getS
    if s.predictTemp > 0 then
      modifyS fun s => { s with t_current := env.fadd s.t_current cfg.timeStep }
    else
      modifyS fun s => { s with predictTemp := 1 }
  emit (Event.execute2 Kernel.predictParticles Stream.execStream)

/-- Embedding of `octree::correct` (lines 1187-1238). -/
def correct (cfg : Config) (env : Env) : Exec Unit := do
  emit Event.correct
  modifyS fun s => { s with n_active_particles := s.n }
  if cfg.DO_BLOCK_TIMESTEP then
    emit (Event.sync Stream.gravStream)
    emit (Event.execute2 Kernel.getNActive Stream.execStream)
    emit (Event.d2h Buffer.nactive)
    modifyS fun s => { s with
      n_active_particles := (List.range' 1 (cfg.NBLOCK_REDUCE - 1)).foldl
        (fun a i => a + env.nactive i) (env.nactive 0) }
  emit (Event.execute2 Kernel.correctParticles Stream.execStream)
  emit (Event.copy_devonly Buffer.bodies_acc0)
  emit (Event.copy_devonly Buffer.bodies_time)
  if cfg.DO_BLOCK_TIMESTEP then
    emit (Event.execute2 Kernel.computeDt Stream.execStream)

/-! ## Force evaluation -/

/-- The first component of `globalWork` in `direct_gravity` (line 522): `int`
arithmetic on `tree.n`, then conversion to `size_t`. -/
def direct_gravity_globalWork (n : Int) : Int :=
  (wrap32 (256 * Int.tdiv (wrap32 (n + 255)) 256)) % 18446744073709551616

/-- Embedding of `octree::direct_gravity` (lines 519-528). -/
def direct_gravity : Exec Unit := do
  emit Event.direct_gravity
  emit (Event.execute2 Kernel.directGrav Stream.gravStream)

/-- Embedding of `octree::approximate_gravity` (lines 530-1043). Host-side
preparation of kernel arguments and printing are not recorded; the two integer
divisions by `tree.n` that feed `fprintf` are, because they are undefined for
`tree.n == 0`. -/
def approximate_gravity (cfg : Config) (env : Env) : Exec Unit := do
  emit Event.approximate_gravity
  emit (Event.zeroMemGPUAsync Buffer.activePartlist Stream.gravStream)
  emit (Event.zeroMemGPUAsync Buffer.ngbOffsets Stream.gravStream)
  emit (Event.zeroMemGPUAsync Buffer.ngbsList Stream.gravStream)
  -- #if 1, lines 548-873
  emit (Event.d2h Buffer.bodies_ids)
  emit (Event.d2h Buffer.bodies_Ppos)
  emit (Event.d2h Buffer.bodies_dens)
  emit (Event.d2h Buffer.bodies_grad)
  emit (Event.h2d Buffer.bodies_h)
  emit (Event.zeroMem Buffer.interactions)
  emit (Event.zeroMem Buffer.bodies_grad)
  emit (Event.zeroMemGPUAsync Buffer.bodies_acc1 Stream.gravStream)
  emit Event.cudaDeviceSynchronize
  emit (Event.cudaEventRecord GpuEvent.startLocalGrav Stream.gravStream)
  let _tStart ← get_time env
  emit (Event.execute2 Kernel.SPHDensity Stream.gravStream)
  emit (Event.cudaEventRecord GpuEvent.endLocalGrav Stream.gravStream)
  modifyS fun s => { s with elapsedLocalGrav := env.gpuSPHDensity }
  emit (Event.execute2 Kernel.SPHDensityNGBTest Stream.gravStream)
  emit Event.cudaDeviceSynchronize
  let _tEnd ← get_time env
  emit (Event.d2h Buffer.ngbOffsets)
  emit (Event.d2h Buffer.bodies_dens)
  emit (Event.d2h Buffer.bodies_grad)
  emit (Event.d2h Buffer.bodies_hydro)
  emit (Event.d2h Buffer.bodies_acc1)
  emit (Event.d2h Buffer.interactions)
  -- lines 818-820: openingTestSum / tree.n, distanceTestSum / tree.n
  let s ← getS
  if s.n = 0 then haltWith Halt.undefinedBehaviour
  -- lines 876-913
  emit (Event.zeroMemGPUAsync Buffer.activePartlist Stream.gravStream)
  emit (Event.zeroMem Buffer.interactions)
  emit Event.cudaDeviceSynchronize
  emit (Event.cudaEventRecord GpuEvent.startLocalGrav Stream.gravStream)
  let _tStart ← get_time env
  emit (Event.execute2 Kernel.approxGrav Stream.gravStream)
  emit (Event.cudaEventRecord GpuEvent.endLocalGrav Stream.gravStream)
  modifyS fun s => { s with elapsedLocalGrav := env.gpuApproxGrav }
  emit (Event.sync Stream.gravStream)
  -- #if 1, lines 915-936
  emit Event.cudaDeviceSynchronize
  let _tEnd ← get_time env
  emit (Event.d2h Buffer.interactions)
  -- lines 928-930: openingTestSum / tree.n, distanceTestSum / tree.n
  let s ← getS
  if s.n = 0 then haltWith Halt.undefinedBehaviour
  emit Event.cudaDeviceReset
  emit (Event.exit 0)
  haltWith (Halt.exit 0)
  -- lines 1012-1042, after `exit(0)`
  if cfg.nProcs = 1 then
    modifyS fun s => { s with n_active_particles := s.n }

/-- Embedding of `octree::approximate_gravity_let` (lines 1047-1182) for one
remote tree. -/
def approximate_gravity_let (c : LetCall) : Exec Unit := do
  emit Event.approximate_gravity_let
  let s ← getS
  if s.letRunning then
    emit (Event.sync Stream.gravStream)
    modifyS fun s => { s with runningLETTimeSum := s.runningLETTimeSum + s.elapsedRemoteGrav }
  emit (Event.h2d Buffer.fullRemoteTree)
  emit (Event.zeroMemGPUAsync Buffer.activePartlist Stream.gravStream)
  emit (Event.cudaEventRecord GpuEvent.startRemoteGrav Stream.gravStream)
  emit (Event.execute2 Kernel.approxGravLET Stream.gravStream)
  emit (Event.cudaEventRecord GpuEvent.endRemoteGrav Stream.gravStream)
  modifyS fun s => { s with elapsedRemoteGrav := c.gpuTime }
  modifyS fun s => { s with letRunning := true }
  if c.doActiveParticles then
    modifyS fun s => { s with n_active_particles := s.n }

/-- The calls of `approximate_gravity_let` made for a list of remote trees. -/
def letCallsLoop : List LetCall → Exec Unit
  | [] => pure ()
  | c :: cs => do
    approximate_gravity_let c
    letCallsLoop cs

/-- Modelled from the spec: `essential_tree_exchangeV2` is not in the file. It
is the LET exchange of section 4.4: for each received remote tree it calls
`approximate_gravity_let`, and it leaves the communication time of the exchange
in `thisPartLETExTime`. -/
def essential_tree_exchangeV2 (env : Env) : Exec Unit := do
  emit Event.essential_tree_exchangeV2
  letCallsLoop env.letCalls
  modifyS fun s => { s with thisPartLETExTime := env.letExTime }

/-- Embedding of `octree::makeLET` (lines 22-57). -/
def makeLET (env : Env) : Exec Unit := do
  emit Event.makeLET
  let _t00 ← get_time env
  emit (Event.d2h Buffer.boxSizeInfo)
  emit (Event.d2h Buffer.boxCenterInfo)
  emit (Event.d2h Buffer.multipole)
  let _t10 ← get_time env
  emit Event.sendCurrentInfoGrpTree
  let _t20 ← get_time env
  let _t40 ← get_time env
  essential_tree_exchangeV2 env
  modifyS fun s => { s with letRunning := false }

/-! ## The energy tracker -/

/-- Floating-point quotient: `none` stands for the non-finite result of a
division by zero. -/
def fdiv (a b : ℚ) : Option ℚ := if b = 0 then none else some (a / b)

/-- Modelled from the spec: `AllSum` is not in the file. It is the global
reduction of section 4.7: the local value plus the values of the other
processes. -/
def AllSum (local_ others : ℚ) : ℚ := local_ + others

/-- Embedding of `octree::compute_energies` (lines 1243-1339); the result is
the drift `de`. The drift `dde` is computed and only printed; it is
`compute_energies_dde` below. -/
def compute_energies (cfg : Config) (env : Env) : Exec (Option ℚ) := do
  emit Event.compute_energies
  modifyS fun s => { s with en := { s.en with Ekin := 0, Epot := 0 } }
  emit (Event.execute2 Kernel.computeEnergy Stream.execStream)
  emit (Event.d2h Buffer.energy)
  modifyS fun s => { s with en := { s.en with
    Ekin := (List.range' 1 (cfg.NBLOCK_REDUCE - 1)).foldl
      (fun a i => a + (env.energy i).1) (env.energy 0).1,
    Epot := (List.range' 1 (cfg.NBLOCK_REDUCE - 1)).foldl
      (fun a i => a + (env.energy i).2) (env.energy 0).2 } }
  emit Event.AllSum
  modifyS fun s => { s with en := { s.en with Epot := AllSum s.en.Epot env.remoteEpot } }
  emit Event.AllSum
  modifyS fun s => { s with en := { s.en with Ekin := AllSum s.en.Ekin env.remoteEkin } }
  modifyS fun s => { s with en := { s.en with Etot := s.en.Epot + s.en.Ekin } }
  let s ← getS
  if s.en.store_energy_flag then
    modifyS fun s => { s with en := { s.en with
      Ekin0 := s.en.Ekin, Epot0 := s.en.Epot, Etot0 := s.en.Etot,
      Ekin1 := s.en.Ekin, Epot1 := s.en.Epot, Etot1 := s.en.Etot } }
    let t ← get_time env
    modifyS fun s => { s with en := { s.en with tinit := t, store_energy_flag := false } }
  let s ← getS
  let de := fdiv (s.en.Etot - s.en.Etot0) s.en.Etot0
  let _dde := fdiv (s.en.Etot - s.en.Etot1) s.en.Etot1
  modifyS fun s => { s with en := { s.en with
    Ekin1 := s.en.Ekin, Epot1 := s.en.Epot, Etot1 := s.en.Etot } }
  if cfg.procId = 0 then
    let _t ← get_time env
    let _t ← get_time env
  pure de

/-! ## `iterate_once`, block by block -/

/-- Lines 112-128 of `iterate_once`: the start-up timings are cleared. -/
def clearStartupTimings (env : Env) : Exec Unit := do
  let s ← getS
  if s.iter < 32 then
    modifyS fun s => { s with idata := { s.idata with
      totalGPUGravTimeLocal := 0, totalGPUGravTimeLET := 0, totalLETCommTime := 0,
      totalBuildTime := 0, totalDomTime := 0, lastWaitTime := 0 } }
    let t ← get_time env
    modifyS fun s => { s with idata := { s.idata with
      startTime := t, totalGravTime := 0, totalDomUp := 0, totalDomEx := 0,
      totalDomWait := 0, totalPredCor := 0 } }

/-- Lines 136-143: the predictor. -/
def predictStep (cfg : Config) (env : Env) : Exec Unit := do
  let tTempTime ← get_time env
  predict cfg env
  let t ← get_time env
  modifyS fun s => { s with idata := { s.idata with
    totalPredCor := s.idata.totalPredCor + (t - tTempTime) } }

/-- Lines 133-134 and 145-171: the periodic domain update. The result is the
final value of `needDomainUpdate`. -/
def domainUpdate (cfg : Config) (env : Env) : Exec Bool := do
  let needDomainUpdate := true
  if cfg.nProcs > 1 then
    let s ← getS
    match cmod s.iter cfg.rebuild_tree_rate with
    | none => haltWith Halt.undefinedBehaviour
    | some r =>
      if r = 0 then
        let tZ ← get_time env
        emit Event.parallelDataSummary
        modifyS fun s => { s with n := env.domainN }
        let tZZ ← get_time env
        modifyS fun s => { s with idata := { s.idata with lastDomTime := tZZ - tZ } }
        modifyS fun s => { s with idata := { s.idata with
          totalDomTime := s.idata.totalDomTime + s.idata.lastDomTime } }
        modifyS fun s => { s with idata := { s.idata with
          totalDomUp := s.idata.totalDomUp + env.domUp,
          totalDomEx := s.idata.totalDomEx + env.domEx } }
        emit Event.mpiSync
        let t ← get_time env
        modifyS fun s => { s with idata := { s.idata with
          totalDomWait := s.idata.totalDomWait + (t - tZZ) } }
        let _needDomainUpdate := false -- line 168
        pure true -- line 169
      else pure needDomainUpdate
  else pure needDomainUpdate

/-- Lines 181-219: in tree mode the tree is rebuilt or its properties are
refreshed; `r` is the value of `iter % rebuild_tree_rate`. -/
def treeUpdate (cfg : Config) (env : Env) (needDomainUpdate : Bool) (r : Int) : Exec Unit := do
  -- rebuild_tree = ((iter % rebuild_tree_rate) == 0)
  if r = 0 then
    let t1 ← get_time env
    emit (Event.sort_bodies needDomainUpdate none)
    emit Event.build
    let _ ← get_time env
    let _ ← get_time env
    emit Event.allocateTreePropMemory
    emit Event.compute_properties
    if cfg.DO_BLOCK_TIMESTEP then
      emit Event.setActiveGrpsFunc
      modifyS fun s => { s with idata := { s.idata with Nact_since_last_tree_rebuild := 0 } }
    let t ← get_time env
    modifyS fun s => { s with idata := { s.idata with lastBuildTime := t - t1 } }
    modifyS fun s => { s with idata := { s.idata with
      totalBuildTime := s.idata.totalBuildTime + s.idata.lastBuildTime } }
  else
    if cfg.DO_BLOCK_TIMESTEP then
      emit Event.setActiveGrpsFunc
      modifyS fun s => { s with idata := { s.idata with Nact_since_last_tree_rebuild := 0 } }
    emit Event.compute_properties

/-- Lines 221-229: the tree walks; the result is the value of `t1`. -/
def treeGravity (cfg : Config) (env : Env) : Exec ℚ := do
  let t1 ← get_time env
  approximate_gravity cfg env
  modifyS fun s => { s with runningLETTimeSum := 0 }
  if cfg.nProcs > 1 then makeLET env
  pure t1

/-- Lines 173-230: the force evaluation. The result is the value of `t1`
(initialised to 0 at line 110) when the block is left. -/
def forces (cfg : Config) (env : Env) (needDomainUpdate : Bool) : Exec ℚ := do
  if cfg.useDirectGravity then
    direct_gravity
    pure 0
  else
    let s ← getS
    match cmod s.iter cfg.rebuild_tree_rate with
    | none => haltWith Halt.undefinedBehaviour
    | some r =>
      treeUpdate cfg env needDomainUpdate r
      treeGravity cfg env

/-- Lines 232-285: the join of the gravity stream and the GPU time accounting. -/
def afterForces (cfg : Config) (env : Env) (t1 : ℚ) : Exec Unit := do
  emit (Event.sync Stream.gravStream)
  let t ← get_time env
  modifyS fun s => { s with idata := { s.idata with lastGravTime := t - t1 } }
  modifyS fun s => { s with idata := { s.idata with
    totalGravTime := s.idata.totalGravTime + s.idata.lastGravTime,
    lastLETCommTime := s.thisPartLETExTime,
    totalLETCommTime := s.idata.totalLETCommTime + s.thisPartLETExTime } }
  let _tTempTime ← get_time env
  emit (Event.d2h Buffer.interactions)
  let _ ← get_time env
  let s ← getS
  let ms := s.elapsedLocalGrav
  let msLET := if cfg.nProcs > 1 then s.elapsedRemoteGrav else 0
  let msLET := msLET + s.runningLETTimeSum
  modifyS fun s => { s with idata := { s.idata with
    lastGPUGravTimeLocal := ms,
    lastGPUGravTimeLET := msLET,
    totalGPUGravTimeLocal := s.idata.totalGPUGravTimeLocal + ms,
    totalGPUGravTimeLET := s.idata.totalGPUGravTimeLET + msLET } }
  modifyS fun s => { s with lastLocal := ms, lastTotal := ms + msLET }

/-- Lines 287-292: the corrector. -/
def correctStep (cfg : Config) (env : Env) : Exec Unit := do
  let tTempTime ← get_time env
  correct cfg env
  let t ← get_time env
  modifyS fun s => { s with idata := { s.idata with
    totalPredCor := s.idata.totalPredCor + (t - tTempTime) } }

/-- Lines 296-311: the load-balance reduction. -/
def loadBalance (cfg : Config) (env : Env) : Exec Unit := do
  if cfg.nProcs > 1 then
    if cfg.USE_MPI then
      let t1 ← get_time env
      emit Event.MPI_Allreduce
      modifyS fun s => { s with maxExecTimePrevStep := env.reduceMax }
      emit Event.MPI_Allreduce
      modifyS fun s => { s with avgExecTimePrevStep := env.reduceSum }
      modifyS fun s => { s with avgExecTimePrevStep := s.avgExecTimePrevStep / cfg.nProcs }
      let t ← get_time env
      modifyS fun s => { s with idata := { s.idata with
        lastWaitTime := s.idata.lastWaitTime + (t - t1) } }
      modifyS fun s => { s with idata := { s.idata with
        totalWaitTime := s.idata.totalWaitTime + s.idata.lastWaitTime } }

/-- Line 313: the active-particle counter. -/
def countActive : Exec Unit :=
  modifyS fun s => { s with idata := { s.idata with
    Nact_since_last_tree_rebuild :=
      s.idata.Nact_since_last_tree_rebuild + s.n_active_particles } }

/-- Lines 315-320: the energy check. -/
def energyStep (cfg : Config) (env : Env) : Exec Unit := do
  let tTempTime ← get_time env
  let _de ← compute_energies cfg env
  let t ← get_time env
  modifyS fun s => { s with idata := { s.idata with
    totalPredCor := s.idata.totalPredCor + (t - tTempTime) } }

/-- Lines 322-352: the periodic statistics. -/
def statistics (cfg : Config) (env : Env) : Exec Unit := do
  if cfg.statisticsIter > 0 then
    let s ← getS
    if s.t_current ≥ s.nextStatsTime then
      modifyS fun s => { s with nextStatsTime := s.nextStatsTime + cfg.statisticsIter }
      let _tDens0 ← get_time env
      emit (Event.d2h Buffer.bodies_pos)
      emit (Event.d2h Buffer.bodies_vel)
      emit (Event.d2h Buffer.bodies_ids)
      let _tDens1 ← get_time env
      emit Event.DENSITY
      let _tDens2 ← get_time env
      let _tDisk1 ← get_time env
      emit Event.DISKSTATS
      let _tDisk2 ← get_time env

/-- A copy `d2h(n, ioSharedData...)` of the buffer `b` into the record shared
with the snapshot thread. The event keeps the value that
`ioSharedData.writingFinished` has when the copy is issued. -/
def d2hShared (b : Buffer) : Exec Unit :=
  fun s => Outcome.ret ()
    { s with trace := s.trace ++ [Event.d2hShared b s.ioSharedData.writingFinished] }

/-- The assignment `ioSharedData.writingFinished = b` made by the step. -/
def setWritingFinished (b : Bool) : Exec Unit :=
  fun s => Outcome.ret ()
    { s with ioSharedData := { s.ioSharedData with writingFinished := b },
             trace := s.trace ++ [Event.setWritingFinished b] }

/-- A busy wait on `ioSharedData.writingFinished`: it ends when the flag is
seen set, which only the snapshot thread can bring about. -/
def waitWritingFinished (env : Env) : Exec Unit := do
  let s ← getS
  if s.ioSharedData.writingFinished then pure ()
  else
    match env.ioThread s.ioSharedData with
    | none => haltWith Halt.waitsForever
    | some io =>
      if io.writingFinished then modifyS fun s => { s with ioSharedData := io }
      else haltWith Halt.waitsForever

/-- Lines 355-387: the snapshot hand-off. -/
def snapshot (cfg : Config) (env : Env) : Exec Unit := do
  if Config.useMPIIO cfg then
    if cfg.USE_MPI then
      if cfg.mpiRenderMode then emit Event.dumpDataMPI
      else emit Event.dumpData
  else if cfg.snapshotIter > 0 then
    let s ← getS
    if s.t_current ≥ s.nextSnapTime then
      modifyS fun s => { s with nextSnapTime := s.nextSnapTime + cfg.snapshotIter }
      waitWritingFinished env
      modifyS fun s => { s with ioSharedData := { s.ioSharedData with t_current := s.t_current } }
      let s ← getS
      if s.ioSharedData.nBodies ≠ 0 then haltWith Halt.assertFailed
      modifyS fun s => { s with ioSharedData := { s.ioSharedData with nBodies := s.n } }
      d2hShared Buffer.bodies_pos
      d2hShared Buffer.bodies_vel
      d2hShared Buffer.bodies_ids
      setWritingFinished false
      if cfg.nProcs ≤ 16 then waitWritingFinished env

/-- Lines 390-402: the stop conditions. -/
def stopConditions (cfg : Config) (env : Env) : Exec Bool := do
  let s ← getS
  if s.iter ≥ cfg.iterEnd then pure true
  else if s.t_current ≥ cfg.tEnd then
    let _de ← compute_energies cfg env
    let _totalTime ← get_time env
    pure true
  else
    modifyS fun s => { s with iter := s.iter + 1 }
    pure false

/-- Embedding of `octree::iterate_once` (lines 109-403). -/
def iterate_once (cfg : Config) (env : Env) : Exec Bool := do
  emit Event.iterate_once
  clearStartupTimings env
  predictStep cfg env
  let needDomainUpdate ← domainUpdate cfg env
  let t1 ← forces cfg env needDomainUpdate
  afterForces cfg env t1
  correctStep cfg env
  loadBalance cfg env
  countActive
  energyStep cfg env
  statistics cfg env
  snapshot cfg env
  stopConditions cfg env

/-- The part of `iterate_once` that follows the domain update (lines 173-403),
as a function of `needDomainUpdate`. -/
def stepTail (cfg : Config) (env : Env) (needDomainUpdate : Bool) : Exec Bool := do
  let t1 ← forces cfg env needDomainUpdate
  afterForces cfg env t1
  correctStep cfg env
  loadBalance cfg env
  countActive
  energyStep cfg env
  statistics cfg env
  snapshot cfg env
  stopConditions cfg env

/-! ## Setup, teardown and the driver loop -/

/-- Line 91 of `iterate_setup`: `(int)(100*(maxN-minN)/(double)minN)`. The
product is formed in `int`; the quotient of two 32-bit integers is formed in
`double` and truncated, which is the truncated integer quotient. A zero divisor
gives a non-finite quotient, whose conversion to `int` is undefined. -/
def perc (maxN minN : Int) : Option Int :=
  if minN = 0 ∨ (wrap32 (100 * wrap32 (maxN - minN)) = INT_MIN ∧ minN = -1) then none
  else some (Int.tdiv (wrap32 (100 * wrap32 (maxN - minN))) minN)

/-- Lines 79-98: the redistribution passes `i, i+1, ...` while `i < 5`, with
`k` passes left. -/
def setupPasses (cfg : Config) (env : Env) : Nat → Nat → Exec Unit
  | 0, _ => pure ()
  | k + 1, i => do
    emit (Event.sort_bodies true (some true))
    emit Event.parallelDataSummary
    modifyS fun s => { s with n := (env.setupPass i).newN }
    emit Event.MPI_Allreduce
    emit Event.MPI_Allreduce
    match perc (env.setupPass i).maxN (env.setupPass i).minN with
    | none => haltWith Halt.undefinedBehaviour
    | some p =>
      if p < 10 then pure ()
      else setupPasses cfg env k (i + 1)

/-- Creation of one stream when its handle is `NULL` (lines 63-66). -/
def newStreamIfNull (st : Stream) (get : State → Option Nat)
    (set : State → Option Nat → State) : Exec Unit := do
  let s ← getS
  if get s = none then
    emit (Event.newStream st)
    modifyS fun s => { set s (some s.streamsMade) with streamsMade := s.streamsMade + 1 }

/-- Embedding of `octree::iterate_setup` (lines 61-106). -/
def iterate_setup (cfg : Config) (env : Env) : Exec Unit := do
  emit Event.iterate_setup
  newStreamIfNull Stream.execStream (fun s => s.execStream) (fun s h => { s with execStream := h })
  newStreamIfNull Stream.gravStream (fun s => s.gravStream) (fun s h => { s with gravStream := h })
  newStreamIfNull Stream.copyStream (fun s => s.copyStream) (fun s h => { s with copyStream := h })
  newStreamIfNull Stream.LETDataToHostStream (fun s => s.LETDataToHostStream)
    (fun s h => { s with LETDataToHostStream := h })
  emit (Event.cudaEventCreate GpuEvent.startLocalGrav)
  emit (Event.cudaEventCreate GpuEvent.endLocalGrav)
  emit (Event.cudaEventCreate GpuEvent.startRemoteGrav)
  emit (Event.cudaEventCreate GpuEvent.endRemoteGrav)
  if cfg.USE_MPI then
    if cfg.nProcs > 1 then
      setupPasses cfg env 5 0
  emit (Event.sort_bodies true (some true))
  modifyS fun s => { s with letRunning := false }
  let t ← get_time env
  modifyS fun s => { s with idata := { s.idata with startTime := t } }

/-- Release of one stream when its handle is not `NULL` (lines 408-426). -/
def deleteStreamIfSet (st : Stream) (get : State → Option Nat)
    (set : State → Option Nat → State) : Exec Unit := do
  let s ← getS
  if get s ≠ none then
    emit (Event.deleteStream st)
    modifyS fun s => set s none

/-- Embedding of `octree::iterate_teardown` (lines 407-427). -/
def iterate_teardown : Exec Unit := do
  emit Event.iterate_teardown
  deleteStreamIfSet Stream.execStream (fun s => s.execStream) (fun s h => { s with execStream := h })
  deleteStreamIfSet Stream.gravStream (fun s => s.gravStream) (fun s h => { s with gravStream := h })
  deleteStreamIfSet Stream.copyStream (fun s => s.copyStream) (fun s h => { s with copyStream := h })
  deleteStreamIfSet Stream.LETDataToHostStream (fun s => s.LETDataToHostStream)
    (fun s h => { s with LETDataToHostStream := h })

/-- One turn of the `while(true)` loop of `iterate` (lines 436-457); the
result is `stopRun`. -/
def iterateBody (cfg : Config) (env : Env) : Exec Bool := do
  let stopRun ← iterate_once cfg env
  let _totalTime ← get_time env
  emit Event.writeLogToFile
  pure stopRun

/-- The `while(true)` loop of `iterate` with a bound on the number of turns:
`none` when the bound is used up before the loop is left. Turn `k` of the
loop reads its oracles from `envs k`. -/
def iterateLoop (cfg : Config) (envs : Nat → Env) : Nat → Nat → State → Option (Outcome Unit)
  | 0, _, _ => none
  | fuel + 1, k, s =>
    match iterateBody cfg (envs k) s with
    | Outcome.ret true s1 => some (Outcome.ret () s1)
    | Outcome.ret false s1 => iterateLoop cfg envs fuel (k + 1) s1
    | Outcome.halt h s1 => some (Outcome.halt h s1)

/-- Embedding of `octree::iterate` (lines 429-461). `idata0` is the value of
the default-constructed local `IterationData idata`, `env0` serves
`iterate_setup`. -/
def iterate (cfg : Config) (env0 : Env) (envs : Nat → Env) (idata0 : IterationData)
    (fuel : Nat) (s : State) : Option (Outcome Unit) :=
  match iterate_setup cfg env0 { s with idata := idata0 } with
  | Outcome.halt h s1 => some (Outcome.halt h s1)
  | Outcome.ret _ s1 =>
    match iterateLoop cfg envs fuel 0 s1 with
    | none => none
    | some (Outcome.halt h s2) => some (Outcome.halt h s2)
    | some (Outcome.ret _ s2) => some (iterate_teardown s2)

/-! ## Vocabulary of the statements -/

/-- The events issued between a state `s` and a later state `s1`. -/
def eventsSince (s s1 : State) : List Event := s1.trace.drop s.trace.length

/-- Force evaluation: the calls of the force functions and the launches of the
force kernels. -/
def isForceEvaluation : Event → Bool
  | Event.direct_gravity => true
  | Event.approximate_gravity => true
  | Event.makeLET => true
  | Event.approximate_gravity_let => true
  | Event.execute2 Kernel.directGrav _ => true
  | Event.execute2 Kernel.SPHDensity _ => true
  | Event.execute2 Kernel.SPHDensityNGBTest _ => true
  | Event.execute2 Kernel.approxGrav _ => true
  | Event.execute2 Kernel.approxGravLET _ => true
  | _ => false

/-- The functions of the two force paths named in the step pipeline. -/
def isForcePathCall : Event → Bool
  | Event.direct_gravity => true
  | Event.sort_bodies _ _ => true
  | Event.build => true
  | Event.compute_properties => true
  | Event.approximate_gravity => true
  | Event.makeLET => true
  | _ => false

/-- Tree construction, multipole computation and the local tree walk. -/
def isTreeOp : Event → Bool
  | Event.sort_bodies _ _ => true
  | Event.build => true
  | Event.allocateTreePropMemory => true
  | Event.compute_properties => true
  | Event.approximate_gravity => true
  | _ => false

/-- Domain decomposition and the barrier that follows it. -/
def isDomainOp : Event → Bool
  | Event.parallelDataSummary => true
  | Event.mpiSync => true
  | _ => false

/-- The two operations of the remote-tree buffer protocol: the transfer into
the buffer and the launch of the kernel that reads it. -/
def isLetCritical : Event → Bool
  | Event.h2d Buffer.fullRemoteTree => true
  | Event.execute2 Kernel.approxGravLET _ => true
  | _ => false

/-- Monitor of the remote-tree buffer. The first component says that a
remote-force kernel was launched and the gravity stream has not been
synchronized since; the second that no transfer into the buffer was issued
while the first was set. -/
def letMonitorStep (m : Bool × Bool) : Event → Bool × Bool
  | Event.execute2 Kernel.approxGravLET _ => (true, m.2)
  | Event.sync Stream.gravStream => (false, m.2)
  | Event.h2d Buffer.fullRemoteTree => (m.1, m.2 && !m.1)
  | _ => m

/-- The monitor after a whole trace. -/
def letMonitor (tr : List Event) : Bool × Bool := tr.foldl letMonitorStep (false, true)

/-- No transfer into the remote-tree buffer was issued while a remote-force
kernel was in flight. -/
def letSafe (tr : List Event) : Bool := (letMonitor tr).2

/-- No remote-force kernel is in flight at the end of the trace. -/
def letJoined (tr : List Event) : Bool := !(letMonitor tr).1

/-- The remote-tree buffer is untouched by a kernel in flight: no unsafe
transfer so far and no remote-force kernel launched since the last
synchronization of the gravity stream. -/
def LetIdle (s : State) : Prop := letSafe s.trace = true ∧ letJoined s.trace = true

/-- The invariant of the LET exchange: no unsafe transfer so far, and a
remote-force kernel can be in flight only while `letRunning` is set. -/
def LetGuarded (s : State) : Prop :=
  letSafe s.trace = true ∧ (letJoined s.trace = true ∨ s.letRunning = true)

/-- No unsafe transfer so far. -/
def LetSafe (s : State) : Prop := letSafe s.trace = true

/-- From a state satisfying `P`, the body `m` returns in a state satisfying `Q`
or halts in a state satisfying `H`. -/
structure Triple {α : Type} (P : State → Prop) (m : Exec α) (Q H : State → Prop) : Prop where
  run : ∀ s, P s → match m s with
    | Outcome.ret _ s1 => Q s1
    | Outcome.halt _ s1 => H s1

/-- `CompletedSteps cfg envs k s s1 total`: `k` consecutive calls of
`iterate_once`, call `j` reading its oracles from `envs j`, all return and lead
from `s` to `s1`; `total` is the sum of the values of `n_active_particles` they
leave. -/
inductive CompletedSteps (cfg : Config) (envs : Nat → Env) :
    Nat → State → State → Int → Prop
  | zero (s : State) : CompletedSteps cfg envs 0 s s 0
  | succ {k : Nat} {s s1 s2 : State} {b : Bool} {total : Int} :
      CompletedSteps cfg envs k s s1 total →
      iterate_once cfg (envs k) s1 = Outcome.ret b s2 →
      CompletedSteps cfg envs (k + 1) s s2 (total + s2.n_active_particles)

/-- Frame of a block of code: the trace grows by events of `al` only, and the
fields selected by the flags are kept (`iter`, `t_current`, the active-particle
counter, `n_active_particles`). -/
def Frame (al : List Event) (keepIter keepT keepNact keepActive : Bool) (s s1 : State) : Prop :=
  (∃ evs, s1.trace = s.trace ++ evs ∧ ∀ e ∈ evs, e ∈ al)
  ∧ (keepIter = true → s1.iter = s.iter)
  ∧ (keepT = true → s1.t_current = s.t_current)
  ∧ (keepNact = true →
      s1.idata.Nact_since_last_tree_rebuild = s.idata.Nact_since_last_tree_rebuild)
  ∧ (keepActive = true → s1.n_active_particles = s.n_active_particles)

/-- Every outcome of `m` is related to its start state by `R`. -/
structure Sat {α : Type} (R : State → State → Prop) (m : Exec α) : Prop where
  run : ∀ s, R s (m s).state

/-- A body that halts the process from every state. -/
structure NeverReturns {α : Type} (m : Exec α) : Prop where
  run : ∀ s, (m s).returned = false

/-- Events of `predict`. -/
def predictAlphabet : List Event :=
  [Event.predict, Event.execute2 Kernel.getTNext Stream.execStream, Event.d2h Buffer.tnext,
   Event.execute2 Kernel.predictParticles Stream.execStream]

/-- Events of the domain update. -/
def domainAlphabet : List Event := [Event.parallelDataSummary, Event.mpiSync]

/-- Events of `approximate_gravity` after its entry. -/
def approxAlphabet : List Event :=
  [Event.zeroMemGPUAsync Buffer.activePartlist Stream.gravStream,
   Event.zeroMemGPUAsync Buffer.ngbOffsets Stream.gravStream,
   Event.zeroMemGPUAsync Buffer.ngbsList Stream.gravStream,
   Event.d2h Buffer.bodies_ids, Event.d2h Buffer.bodies_Ppos, Event.d2h Buffer.bodies_dens,
   Event.d2h Buffer.bodies_grad, Event.h2d Buffer.bodies_h, Event.zeroMem Buffer.interactions,
   Event.zeroMem Buffer.bodies_grad, Event.zeroMemGPUAsync Buffer.bodies_acc1 Stream.gravStream,
   Event.cudaDeviceSynchronize, Event.cudaEventRecord GpuEvent.startLocalGrav Stream.gravStream,
   Event.execute2 Kernel.SPHDensity Stream.gravStream,
   Event.cudaEventRecord GpuEvent.endLocalGrav Stream.gravStream,
   Event.execute2 Kernel.SPHDensityNGBTest Stream.gravStream,
   Event.d2h Buffer.ngbOffsets, Event.d2h Buffer.bodies_hydro, Event.d2h Buffer.bodies_acc1,
   Event.d2h Buffer.interactions, Event.execute2 Kernel.approxGrav Stream.gravStream,
   Event.sync Stream.gravStream, Event.cudaDeviceReset, Event.exit 0]

/-- Events of `approximate_gravity_let`. -/
def letAlphabet : List Event :=
  [Event.approximate_gravity_let, Event.sync Stream.gravStream, Event.h2d Buffer.fullRemoteTree,
   Event.zeroMemGPUAsync Buffer.activePartlist Stream.gravStream,
   Event.cudaEventRecord GpuEvent.startRemoteGrav Stream.gravStream,
   Event.execute2 Kernel.approxGravLET Stream.gravStream,
   Event.cudaEventRecord GpuEvent.endRemoteGrav Stream.gravStream]

/-- Events of `makeLET`. -/
def makeLETAlphabet : List Event :=
  [Event.makeLET, Event.d2h Buffer.boxSizeInfo, Event.d2h Buffer.boxCenterInfo,
   Event.d2h Buffer.multipole, Event.sendCurrentInfoGrpTree, Event.essential_tree_exchangeV2]
  ++ letAlphabet

/-- Events of `approximate_gravity`. -/
def approxCallAlphabet : List Event := Event.approximate_gravity :: approxAlphabet

/-- Events of the force evaluation (lines 173-230) issued by `iterate_once`
itself and by `direct_gravity`. -/
def treeAlphabet : List Event :=
  [Event.direct_gravity, Event.execute2 Kernel.directGrav Stream.gravStream,
   Event.sort_bodies true none, Event.sort_bodies false none, Event.build,
   Event.allocateTreePropMemory, Event.compute_properties, Event.setActiveGrpsFunc]

/-- Events of the force evaluation (lines 173-230). -/
def forcesAlphabet : List Event :=
  treeAlphabet ++ (approxCallAlphabet ++ makeLETAlphabet)

/-- Events of lines 232-285. -/
def afterForcesAlphabet : List Event :=
  [Event.sync Stream.gravStream, Event.d2h Buffer.interactions]

/-- Events of `correct`. -/
def correctAlphabet : List Event :=
  [Event.correct, Event.sync Stream.gravStream,
   Event.execute2 Kernel.getNActive Stream.execStream, Event.d2h Buffer.nactive,
   Event.execute2 Kernel.correctParticles Stream.execStream,
   Event.copy_devonly Buffer.bodies_acc0, Event.copy_devonly Buffer.bodies_time,
   Event.execute2 Kernel.computeDt Stream.execStream]

/-- Events of the load-balance reduction. -/
def loadBalanceAlphabet : List Event := [Event.MPI_Allreduce]

/-- Events of `compute_energies`. -/
def energyAlphabet : List Event :=
  [Event.compute_energies, Event.execute2 Kernel.computeEnergy Stream.execStream,
   Event.d2h Buffer.energy, Event.AllSum]

/-- Events of the statistics and snapshot blocks. -/
def outputAlphabet : List Event :=
  [Event.d2h Buffer.bodies_pos, Event.d2h Buffer.bodies_vel, Event.d2h Buffer.bodies_ids,
   Event.DENSITY, Event.DISKSTATS, Event.dumpDataMPI, Event.dumpData,
   Event.d2hShared Buffer.bodies_pos true, Event.d2hShared Buffer.bodies_vel true,
   Event.d2hShared Buffer.bodies_ids true, Event.setWritingFinished false]

/-- Events of the snapshot block when the state of `writingFinished` at the
copies is left open. -/
def snapshotLooseAlphabet : List Event :=
  outputAlphabet ++ [Event.d2hShared Buffer.bodies_pos false,
    Event.d2hShared Buffer.bodies_vel false, Event.d2hShared Buffer.bodies_ids false]

/-- Events of the part of a step that follows the domain update. -/
def tailAlphabet : List Event :=
  forcesAlphabet ++ (afterForcesAlphabet ++ (correctAlphabet ++ (loadBalanceAlphabet
    ++ (energyAlphabet ++ outputAlphabet))))

/-- Events of a step up to and including the predictor. -/
def headAlphabet : List Event := Event.iterate_once :: predictAlphabet

/-- Events of a whole step. -/
def stepAlphabet : List Event :=
  headAlphabet ++ (domainAlphabet ++ tailAlphabet)

/-- Events of `iterate_setup` outside the redistribution passes. -/
def setupSingleAlphabet : List Event :=
  [Event.iterate_setup, Event.newStream Stream.execStream, Event.newStream Stream.gravStream,
   Event.newStream Stream.copyStream, Event.newStream Stream.LETDataToHostStream,
   Event.cudaEventCreate GpuEvent.startLocalGrav, Event.cudaEventCreate GpuEvent.endLocalGrav,
   Event.cudaEventCreate GpuEvent.startRemoteGrav, Event.cudaEventCreate GpuEvent.endRemoteGrav,
   Event.sort_bodies true (some true)]

/-- Events of `iterate_setup`. -/
def setupAlphabet : List Event :=
  [Event.iterate_setup, Event.newStream Stream.execStream, Event.newStream Stream.gravStream,
   Event.newStream Stream.copyStream, Event.newStream Stream.LETDataToHostStream,
   Event.cudaEventCreate GpuEvent.startLocalGrav, Event.cudaEventCreate GpuEvent.endLocalGrav,
   Event.cudaEventCreate GpuEvent.startRemoteGrav, Event.cudaEventCreate GpuEvent.endRemoteGrav,
   Event.sort_bodies true (some true), Event.parallelDataSummary, Event.MPI_Allreduce]

/-- Events of `iterate_teardown`. -/
def teardownAlphabet : List Event :=
  [Event.iterate_teardown, Event.deleteStream Stream.execStream,
   Event.deleteStream Stream.gravStream, Event.deleteStream Stream.copyStream,
   Event.deleteStream Stream.LETDataToHostStream]

/-! ## Concrete inputs -/

/-- An environment whose oracles all answer zero, with one particle per
process and a snapshot thread that never completes. -/
def quietEnv : Env where
  get_time := fun _ => 0
  tnext := fun _ => 0
  nactive := fun _ => 0
  energy := fun _ => (0, 0)
  remoteEpot := 0
  remoteEkin := 0
  domainN := 1
  domUp := 0
  domEx := 0
  gpuSPHDensity := 0
  gpuApproxGrav := 0
  letCalls := []
  letExTime := 0
  reduceMax := 0
  reduceSum := 0
  ioThread := fun _ => none
  setupPass := fun _ => { newN := 1, maxN := 1, minN := 1 }
  fadd := fun a b => a + b

/-- All timers and counters zero. -/
def zeroIterationData : IterationData where
  Nact_since_last_tree_rebuild := 0
  totalGPUGravTimeLocal := 0
  totalGPUGravTimeLET := 0
  totalLETCommTime := 0
  totalBuildTime := 0
  totalDomTime := 0
  totalGravTime := 0
  totalDomUp := 0
  totalDomEx := 0
  totalDomWait := 0
  totalPredCor := 0
  totalWaitTime := 0
  lastWaitTime := 0
  lastGravTime := 0
  lastBuildTime := 0
  lastDomTime := 0
  lastLETCommTime := 0
  lastGPUGravTimeLocal := 0
  lastGPUGravTimeLET := 0
  startTime := 0

/-- The state of a fresh `octree` holding one particle, at iteration 0 and
time 0, with an empty trace. -/
def initState : State where
  iter := 0
  t_current := 0
  t_previous := 0
  predictTemp := 0
  letRunning := false
  runningLETTimeSum := 0
  lastTotal := 0
  lastLocal := 0
  thisPartLETExTime := 0
  maxExecTimePrevStep := 0
  avgExecTimePrevStep := 0
  n := 1
  n_active_particles := 0
  elapsedLocalGrav := 0
  elapsedRemoteGrav := 0
  execStream := none
  gravStream := none
  copyStream := none
  LETDataToHostStream := none
  streamsMade := 0
  nextStatsTime := 0
  nextSnapTime := 0
  ioSharedData := { writingFinished := true, nBodies := 0, t_current := 0 }
  en := { Ekin := 0, Epot := 0, Etot := 0, Ekin0 := 0, Epot0 := 0, Etot0 := 0,
          Ekin1 := 0, Epot1 := 0, Etot1 := 0, tinit := 0, store_energy_flag := true }
  idata := zeroIterationData
  clock := 0
  trace := []

/-- The fresh state with the active-particle counter at 5. -/
def countedState : State :=
  { initState with idata := { zeroIterationData with Nact_since_last_tree_rebuild := 5 } }

/-- Single process, tree mode, shared time step, tree rebuilt every step, ten
iterations, no statistics and no snapshots. -/
def treeConfig : Config where
  USE_MPI := false
  DO_BLOCK_TIMESTEP := false
  NBLOCK_REDUCE := 1
  nProcs := 1
  procId := 0
  useDirectGravity := false
  rebuild_tree_rate := 1
  iterEnd := 10
  tEnd := 100
  timeStep := 1
  statisticsIter := 0
  snapshotIter := 0
  useMPIIO := false
  mpiRenderMode := false

/-- The tree-mode run compiled with `DO_BLOCK_TIMESTEP`. -/
def blockTreeConfig : Config := { treeConfig with DO_BLOCK_TIMESTEP := true }

/-- The same run in direct-summation mode. -/
def directConfig : Config := { treeConfig with useDirectGravity := true }

/-- Two processes, tree mode, MPI compiled in, tree rebuilt every second step. -/
def twoProcTreeConfig : Config :=
  { treeConfig with USE_MPI := true, nProcs := 2, rebuild_tree_rate := 2 }

/-- The oracles of `quietEnv` with two remote trees received in the exchange. -/
def letEnv : Env :=
  { quietEnv with
    letCalls := [
      { remoteP := 4, remoteN := 2, nodeTexOffset := 0, topNodes := 1, bufferSize := 16,
        doActiveParticles := false, gpuTime := 0 },
      { remoteP := 8, remoteN := 3, nodeTexOffset := 0, topNodes := 1, bufferSize := 32,
        doActiveParticles := true, gpuTime := 0 }] }

/-- Direct summation with the iteration limit already reached: the first step
is the last one. -/
def lastStepConfig : Config := { directConfig with iterEnd := 0 }

/-! ## Further blocks, vocabulary and inputs -/

/-- The value an outcome returns, if it returns. -/
def Outcome.result {α : Type} : Outcome α → Option α
  | Outcome.ret a _ => some a
  | Outcome.halt _ _ => none

/-- `k` calls of a function body in succession. -/
def repeatExec (m : Exec Unit) : Nat → Exec Unit
  | 0 => pure ()
  | k + 1 => do
    m
    repeatExec m k

/-- The start of a run whose `IterationData` holds 7 in `totalWaitTime`. -/
def waitedState : State :=
  { initState with idata := { zeroIterationData with totalWaitTime := 7 } }

/-- The start of a run on a process that holds no particle. -/
def emptyState : State := { initState with n := 0 }

/-- Two processes, tree mode, compiled with `DO_BLOCK_TIMESTEP`. -/
def twoProcBlockConfig : Config := { twoProcTreeConfig with DO_BLOCK_TIMESTEP := true }

/-- The oracles of `quietEnv` on a process whose `getTNext` kernel reports the
minimum `t` in every block. -/
def localMinEnv (t : ℚ) : Env := { quietEnv with tnext := fun _ => t }
/-- Lines 227-229 of `iterate_once`: the running sum of remote GPU time is
cleared and, with several processes, the LET exchange is made. -/
def letPhase (cfg : Config) (env : Env) : Exec Unit := do
  modifyS fun s => { s with runningLETTimeSum := 0 }
  if cfg.nProcs > 1 then makeLET env

/-- Lines 227-285 of `iterate_once`: the LET exchange followed by the join of
the gravity stream and the GPU time accounting; `t1` is the time read before
the local tree walk. -/
def letAccounting (cfg : Config) (env : Env) (t1 : ℚ) : Exec Unit := do
  letPhase cfg env
  afterForces cfg env t1

/-- GPU time of remote-force kernels that the bookkeeping holds at a point of
the exchange: the running sum plus, while a kernel is marked as launched, the
time of the last event pair. -/
def letTimeHeld (s : State) : ℚ :=
  s.runningLETTimeSum + (if s.letRunning then s.elapsedRemoteGrav else 0)

/-- The oracles of `quietEnv` with two remote trees whose kernels take 3 and 5
units of GPU time. -/
def timedLetEnv : Env :=
  { quietEnv with
    letCalls := [
      { remoteP := 4, remoteN := 2, nodeTexOffset := 0, topNodes := 1, bufferSize := 16,
        doActiveParticles := false, gpuTime := 3 },
      { remoteP := 8, remoteN := 3, nodeTexOffset := 0, topNodes := 1, bufferSize := 32,
        doActiveParticles := false, gpuTime := 5 }] }
/-- An argument expression of the two `set_args` calls that bind the
parameters of the tree-walk kernels (lines 878-897 and 1071-1091), named as in
the source. -/
inductive KernelArg
  | n_active_groups | n | eps2 | node_begend
  | active_group_list | bodies_Ppos | multipole | bodies_acc1 | ngb
  | activePartlist | interactions | boxSizeInfo | groupSizeInfo
  | boxCenterInfo | groupCenterInfo | bodies_Pvel | generalBuffer1
  | bodies_h | bodies_dens
  | fullRemoteTree | multiLoc | boxSILoc | boxCILoc
  deriving DecidableEq

/-- The arguments of `approxGrav.set_args(0, ...)` in `approximate_gravity`
(lines 878-897), in order. -/
def approxGrav_args : List KernelArg :=
  [KernelArg.n_active_groups, KernelArg.n, KernelArg.eps2, KernelArg.node_begend,
   KernelArg.active_group_list, KernelArg.bodies_Ppos, KernelArg.multipole,
   KernelArg.bodies_acc1, KernelArg.bodies_Ppos, KernelArg.ngb, KernelArg.activePartlist,
   KernelArg.interactions, KernelArg.boxSizeInfo, KernelArg.groupSizeInfo,
   KernelArg.boxCenterInfo, KernelArg.groupCenterInfo, KernelArg.bodies_Pvel,
   KernelArg.generalBuffer1, KernelArg.bodies_h, KernelArg.bodies_dens]

/-- The arguments of `approxGravLET.set_args(0, ...)` in
`approximate_gravity_let` (lines 1071-1091), in order. -/
def approxGravLET_args : List KernelArg :=
  [KernelArg.n_active_groups, KernelArg.n, KernelArg.eps2, KernelArg.node_begend,
   KernelArg.active_group_list, KernelArg.fullRemoteTree, KernelArg.multiLoc,
   KernelArg.bodies_acc1, KernelArg.bodies_Ppos, KernelArg.ngb, KernelArg.activePartlist,
   KernelArg.interactions, KernelArg.boxSILoc, KernelArg.groupSizeInfo,
   KernelArg.boxCILoc, KernelArg.groupCenterInfo, KernelArg.bodies_Pvel,
   KernelArg.generalBuffer1, KernelArg.bodies_h, KernelArg.bodies_dens]

/-- The device buffer a host-side operation resets or overwrites, if any. -/
def hostOverwrites : Event → Option Buffer
  | Event.zeroMem b => some b
  | Event.zeroMemGPUAsync b _ => some b
  | Event.h2d b => some b
  | Event.copy_devonly b => some b
  | _ => none

/-- The device buffer a host-side operation clears, if any. -/
def hostClears : Event → Option Buffer
  | Event.zeroMem b => some b
  | Event.zeroMemGPUAsync b _ => some b
  | _ => none
/-- The body of `compute_energies` (lines 1243-1339) with the step-to-step
drift `dde` of line 1312 as its result instead of `de`; `dde` is only printed
by the source. -/
def compute_energies_dde (cfg : Config) (env : Env) : Exec (Option ℚ) := do
  emit Event.compute_energies
  modifyS fun s => { s with en := { s.en with Ekin := 0, Epot := 0 } }
  emit (Event.execute2 Kernel.computeEnergy Stream.execStream)
  emit (Event.d2h Buffer.energy)
  modifyS fun s => { s with en := { s.en with
    Ekin := (List.range' 1 (cfg.NBLOCK_REDUCE - 1)).foldl
      (fun a i => a + (env.energy i).1) (env.energy 0).1,
    Epot := (List.range' 1 (cfg.NBLOCK_REDUCE - 1)).foldl
      (fun a i => a + (env.energy i).2) (env.energy 0).2 } }
  emit Event.AllSum
  modifyS fun s => { s with en := { s.en with Epot := AllSum s.en.Epot env.remoteEpot } }
  emit Event.AllSum
  modifyS fun s => { s with en := { s.en with Ekin := AllSum s.en.Ekin env.remoteEkin } }
  modifyS fun s => { s with en := { s.en with Etot := s.en.Epot + s.en.Ekin } }
  let s ← getS
  if s.en.store_energy_flag then
    modifyS fun s => { s with en := { s.en with
      Ekin0 := s.en.Ekin, Epot0 := s.en.Epot, Etot0 := s.en.Etot,
      Ekin1 := s.en.Ekin, Epot1 := s.en.Epot, Etot1 := s.en.Etot } }
    let t ← get_time env
    modifyS fun s => { s with en := { s.en with tinit := t, store_energy_flag := false } }
  let s ← getS
  let _de := fdiv (s.en.Etot - s.en.Etot0) s.en.Etot0
  let dde := fdiv (s.en.Etot - s.en.Etot1) s.en.Etot1
  modifyS fun s => { s with en := { s.en with
    Ekin1 := s.en.Ekin, Epot1 := s.en.Epot, Etot1 := s.en.Etot } }
  if cfg.procId = 0 then
    let _t ← get_time env
    let _t ← get_time env
  pure dde

/-- The kinetic energy of all processes for the partial sums `env.energy` of
the blocks of this process: the sum over the `NBLOCK_REDUCE` blocks, reduced
with `AllSum`. -/
def totalEkin (cfg : Config) (env : Env) : ℚ :=
  AllSum ((List.range cfg.NBLOCK_REDUCE).map fun i => (env.energy i).1).sum env.remoteEkin

/-- The potential energy of all processes, as `totalEkin`. -/
def totalEpot (cfg : Config) (env : Env) : ℚ :=
  AllSum ((List.range cfg.NBLOCK_REDUCE).map fun i => (env.energy i).2).sum env.remoteEpot

/-- The oracles of `quietEnv` with kinetic energy 3 and potential energy -5 in
the first block. -/
def energyEnv : Env := { quietEnv with energy := fun i => if i = 0 then (3, -5) else (0, 0) }
/-- Lines 63-71 of `iterate_setup`: the execution channels and the GPU event
pairs. -/
def setupStreams : Exec Unit := do
  emit Event.iterate_setup
  newStreamIfNull Stream.execStream (fun s => s.execStream) (fun s h => { s with execStream := h })
  newStreamIfNull Stream.gravStream (fun s => s.gravStream) (fun s h => { s with gravStream := h })
  newStreamIfNull Stream.copyStream (fun s => s.copyStream) (fun s h => { s with copyStream := h })
  newStreamIfNull Stream.LETDataToHostStream (fun s => s.LETDataToHostStream)
    (fun s h => { s with LETDataToHostStream := h })
  emit (Event.cudaEventCreate GpuEvent.startLocalGrav)
  emit (Event.cudaEventCreate GpuEvent.endLocalGrav)
  emit (Event.cudaEventCreate GpuEvent.startRemoteGrav)
  emit (Event.cudaEventCreate GpuEvent.endRemoteGrav)

/-- Lines 76-99 of `iterate_setup`: the balance loop, compiled under `USE_MPI`
and run with several processes. -/
def setupBalance (cfg : Config) (env : Env) : Exec Unit := do
  if cfg.USE_MPI then
    if cfg.nProcs > 1 then
      setupPasses cfg env 5 0

/-- Lines 101-105 of `iterate_setup`: the final sort and the start of the
timers. -/
def setupFinish (env : Env) : Exec Unit := do
  emit (Event.sort_bodies true (some true))
  modifyS fun s => { s with letRunning := false }
  let t ← get_time env
  modifyS fun s => { s with idata := { s.idata with startTime := t } }

/-- The two operations of a redistribution pass, and the sorts in general. -/
def isRedistributionOp : Event → Bool
  | Event.sort_bodies _ _ => true
  | Event.parallelDataSummary => true
  | _ => false

/-- Whether pass `i` of the balance loop measures an imbalance below 10%:
the test `perc < 10` of line 97. -/
def passBalanced (env : Env) (i : Nat) : Bool :=
  match perc (env.setupPass i).maxN (env.setupPass i).minN with
  | some p => decide (p < 10)
  | none => false

/-- The number of passes made when `k` passes are left and the next has index
`i`: passes are made up to and including the first balanced one. -/
def passCount (env : Env) : Nat → Nat → Nat
  | 0, _ => 0
  | k + 1, i => if passBalanced env i then 1 else 1 + passCount env k (i + 1)

/-- The sorts and decompositions of `m` redistribution passes. -/
def passEvents : Nat → List Event
  | 0 => []
  | m + 1 => Event.sort_bodies true (some true) :: Event.parallelDataSummary :: passEvents m

/-- The oracles of `quietEnv` with particle counts that are balanced from the
third redistribution pass on: 200%, 10%, then 0% of imbalance. -/
def unevenEnv : Env :=
  { quietEnv with
    setupPass := fun i =>
      if i = 0 then { newN := 30, maxN := 30, minN := 10 }
      else if i = 1 then { newN := 11, maxN := 11, minN := 10 }
      else { newN := 10, maxN := 10, minN := 10 } }

/-! ## Blocks, vocabulary and inputs of the later properties -/

/-- A call of `sort_bodies` that is told not to update the domain boundaries. -/
def isStaleSort : Event → Bool
  | Event.sort_bodies false _ => true
  | _ => false

/-- Since the trace `base`, no operation selected by `p` has been issued. -/
def Avoids (p : Event → Bool) (base : List Event) (s : State) : Prop :=
  ∃ evs, s.trace = base ++ evs ∧ ∀ e ∈ evs, p e = false
/-- The four execution channels of `s1` are those of `s`. -/
def SameStreams (s s1 : State) : Prop :=
  s1.execStream = s.execStream ∧ s1.gravStream = s.gravStream
    ∧ s1.copyStream = s.copyStream ∧ s1.LETDataToHostStream = s.LETDataToHostStream

/-- The creations and releases of execution channels. -/
def isStreamOp : Event → Bool
  | Event.newStream _ => true
  | Event.deleteStream _ => true
  | _ => false

/-- A state in which the four execution channels exist. -/
def streamsState : State :=
  { initState with
    execStream := some 0, gravStream := some 1, copyStream := some 2,
    LETDataToHostStream := some 3, streamsMade := 4 }
/-- A run with one process that hands a snapshot to the I/O thread at every
unit of simulation time. -/
def snapshotConfig : Config := { directConfig with snapshotIter := 1 }

/-- The oracles of `quietEnv` with an I/O thread that completes a pending
write and hands back an empty buffer. -/
def writerEnv : Env :=
  { quietEnv with
    ioThread := fun io => some { io with writingFinished := true, nBodies := 0 } }

/-- The start of a run while a snapshot is still being written. -/
def writingState : State :=
  { initState with
    ioSharedData := { initState.ioSharedData with writingFinished := false, nBodies := 1 } }
/-- Two processes, direct summation, MPI compiled in. -/
def mpiDirectConfig : Config := { directConfig with USE_MPI := true, nProcs := 2 }

/-- The oracles of `quietEnv` with a wall clock that advances by one unit per
reading. -/
def tickEnv : Env := { quietEnv with get_time := fun k => k }

/-- A state after the start-up phase (`iter = 32`) in which the previous steps
have left 5 units in `lastWaitTime` and in `totalWaitTime`. -/
def lateState : State :=
  { initState with
    iter := 32,
    idata := { zeroIterationData with lastWaitTime := 5, totalWaitTime := 5 } }
/-- The energy bookkeeping of `s1` is that of `s`. -/
def EnKept (s s1 : State) : Prop := s1.en = s.en

/-- Once the reference call has been made (`store_energy_flag` false), the
flag and the reference energies of `s1` are those of `s`. -/
def RefKept (s s1 : State) : Prop :=
  s.en.store_energy_flag = false →
    s1.en.store_energy_flag = false ∧ s1.en.Ekin0 = s.en.Ekin0
      ∧ s1.en.Epot0 = s.en.Epot0 ∧ s1.en.Etot0 = s.en.Etot0
/-- The oracles of `quietEnv` with forty million particles on one process and
ten million on the other in the first redistribution pass. -/
def hugeEnv : Env :=
  { quietEnv with
    setupPass := fun _ => { newN := 40000000, maxN := 40000000, minN := 10000000 } }

/-- The local work size of `direct_gravity` (line 521), `{256, 1}`. -/
def direct_gravity_localWork : List Int := [256, 1]
/-- A region of the flattened LET buffer bound to a texture: the `offset` and
`size` arguments of `set_texture`, in elements. -/
structure TexRegion where
  start : Int
  size : Int
  deriving DecidableEq

/-- `texBody` (line 1095): offset `0`, size `remoteP`. -/
def letTexBody (c : LetCall) : TexRegion := { start := 0, size := c.remoteP }

/-- `texNodeSize` (line 1092): offset `1*(remoteP)`, size `remoteN`. -/
def letTexNodeSize (c : LetCall) : TexRegion :=
  { start := wrap32 (1 * c.remoteP), size := c.remoteN }

/-- `texNodeCenter` (line 1093): offset `1*(remoteP) + (remoteN + nodeTexOffset)`,
size `remoteN`; `int` arithmetic. -/
def letTexNodeCenter (c : LetCall) : TexRegion :=
  { start := wrap32 (wrap32 (1 * c.remoteP) + wrap32 (c.remoteN + c.nodeTexOffset)),
    size := c.remoteN }

/-- `texMultipole` (line 1094): offset `1*(remoteP) + 2*(remoteN + nodeTexOffset)`,
size `3*remoteN`; `int` arithmetic. -/
def letTexMultipole (c : LetCall) : TexRegion :=
  { start := wrap32 (wrap32 (1 * c.remoteP) + wrap32 (2 * wrap32 (c.remoteN + c.nodeTexOffset))),
    size := wrap32 (3 * c.remoteN) }

/-- The element offset of `multiLoc` (line 1067). -/
def multiLocOffset (c : LetCall) : Int :=
  wrap32 (wrap32 (1 * c.remoteP) + wrap32 (2 * wrap32 (c.remoteN + c.nodeTexOffset)))

/-- The element offset of `boxSILoc` (line 1068). -/
def boxSILocOffset (c : LetCall) : Int := wrap32 (1 * c.remoteP)

/-- The element offset of `boxCILoc` (line 1069):
`1*(remoteP) + remoteN + nodeTexOffset`, added from the left. -/
def boxCILocOffset (c : LetCall) : Int :=
  wrap32 (wrap32 (wrap32 (1 * c.remoteP) + c.remoteN) + c.nodeTexOffset)

/-- The region `a` ends where `b` starts or before it. -/
def TexRegion.before (a b : TexRegion) : Prop := a.start + a.size ≤ b.start

/-- A remote tree of `2^30` nodes. -/
def hugeLetCall : LetCall :=
  { remoteP := 0, remoteN := 1073741824, nodeTexOffset := 0, topNodes := 1, bufferSize := 16,
    doActiveParticles := false, gpuTime := 0 }

/-! ## The renderer hand-off (`src/tools/bonsaiRenderer/main.cpp`) -/

/-- Modelled from the spec: `IDType` is declared in `IDType.h`, which is not in
the sources. It is the particle identifier of the hand-off: an identifier
together with a type tag, which `getType` returns; the tag is taken to be
non-negative, with `0` for dark matter. -/
structure IDType where
  id : Nat
  type : Nat
  deriving DecidableEq

/-- The call `ID.getType()`, stored in an `int`. -/
def IDType.getType (i : IDType) : Int := i.type

/-- A value of a floating-point field: a number (idealised as a rational), an
infinity, or a NaN. -/
inductive FloatVal
  | num (q : ℚ)
  | inf (negative : Bool)
  | nan
  deriving DecidableEq

/-- The comparison `x == c` with a constant: false for a NaN. -/
def FloatVal.feq : FloatVal → ℚ → Bool
  | FloatVal.num q, c => decide (q = c)
  | _, _ => false

/-- The comparison `x != c` with a constant, the negation of `x == c`: true
for a NaN. -/
def FloatVal.fne (x : FloatVal) (c : ℚ) : Bool := !x.feq c

/-- The comparison `x > c` with a constant: false for a NaN. -/
def FloatVal.fgt : FloatVal → ℚ → Bool
  | FloatVal.num q, c => decide (q > c)
  | FloatVal.inf negative, _ => !negative
  | FloatVal.nan, _ => false

/-- The comparison `x <= c` with a constant: false for a NaN. -/
def FloatVal.fle : FloatVal → ℚ → Bool
  | FloatVal.num q, c => decide (q ≤ c)
  | FloatVal.inf negative, _ => negative
  | FloatVal.nan, _ => false

/-- Modelled from the spec: `BonsaiSharedData` is declared in
`BonsaiSharedData.h`, which is not in the sources. One entry of the shared
particle buffer, with the `float` fields `fetchSharedData` reads. -/
structure BonsaiSharedData where
  x : FloatVal
  y : FloatVal
  z : FloatVal
  mass : FloatVal
  vx : FloatVal
  vy : FloatVal
  vz : FloatVal
  rho : FloatVal
  h : FloatVal
  ID : IDType
  deriving DecidableEq

/-- One particle of `RendererData`: `posx`, `posy`, `posz`, `ID` and the
attributes `MASS`, `VEL`, `RHO`, `H`. -/
structure RendererParticle where
  posx : FloatVal
  posy : FloatVal
  posz : FloatVal
  ID : IDType
  MASS : FloatVal
  VEL : FloatVal
  RHO : FloatVal
  H : FloatVal
  deriving DecidableEq

/-- The particle a `resize` appends. -/
def RendererParticle.zero : RendererParticle :=
  { posx := FloatVal.num 0, posy := FloatVal.num 0, posz := FloatVal.num 0,
    ID := { id := 0, type := 0 }, MASS := FloatVal.num 0, VEL := FloatVal.num 0,
    RHO := FloatVal.num 0, H := FloatVal.num 0 }

/-- Modelled from the spec: `RendererData` is declared in `RendererData.h`,
which is not in the sources. It is the particle container of the renderer: a
resizable array of particles, the time of the data, the number of simulation
bodies, the flag behind `isNewData()`, and the number of calls of
`computeMinMax()`, which reads the particles only. -/
structure RendererData where
  data : List RendererParticle
  time : ℚ
  nBodySim : Nat
  new_data : Bool
  minMaxCalls : Nat
  deriving DecidableEq

/-- The call `rData.resize(n)`: keep the first `n` particles, append new ones
up to `n`. -/
def RendererData.resize (r : RendererData) (n : Nat) : RendererData :=
  { r with data := r.data.take n ++ List.replicate (n - r.data.length) RendererParticle.zero }

/-- The call `rData.setTime(t)`. -/
def RendererData.setTime (r : RendererData) (t : ℚ) : RendererData := { r with time := t }

/-- The call `rData.setNbodySim(n)`. -/
def RendererData.setNbodySim (r : RendererData) (n : Nat) : RendererData :=
  { r with nBodySim := n }

/-- The call `rData.isNewData()`. -/
def RendererData.isNewData (r : RendererData) : Bool := r.new_data

/-- The call `rData.computeMinMax()`. -/
def RendererData.computeMinMax (r : RendererData) : RendererData :=
  { r with minMaxCalls := r.minMaxCalls + 1 }

/-- The two shared-memory segments of the hand-off, each with its own lock. -/
inductive ShmLock
  | header
  | data
  deriving DecidableEq

/-- Operations of the renderer on the shared memory and on MPI. -/
inductive ShmEvent
  | acquireLock (l : ShmLock)
  | releaseLock (l : ShmLock)
  | setHandshake
  | setDoneWriting
  | usleep
  | MPI_Allreduce (sumL : Int)
  | MPI_Reduce
  | MPI_Recv (tag : Int)
  deriving DecidableEq

/-- What the renderer reads from the simulation and from MPI. -/
structure RendererEnv where
  /-- Rounds of `usleep` until the writer clears `header[0].handshake`;
  `none` when it never does. -/
  handshakePolls : Option Nat
  /-- The flag `header[0].done_writing` read in round `k` of the polling loop. -/
  done_writing : Nat → Bool
  /-- The sum `sumG` of the `k`-th `MPI_Allreduce` of the call, from `sumL`. -/
  allreduce : Nat → Int → Int
  /-- The field `tCurrent` of the header. -/
  tCurrent : ℚ
  /-- The field `nBodies` of the header. -/
  nBodies : Nat
  /-- The particles of the writer: the shared buffer, or the message
  received by `fetchSharedDataMPI`. -/
  data : List BonsaiSharedData
  /-- The value of `std::sqrt(vx*vx + vy*vy + vz*vz)` in floating point. -/
  speed : FloatVal → FloatVal → FloatVal → FloatVal
  /-- The rank `MPI_Comm_rank` reports in `MPI_COMM_WORLD`. -/
  commRank : Int

/-- The static variables of the two fetch functions, the global
`terminateRenderer`, the `rData` argument and the operations so far. -/
structure RendererState where
  first : Bool
  tLast : ℚ
  terminateRenderer : Bool
  rData : RendererData
  worldRank : Int
  mpiData : List BonsaiSharedData
  sendCount : Int
  shm : List ShmEvent
  deriving DecidableEq

/-- Record operations. -/
def RendererState.emit (s : RendererState) (evs : List ShmEvent) : RendererState :=
  { s with shm := s.shm ++ evs }

/-- Result of a fetch: it returns `completed`, or the process stops. -/
inductive FetchOutcome
  | ret (completed : Bool) (s : RendererState)
  | halt (h : Halt) (s : RendererState)
  deriving DecidableEq

/-- The state a fetch ends in. -/
def FetchOutcome.state : FetchOutcome → RendererState
  | FetchOutcome.ret _ s => s
  | FetchOutcome.halt _ s => s

/-- Whether the fetch returned. -/
def FetchOutcome.returned : FetchOutcome → Bool
  | FetchOutcome.ret _ _ => true
  | FetchOutcome.halt _ _ => false

/-- The lambda `skipPtcl` (lines 121-124 and 269-272):
`rho == 0 || h == 0.0 || h > 100` on `float` values. -/
def skipPtcl (p : BonsaiSharedData) : Bool :=
  p.rho.feq 0 || p.h.feq 0 || p.h.fgt 100

/-- One round of the counting loop (lines 130-145): a skipped particle counts
nowhere, type `0` counts in `nDM`, every other type in `nS`. The per-type
counters `ntypeloc` are only printed. -/
def countStep (acc : Nat × Nat) (p : BonsaiSharedData) : Nat × Nat :=
  if skipPtcl p then acc
  else if p.ID.getType = 0 then (acc.1 + 1, acc.2)
  else (acc.1, acc.2 + 1)

/-- The counting loop: `(nDM, nS)`. -/
def countLoop (data : List BonsaiSharedData) : Nat × Nat := data.foldl countStep (0, 0)

/-- The particle written at `ip` (lines 166-177). -/
def toRendererParticle (env : RendererEnv) (p : BonsaiSharedData) : RendererParticle :=
  { posx := p.x, posy := p.y, posz := p.z, ID := p.ID, MASS := p.mass,
    VEL := env.speed p.vx p.vy p.vz, RHO := p.rho, H := p.h }

/-- The copying loop (lines 159-181) from index `ip`: a write past the end of
`rData` is undefined behaviour, and `assert(ip <= nS)` follows every write.
It yields the stop, if any, the final `ip` and `rData`. -/
def copyLoop (env : RendererEnv) :
    List BonsaiSharedData → Nat → Nat → RendererData → Option Halt × Nat × RendererData
  | [], ip, _, r => (none, ip, r)
  | p :: ps, ip, nS, r =>
    if skipPtcl p then copyLoop env ps ip nS r
    else if p.ID.getType = 0 then copyLoop env ps ip nS r
    else if ip < r.data.length then
      let r1 := { r with data := r.data.set ip (toRendererParticle env p) }
      if ip + 1 ≤ nS then copyLoop env ps (ip + 1) nS r1
      else (some Halt.assertFailed, ip + 1, r1)
    else (some Halt.undefinedBehaviour, ip, r)

/-- The selection of lines 126-183 (and 274-331): count, `resize(nS)`,
`setTime`, copy, `resize(ip)`, `setNbodySim(ip)`. -/
def selectParticles (env : RendererEnv) (data : List BonsaiSharedData) (tCurrent : ℚ)
    (r : RendererData) : Option Halt × RendererData :=
  let nS := (countLoop data).2
  let r1 := (r.resize nS).setTime tCurrent
  match copyLoop env data 0 nS r1 with
  | (some h, _, r2) => (some h, r2)
  | (none, ip, r2) => (none, (r2.resize ip).setNbodySim ip)

/-- The handshake of lines 48-65; `none` when the writer never answers. -/
def fetchHandshake (env : RendererEnv) (quickSync : Bool) (s : RendererState) :
    Option RendererState :=
  if quickSync && s.first then
    match env.handshakePolls with
    | none => none
    | some k =>
      some { (s.emit ([ShmEvent.acquireLock ShmLock.header, ShmEvent.setHandshake,
                ShmEvent.releaseLock ShmLock.header] ++ List.replicate k ShmEvent.usleep
              ++ [ShmEvent.acquireLock ShmLock.header, ShmEvent.setHandshake,
                ShmEvent.releaseLock ShmLock.header])) with first := false }
  else some s

/-- The polling loop of lines 86-95 from round `k`: `sumG` and the state at
`break`, or `none` when `fuel` rounds do not reach it. -/
def quickSyncLoop (env : RendererEnv) (nrank : Int) :
    Nat → Nat → RendererState → Option (Int × RendererState)
  | 0, _, _ => none
  | fuel + 1, k, s =>
    let sumL : Int := if env.done_writing k then 0 else 1
    let sumG := env.allreduce k sumL
    let s1 := s.emit [ShmEvent.acquireLock ShmLock.header, ShmEvent.MPI_Allreduce sumL]
    if sumG = nrank then some (sumG, s1)
    else quickSyncLoop env nrank fuel (k + 1)
      (s1.emit [ShmEvent.releaseLock ShmLock.header, ShmEvent.usleep])

/-- The other branch, lines 99-102. -/
def plainSync (env : RendererEnv) (s : RendererState) : Int × RendererState :=
  let sumL : Int := if env.tCurrent ≠ s.tLast then 1 else 0
  (env.allreduce 0 sumL,
    s.emit [ShmEvent.acquireLock ShmLock.header, ShmEvent.MPI_Allreduce sumL])

/-- Lines 105-200 of `fetchSharedData`, entered with the header lock held. -/
def fetchBody (env : RendererEnv) (rank nrank sumG : Int) (s : RendererState) : FetchOutcome :=
  let tCurrent := env.tCurrent
  let s1 := { s with terminateRenderer := decide (tCurrent = -1) }
  if sumG = nrank then
    let s2 := { s1 with tLast := tCurrent }.emit [ShmEvent.acquireLock ShmLock.data]
    if env.data.length ≠ env.nBodies then FetchOutcome.halt Halt.assertFailed s2
    else
      match selectParticles env env.data tCurrent s2.rData with
      | (some h, r) => FetchOutcome.halt h { s2.emit [ShmEvent.MPI_Reduce] with rData := r }
      | (none, r) =>
        FetchOutcome.ret true
          { s2.emit [ShmEvent.MPI_Reduce, ShmEvent.releaseLock ShmLock.data,
              ShmEvent.setDoneWriting, ShmEvent.releaseLock ShmLock.header]
            with rData := r.computeMinMax }
  else FetchOutcome.ret false (s1.emit [ShmEvent.releaseLock ShmLock.header])

/-- `fetchSharedData(quickSync, rData, rank, nrank, comm)`, lines 35-201;
`none` when `fuel` rounds of the polling loop are not enough. -/
def fetchSharedData (env : RendererEnv) (quickSync : Bool) (rank nrank : Int) (fuel : Nat)
    (s : RendererState) : Option FetchOutcome :=
  match fetchHandshake env quickSync s with
  | none =>
    some (FetchOutcome.halt Halt.waitsForever
      (s.emit [ShmEvent.acquireLock ShmLock.header, ShmEvent.setHandshake,
        ShmEvent.releaseLock ShmLock.header]))
  | some s1 =>
    if s1.rData.isNewData then some (FetchOutcome.ret false s1)
    else if quickSync then
      match quickSyncLoop env nrank fuel 0 s1 with
      | none => none
      | some (sumG, s2) => some (fetchBody env rank nrank sumG s2)
    else some (fetchBody env rank nrank (plainSync env s1).1 (plainSync env s1).2)

/-- The receive of lines 241-243: `data.resize(header.nBodies)`, then at most
`data.size()` entries of the message overwrite the start of `data`. -/
def recvData (old message : List BonsaiSharedData) (nBodies : Nat) : List BonsaiSharedData :=
  let zero : BonsaiSharedData :=
    { x := FloatVal.num 0, y := FloatVal.num 0, z := FloatVal.num 0, mass := FloatVal.num 0,
      vx := FloatVal.num 0, vy := FloatVal.num 0, vz := FloatVal.num 0,
      rho := FloatVal.num 0, h := FloatVal.num 0, ID := { id := 0, type := 0 } }
  let buf := old.take nBodies ++ List.replicate (nBodies - old.length) zero
  message.take nBodies ++ buf.drop message.length

/-- `fetchSharedDataMPI(quickSync, rData, rank, nrank, comm)`, lines 203-340. -/
def fetchSharedDataMPI (env : RendererEnv) (rank : Int) (s : RendererState) : FetchOutcome :=
  let s1 := if s.worldRank = -1 then { s with worldRank := env.commRank } else s
  if cmod s1.worldRank 2 ≠ some 1 then FetchOutcome.halt Halt.assertFailed s1
  else
    let s2 := { s1.emit [ShmEvent.MPI_Recv (42 + 2 * s1.sendCount + 0),
                  ShmEvent.MPI_Recv (42 + 2 * s1.sendCount + 1)] with
                mpiData := recvData s1.mpiData env.data env.nBodies,
                sendCount := Int.tmod (s1.sendCount + 1) 4 }
    if s2.rData.isNewData then FetchOutcome.halt Halt.assertFailed s2
    else
      let tCurrent := env.tCurrent
      let s3 := { s2 with terminateRenderer := decide (tCurrent = -1) }
      if s3.mpiData.length ≠ env.nBodies then FetchOutcome.halt Halt.assertFailed s3
      else
        match selectParticles env s3.mpiData tCurrent s3.rData with
        | (some h, r) => FetchOutcome.halt h { s3.emit [ShmEvent.MPI_Reduce] with rData := r }
        | (none, r) =>
          FetchOutcome.ret true { s3.emit [ShmEvent.MPI_Reduce] with rData := r.computeMinMax }

/-- The particles the copying loop keeps: not skipped and not of type `0`. -/
def isRendered (p : BonsaiSharedData) : Bool := !skipPtcl p && decide (p.ID.getType ≠ 0)
/-- How often the lock `l` is acquired in `evs`. -/
def acquired (l : ShmLock) (evs : List ShmEvent) : Nat := evs.count (ShmEvent.acquireLock l)

/-- How often the lock `l` is released in `evs`. -/
def released (l : ShmLock) (evs : List ShmEvent) : Nat := evs.count (ShmEvent.releaseLock l)

/-- The state `fetchBody` returns `true` with. -/
def fetchedState (env : RendererEnv) (s : RendererState) : RendererState :=
  { s with
    terminateRenderer := decide (env.tCurrent = -1)
    tLast := env.tCurrent
    shm := s.shm ++ [ShmEvent.acquireLock ShmLock.data] ++ [ShmEvent.MPI_Reduce,
      ShmEvent.releaseLock ShmLock.data, ShmEvent.setDoneWriting,
      ShmEvent.releaseLock ShmLock.header]
    rData :=
      { s.rData with
        data := (env.data.filter isRendered).map (toRendererParticle env)
        time := env.tCurrent
        nBodySim := (env.data.filter isRendered).length
        minMaxCalls := s.rData.minMaxCalls + 1 } }
/-- A writer that answers the handshake after two rounds and has an empty
buffer ready in the second round of the polling loop, among two ranks. -/
def pollingEnv : RendererEnv :=
  { handshakePolls := some 2, done_writing := fun _ => false,
    allreduce := fun k _ => if k = 1 then 2 else 0, tCurrent := 0, nBodies := 0, data := [],
    speed := fun _ _ _ => FloatVal.num 0, commRank := 1 }

/-- A star whose density is known and whose smoothing length is a NaN. -/
def nanParticle : BonsaiSharedData :=
  { x := FloatVal.num 0, y := FloatVal.num 0, z := FloatVal.num 0, mass := FloatVal.num 1,
    vx := FloatVal.num 0, vy := FloatVal.num 0, vz := FloatVal.num 0,
    rho := FloatVal.num 1, h := FloatVal.nan, ID := { id := 7, type := 1 } }

/-- One rank whose writer hands over the single particle `nanParticle`. -/
def nanEnv : RendererEnv :=
  { handshakePolls := some 0, done_writing := fun _ => false, allreduce := fun _ _ => 1,
    tCurrent := 0, nBodies := 1, data := [nanParticle],
    speed := fun _ _ _ => FloatVal.num 0, commRank := 1 }

/-- The renderer before its first fetch. -/
def freshRenderer : RendererState :=
  { first := true, tLast := -1, terminateRenderer := false,
    rData := { data := [], time := 0, nBodySim := 0, new_data := false, minMaxCalls := 0 },
    worldRank := -1, mpiData := [], sendCount := 0, shm := [] }

/-- The renderer after its first fetch from `pollingEnv`. -/
def polledRenderer : RendererState :=
  { first := false, tLast := 0, terminateRenderer := false,
    rData := { data := [], time := 0, nBodySim := 0, new_data := false, minMaxCalls := 1 },
    worldRank := -1, mpiData := [], sendCount := 0,
    shm := [ShmEvent.acquireLock ShmLock.header, ShmEvent.setHandshake,
      ShmEvent.releaseLock ShmLock.header, ShmEvent.usleep, ShmEvent.usleep,
      ShmEvent.acquireLock ShmLock.header, ShmEvent.setHandshake,
      ShmEvent.releaseLock ShmLock.header,
      ShmEvent.acquireLock ShmLock.header, ShmEvent.MPI_Allreduce 1,
      ShmEvent.releaseLock ShmLock.header, ShmEvent.usleep,
      ShmEvent.acquireLock ShmLock.header, ShmEvent.MPI_Allreduce 1,
      ShmEvent.acquireLock ShmLock.data, ShmEvent.MPI_Reduce,
      ShmEvent.releaseLock ShmLock.data, ShmEvent.setDoneWriting,
      ShmEvent.releaseLock ShmLock.header] }

/-- The value of `t_current` after `k` executions of `t_current += timeStep`
from `t`: `k` successive floating-point additions. -/
def advanceTime (cfg : Config) (env : Env) : Nat → ℚ → ℚ
  | 0, t => t
  | k + 1, t => advanceTime cfg env k (env.fadd t cfg.timeStep)

/-- The tree-mode configuration with a time step of one tenth. -/
def tenthConfig : Config := { treeConfig with timeStep := 1 / 10 }

/-- The oracles of `quietEnv` with an addition that rounds the sum of two
tenths and one tenth upwards, as double precision does for `0.2 + 0.1`, and is
exact elsewhere. -/
def roundingEnv : Env :=
  { quietEnv with
    fadd := fun a b => if a + b = 3 / 10 then 3 / 10 + 1 / 25000000000000000 else a + b }

/-- The wait of lines 368-372 as the step runs it: after `nextSnapTime` has
been advanced. -/
def snapshotWait (cfg : Config) (env : Env) (s : State) : Outcome Unit :=
  waitWritingFinished env { s with nextSnapTime := s.nextSnapTime + cfg.snapshotIter }

/-- The hand-off of lines 381-385: the copies of positions, velocities and ids,
each issued with `writingFinished` set, then the clearing of the flag. -/
def snapshotHandOff : List Event :=
  [Event.d2hShared Buffer.bodies_pos true, Event.d2hShared Buffer.bodies_vel true,
   Event.d2hShared Buffer.bodies_ids true, Event.setWritingFinished false]

/-- A copy into the snapshot buffer issued while `writingFinished` is false,
that is, while the previous dump is unfinished. -/
def isUnfinishedCopy : Event → Bool
  | Event.d2hShared _ false => true
  | _ => false

/-- The imbalance of a pass is below 10%: the largest and the smallest count
differ by less than a tenth of the smallest. -/
def belowTenPercent (p : SetupPass) : Bool := decide (10 * (p.maxN - p.minN) < p.minN)

/-- The number of passes the description of the balance loop asks for when `k`
passes are left and the next has index `i`: up to and including the first pass
whose imbalance is below 10%. -/
def specPassCount (env : Env) : Nat → Nat → Nat
  | 0, _ => 0
  | k + 1, i =>
    if belowTenPercent (env.setupPass i) then 1 else 1 + specPassCount env k (i + 1)

/-- A remote tree of 4 particles and 2 nodes with a node offset of 1, in a
buffer of 16 elements. -/
def smallLetCall : LetCall :=
  { remoteP := 4, remoteN := 2, nodeTexOffset := 1, topNodes := 1, bufferSize := 16,
    doActiveParticles := false, gpuTime := 0 }

/-! # Theorems -/

/-! ## Running the primitives -/

@[simp] theorem pure_run {α : Type} (a : α) (s : State) :
    (pure a : Exec α) s = Outcome.ret a s := rfl

@[simp] theorem bind_run {α β : Type} (m : Exec α) (f : α → Exec β) (s : State) :
    (m >>= f) s = match m s with
      | Outcome.ret a s1 => f a s1
      | Outcome.halt h s1 => Outcome.halt h s1 := rfl

@[simp] theorem emit_run (e : Event) (s : State) :
    emit e s = Outcome.ret () { s with trace := s.trace ++ [e] } := rfl

@[simp] theorem getS_run (s : State) : getS s = Outcome.ret s s := rfl

@[simp] theorem modifyS_run (f : State → State) (s : State) :
    modifyS f s = Outcome.ret () (f s) := rfl

@[simp] theorem haltWith_run {α : Type} (h : Halt) (s : State) :
    (haltWith h : Exec α) s = Outcome.halt h s := rfl

@[simp] theorem get_time_run (env : Env) (s : State) :
    get_time env s = Outcome.ret (env.get_time s.clock) { s with clock := s.clock + 1 } := rfl

@[simp] theorem state_ret {α : Type} (a : α) (s : State) : (Outcome.ret a s).state = s := rfl

@[simp] theorem state_halt {α : Type} (h : Halt) (s : State) :
    (Outcome.halt h s : Outcome α).state = s := rfl

theorem bind_ret_iff {α β : Type} (m : Exec α) (f : α → Exec β) (s s2 : State) (b : β) :
    (m >>= f) s = Outcome.ret b s2 ↔ ∃ a s1, m s = Outcome.ret a s1 ∧ f a s1 = Outcome.ret b s2 := by
  rw [bind_run]
  cases hm : m s with
  | ret a s1 =>
    constructor
    · intro h
      exact ⟨a, s1, rfl, h⟩
    · rintro ⟨a2, s3, h1, h2⟩
      cases h1
      exact h2
  | halt h s1 =>
    constructor
    · intro h
      cases h
    · rintro ⟨a2, s3, h1, _⟩
      cases h1

/-! ## Frames -/

theorem frame_refl (al : List Event) (kI kT kN kA : Bool) (s : State) :
    Frame al kI kT kN kA s s :=
  ⟨⟨[], by simp, by simp⟩, fun _ => rfl, fun _ => rfl, fun _ => rfl, fun _ => rfl⟩

theorem frame_trans {al : List Event} {kI kT kN kA : Bool} {a b c : State}
    (h1 : Frame al kI kT kN kA a b) (h2 : Frame al kI kT kN kA b c) : Frame al kI kT kN kA a c := by
  obtain ⟨⟨e1, t1, m1⟩, i1, c1, n1, a1⟩ := h1
  obtain ⟨⟨e2, t2, m2⟩, i2, c2, n2, a2⟩ := h2
  refine ⟨⟨e1 ++ e2, by rw [t2, t1, List.append_assoc], ?_⟩, fun h => (i2 h).trans (i1 h),
    fun h => (c2 h).trans (c1 h), fun h => (n2 h).trans (n1 h), fun h => (a2 h).trans (a1 h)⟩
  intro e he
  rcases List.mem_append.1 he with h | h
  · exact m1 e h
  · exact m2 e h

theorem frame_mono {al al2 : List Event} {kI kT kN kA : Bool} {a b : State}
    (hsub : ∀ e ∈ al, e ∈ al2) (h : Frame al kI kT kN kA a b) : Frame al2 kI kT kN kA a b := by
  obtain ⟨⟨e1, t1, m1⟩, i1, c1, n1, a1⟩ := h
  exact ⟨⟨e1, t1, fun e he => hsub e (m1 e he)⟩, i1, c1, n1, a1⟩

theorem sat_pure {α : Type} {al : List Event} {kI kT kN kA : Bool} (a : α) :
    Sat (Frame al kI kT kN kA) (pure a : Exec α) := ⟨fun s => frame_refl _ _ _ _ _ s⟩

theorem sat_haltWith {α : Type} {al : List Event} {kI kT kN kA : Bool} (h : Halt) :
    Sat (Frame al kI kT kN kA) (haltWith h : Exec α) := ⟨fun s => frame_refl _ _ _ _ _ s⟩

theorem sat_getS {al : List Event} {kI kT kN kA : Bool} :
    Sat (Frame al kI kT kN kA) getS := ⟨fun s => frame_refl _ _ _ _ _ s⟩

theorem sat_get_time {al : List Event} {kI kT kN kA : Bool} (env : Env) :
    Sat (Frame al kI kT kN kA) (get_time env) :=
  ⟨fun _ => ⟨⟨[], by simp, by simp⟩, fun _ => rfl, fun _ => rfl, fun _ => rfl, fun _ => rfl⟩⟩

theorem sat_emit {al : List Event} {kI kT kN kA : Bool} {e : Event} (h : e ∈ al) :
    Sat (Frame al kI kT kN kA) (emit e) :=
  ⟨fun _ => ⟨⟨[e], rfl, by simpa using h⟩, fun _ => rfl, fun _ => rfl, fun _ => rfl, fun _ => rfl⟩⟩

theorem sat_modifyS {al : List Event} {kI kT kN kA : Bool} {f : State → State}
    (ht : ∀ s, (f s).trace = s.trace)
    (hi : kI = true → ∀ s, (f s).iter = s.iter)
    (hc : kT = true → ∀ s, (f s).t_current = s.t_current)
    (hn : kN = true → ∀ s, (f s).idata.Nact_since_last_tree_rebuild
      = s.idata.Nact_since_last_tree_rebuild)
    (ha : kA = true → ∀ s, (f s).n_active_particles = s.n_active_particles) :
    Sat (Frame al kI kT kN kA) (modifyS f) :=
  ⟨fun s => ⟨⟨[], by simp [ht], by simp⟩, fun h => hi h s, fun h => hc h s, fun h => hn h s,
    fun h => ha h s⟩⟩

theorem sat_d2hShared {al : List Event} {kI kT kN kA : Bool} (b : Buffer)
    (h1 : Event.d2hShared b true ∈ al) (h2 : Event.d2hShared b false ∈ al) :
    Sat (Frame al kI kT kN kA) (d2hShared b) :=
  ⟨fun s => ⟨⟨[Event.d2hShared b s.ioSharedData.writingFinished], rfl, by
      intro e he
      rw [List.mem_singleton] at he
      subst he
      cases s.ioSharedData.writingFinished
      · exact h2
      · exact h1⟩,
    fun _ => rfl, fun _ => rfl, fun _ => rfl, fun _ => rfl⟩⟩

theorem sat_setWritingFinished {al : List Event} {kI kT kN kA : Bool} (b : Bool)
    (h : Event.setWritingFinished b ∈ al) :
    Sat (Frame al kI kT kN kA) (setWritingFinished b) :=
  ⟨fun _ => ⟨⟨[Event.setWritingFinished b], rfl, by simpa using h⟩,
    fun _ => rfl, fun _ => rfl, fun _ => rfl, fun _ => rfl⟩⟩

theorem sat_bind {α β : Type} {al : List Event} {kI kT kN kA : Bool}
    {m : Exec α} {f : α → Exec β} (hm : Sat (Frame al kI kT kN kA) m)
    (hf : ∀ a, Sat (Frame al kI kT kN kA) (f a)) : Sat (Frame al kI kT kN kA) (m >>= f) := by
  constructor
  intro s
  have h1 := hm.run s
  rw [bind_run]
  cases hms : m s with
  | ret a s1 =>
    rw [hms] at h1
    exact frame_trans h1 ((hf a).run s1)
  | halt h s1 =>
    rw [hms] at h1
    exact h1

theorem sat_mono {α : Type} {al al2 : List Event} {kI kT kN kA : Bool} {m : Exec α}
    (hsub : ∀ e ∈ al, e ∈ al2) (h : Sat (Frame al kI kT kN kA) m) :
    Sat (Frame al2 kI kT kN kA) m :=
  ⟨fun s => frame_mono hsub (h.run s)⟩

theorem predict_frame (cfg : Config) (env : Env) :
    Sat (Frame predictAlphabet true false true true) (predict cfg env) := by
  unfold predict
  repeat (first
    | exact sat_pure _
    | exact sat_getS
    | exact sat_haltWith _
    | exact sat_get_time _
    | exact sat_emit (by decide)
    | exact sat_modifyS (fun _ => rfl) (by first | (intro _ _; rfl) | (intro h; cases h))
        (by first | (intro _ _; rfl) | (intro h; cases h))
        (by first | (intro _ _; rfl) | (intro h; cases h))
        (by first | (intro _ _; rfl) | (intro h; cases h))
    | apply sat_bind
    | intro _
    | split)

theorem predictStep_frame (cfg : Config) (env : Env) :
    Sat (Frame predictAlphabet true false true true) (predictStep cfg env) := by
  unfold predictStep predict
  repeat (first
    | exact sat_pure _
    | exact sat_getS
    | exact sat_haltWith _
    | exact sat_get_time _
    | exact sat_emit (by decide)
    | exact sat_modifyS (fun _ => rfl) (by first | (intro _ _; rfl) | (intro h; cases h))
        (by first | (intro _ _; rfl) | (intro h; cases h))
        (by first | (intro _ _; rfl) | (intro h; cases h))
        (by first | (intro _ _; rfl) | (intro h; cases h))
    | apply sat_bind
    | intro _
    | split)

theorem clearStartupTimings_frame (env : Env) :
    Sat (Frame [] true true true true) (clearStartupTimings env) := by
  unfold clearStartupTimings
  repeat (first
    | exact sat_pure _
    | exact sat_getS
    | exact sat_haltWith _
    | exact sat_get_time _
    | exact sat_emit (by decide)
    | exact sat_modifyS (fun _ => rfl) (by first | (intro _ _; rfl) | (intro h; cases h))
        (by first | (intro _ _; rfl) | (intro h; cases h))
        (by first | (intro _ _; rfl) | (intro h; cases h))
        (by first | (intro _ _; rfl) | (intro h; cases h))
    | apply sat_bind
    | intro _
    | split)

theorem domainUpdate_frame (cfg : Config) (env : Env) :
    Sat (Frame domainAlphabet true true true true) (domainUpdate cfg env) := by
  unfold domainUpdate
  repeat (first
    | exact sat_pure _
    | exact sat_getS
    | exact sat_haltWith _
    | exact sat_get_time _
    | exact sat_emit (by decide)
    | exact sat_modifyS (fun _ => rfl) (by first | (intro _ _; rfl) | (intro h; cases h))
        (by first | (intro _ _; rfl) | (intro h; cases h))
        (by first | (intro _ _; rfl) | (intro h; cases h))
        (by first | (intro _ _; rfl) | (intro h; cases h))
    | apply sat_bind
    | intro _
    | split)

theorem afterForces_frame (cfg : Config) (env : Env) (t1 : ℚ) :
    Sat (Frame afterForcesAlphabet true true true true) (afterForces cfg env t1) := by
  unfold afterForces
  repeat (first
    | exact sat_pure _
    | exact sat_getS
    | exact sat_haltWith _
    | exact sat_get_time _
    | exact sat_emit (by decide)
    | exact sat_modifyS (fun _ => rfl) (by first | (intro _ _; rfl) | (intro h; cases h))
        (by first | (intro _ _; rfl) | (intro h; cases h))
        (by first | (intro _ _; rfl) | (intro h; cases h))
        (by first | (intro _ _; rfl) | (intro h; cases h))
    | apply sat_bind
    | intro _
    | split)

theorem correctStep_frame (cfg : Config) (env : Env) :
    Sat (Frame correctAlphabet true true true false) (correctStep cfg env) := by
  unfold correctStep correct
  repeat (first
    | exact sat_pure _
    | exact sat_getS
    | exact sat_haltWith _
    | exact sat_get_time _
    | exact sat_emit (by decide)
    | exact sat_modifyS (fun _ => rfl) (by first | (intro _ _; rfl) | (intro h; cases h))
        (by first | (intro _ _; rfl) | (intro h; cases h))
        (by first | (intro _ _; rfl) | (intro h; cases h))
        (by first | (intro _ _; rfl) | (intro h; cases h))
    | apply sat_bind
    | intro _
    | split)

theorem loadBalance_frame (cfg : Config) (env : Env) :
    Sat (Frame loadBalanceAlphabet true true true true) (loadBalance cfg env) := by
  unfold loadBalance
  repeat (first
    | exact sat_pure _
    | exact sat_getS
    | exact sat_haltWith _
    | exact sat_get_time _
    | exact sat_emit (by decide)
    | exact sat_modifyS (fun _ => rfl) (by first | (intro _ _; rfl) | (intro h; cases h))
        (by first | (intro _ _; rfl) | (intro h; cases h))
        (by first | (intro _ _; rfl) | (intro h; cases h))
        (by first | (intro _ _; rfl) | (intro h; cases h))
    | apply sat_bind
    | intro _
    | split)

theorem countActive_frame  :
    Sat (Frame [] true true false true) (countActive) := by
  unfold countActive
  repeat (first
    | exact sat_pure _
    | exact sat_getS
    | exact sat_haltWith _
    | exact sat_get_time _
    | exact sat_emit (by decide)
    | exact sat_modifyS (fun _ => rfl) (by first | (intro _ _; rfl) | (intro h; cases h))
        (by first | (intro _ _; rfl) | (intro h; cases h))
        (by first | (intro _ _; rfl) | (intro h; cases h))
        (by first | (intro _ _; rfl) | (intro h; cases h))
    | apply sat_bind
    | intro _
    | split)

theorem compute_energies_frame (cfg : Config) (env : Env) :
    Sat (Frame energyAlphabet true true true true) (compute_energies cfg env) := by
  unfold compute_energies
  repeat (first
    | exact sat_pure _
    | exact sat_getS
    | exact sat_haltWith _
    | exact sat_get_time _
    | exact sat_emit (by decide)
    | exact sat_modifyS (fun _ => rfl) (by first | (intro _ _; rfl) | (intro h; cases h))
        (by first | (intro _ _; rfl) | (intro h; cases h))
        (by first | (intro _ _; rfl) | (intro h; cases h))
        (by first | (intro _ _; rfl) | (intro h; cases h))
    | apply sat_bind
    | intro _
    | split)

theorem energyStep_frame (cfg : Config) (env : Env) :
    Sat (Frame energyAlphabet true true true true) (energyStep cfg env) := by
  unfold energyStep compute_energies
  repeat (first
    | exact sat_pure _
    | exact sat_getS
    | exact sat_haltWith _
    | exact sat_get_time _
    | exact sat_emit (by decide)
    | exact sat_modifyS (fun _ => rfl) (by first | (intro _ _; rfl) | (intro h; cases h))
        (by first | (intro _ _; rfl) | (intro h; cases h))
        (by first | (intro _ _; rfl) | (intro h; cases h))
        (by first | (intro _ _; rfl) | (intro h; cases h))
    | apply sat_bind
    | intro _
    | split)

theorem statistics_frame (cfg : Config) (env : Env) :
    Sat (Frame outputAlphabet true true true true) (statistics cfg env) := by
  unfold statistics
  repeat (first
    | exact sat_pure _
    | exact sat_getS
    | exact sat_haltWith _
    | exact sat_get_time _
    | exact sat_emit (by decide)
    | exact sat_modifyS (fun _ => rfl) (by first | (intro _ _; rfl) | (intro h; cases h))
        (by first | (intro _ _; rfl) | (intro h; cases h))
        (by first | (intro _ _; rfl) | (intro h; cases h))
        (by first | (intro _ _; rfl) | (intro h; cases h))
    | apply sat_bind
    | intro _
    | split)



theorem iterate_teardown_frame  :
    Sat (Frame teardownAlphabet true true true true) (iterate_teardown) := by
  unfold iterate_teardown deleteStreamIfSet
  repeat (first
    | exact sat_pure _
    | exact sat_getS
    | exact sat_haltWith _
    | exact sat_get_time _
    | exact sat_emit (by decide)
    | exact sat_modifyS (fun _ => rfl) (by first | (intro _ _; rfl) | (intro h; cases h))
        (by first | (intro _ _; rfl) | (intro h; cases h))
        (by first | (intro _ _; rfl) | (intro h; cases h))
        (by first | (intro _ _; rfl) | (intro h; cases h))
    | apply sat_bind
    | intro _
    | split)

theorem clearStartupTimings_returns (env : Env) (s : State) :
    ∃ s1, clearStartupTimings env s = Outcome.ret () s1 := by
  by_cases h : s.iter < 32 <;> simp [clearStartupTimings, h]

theorem predict_returns (cfg : Config) (env : Env) (s : State) :
    ∃ s1, predict cfg env s = Outcome.ret () s1 := by
  by_cases hb : cfg.DO_BLOCK_TIMESTEP = true <;> by_cases hn : s.n = 0 <;>
    by_cases ht : s.predictTemp > 0 <;> simp [predict, hb, hn, ht]

theorem predictStep_returns (cfg : Config) (env : Env) (s : State) :
    ∃ s1, predictStep cfg env s = Outcome.ret () s1 := by
  obtain ⟨s1, h1⟩ := predict_returns cfg env { s with clock := s.clock + 1 }
  simp [predictStep, h1]

/-- The states between the blocks of a step that returns. -/
theorem iterate_once_ret {cfg : Config} {env : Env} {s s' : State} {b : Bool}
    (h : iterate_once cfg env s = Outcome.ret b s') :
    ∃ s0 s1 s2 nd s3 t1 s4 s5 s6 s7 s8 s9 s10 s11,
      emit Event.iterate_once s = Outcome.ret () s0
      ∧ clearStartupTimings env s0 = Outcome.ret () s1
      ∧ predictStep cfg env s1 = Outcome.ret () s2
      ∧ domainUpdate cfg env s2 = Outcome.ret nd s3
      ∧ forces cfg env nd s3 = Outcome.ret t1 s4
      ∧ afterForces cfg env t1 s4 = Outcome.ret () s5
      ∧ correctStep cfg env s5 = Outcome.ret () s6
      ∧ loadBalance cfg env s6 = Outcome.ret () s7
      ∧ countActive s7 = Outcome.ret () s8
      ∧ energyStep cfg env s8 = Outcome.ret () s9
      ∧ statistics cfg env s9 = Outcome.ret () s10
      ∧ snapshot cfg env s10 = Outcome.ret () s11
      ∧ stopConditions cfg env s11 = Outcome.ret b s' := by
  unfold iterate_once at h
  obtain ⟨_, s0, h0, h⟩ := (bind_ret_iff _ _ _ _ _).1 h
  obtain ⟨_, s1, h1, h⟩ := (bind_ret_iff _ _ _ _ _).1 h
  obtain ⟨_, s2, h2, h⟩ := (bind_ret_iff _ _ _ _ _).1 h
  obtain ⟨nd, s3, h3, h⟩ := (bind_ret_iff _ _ _ _ _).1 h
  obtain ⟨t1, s4, h4, h⟩ := (bind_ret_iff _ _ _ _ _).1 h
  obtain ⟨_, s5, h5, h⟩ := (bind_ret_iff _ _ _ _ _).1 h
  obtain ⟨_, s6, h6, h⟩ := (bind_ret_iff _ _ _ _ _).1 h
  obtain ⟨_, s7, h7, h⟩ := (bind_ret_iff _ _ _ _ _).1 h
  obtain ⟨_, s8, h8, h⟩ := (bind_ret_iff _ _ _ _ _).1 h
  obtain ⟨_, s9, h9, h⟩ := (bind_ret_iff _ _ _ _ _).1 h
  obtain ⟨_, s10, h10, h⟩ := (bind_ret_iff _ _ _ _ _).1 h
  obtain ⟨_, s11, h11, h⟩ := (bind_ret_iff _ _ _ _ _).1 h
  exact ⟨s0, s1, s2, nd, s3, t1, s4, s5, s6, s7, s8, s9, s10, s11,
    h0, h1, h2, h3, h4, h5, h6, h7, h8, h9, h10, h11, h⟩

theorem frame_of_ret {α : Type} {R : State → State → Prop} {m : Exec α} (hm : Sat R m)
    {s s1 : State} {a : α} (h : m s = Outcome.ret a s1) : R s s1 := by
  have := hm.run s
  rw [h] at this
  exact this

theorem never_returns_haltWith {α : Type} (h : Halt) : NeverReturns (haltWith h : Exec α) :=
  ⟨fun _ => rfl⟩

theorem never_returns_bind_left {α β : Type} {m : Exec α} (f : α → Exec β)
    (hm : NeverReturns m) : NeverReturns (m >>= f) := by
  constructor
  intro s
  have h := hm.run s
  rw [bind_run]
  cases hms : m s with
  | ret a s1 => rw [hms] at h; cases h
  | halt h s1 => rfl

theorem never_returns_bind_right {α β : Type} (m : Exec α) {f : α → Exec β}
    (hf : ∀ a, NeverReturns (f a)) : NeverReturns (m >>= f) := by
  constructor
  intro s
  rw [bind_run]
  cases hms : m s with
  | ret a s1 => exact (hf a).run s1
  | halt h s1 => rfl

theorem never_returns_ne_ret {α : Type} {m : Exec α} (hm : NeverReturns m) (s s1 : State) (a : α) :
    m s ≠ Outcome.ret a s1 := by
  intro h
  have := hm.run s
  rw [h] at this
  cases this

theorem approximate_gravity_never_returns (cfg : Config) (env : Env) :
    NeverReturns (approximate_gravity cfg env) := by
  constructor
  intro s
  by_cases hn : s.n = 0 <;> simp [approximate_gravity, hn, Outcome.returned]

theorem treeGravity_never_returns (cfg : Config) (env : Env) :
    NeverReturns (treeGravity cfg env) := by
  unfold treeGravity
  repeat (first
    | exact never_returns_haltWith _
    | exact never_returns_bind_left _ (approximate_gravity_never_returns cfg env)
    | apply never_returns_bind_right
    | intro _
    | split)

theorem forces_tree_never_returns (cfg : Config) (env : Env) (nd : Bool)
    (hd : cfg.useDirectGravity = false) : NeverReturns (forces cfg env nd) := by
  unfold forces
  rw [hd]
  simp only [Bool.false_eq_true, if_false]
  repeat (first
    | exact never_returns_haltWith _
    | exact never_returns_bind_right _ (fun _ => treeGravity_never_returns cfg env)
    | apply never_returns_bind_right
    | intro _
    | split)

theorem forces_ret {cfg : Config} {env : Env} {nd : Bool} {s s1 : State} {t1 : ℚ}
    (h : forces cfg env nd s = Outcome.ret t1 s1) :
    cfg.useDirectGravity = true ∧ t1 = 0
      ∧ s1 = { s with trace := s.trace ++ [Event.direct_gravity,
          Event.execute2 Kernel.directGrav Stream.gravStream] } := by
  by_cases hd : cfg.useDirectGravity = true
  · simp [forces, hd, direct_gravity] at h
    simp [hd, h.1.symm, h.2.symm]
  · exact absurd h (never_returns_ne_ret (forces_tree_never_returns cfg env nd (by simpa using hd)) _ _ _)

@[simp] theorem returned_ret {α : Type} (a : α) (s : State) : (Outcome.ret a s).returned = true := rfl
@[simp] theorem returned_halt {α : Type} (h : Halt) (s : State) :
    (Outcome.halt h s : Outcome α).returned = false := rfl

theorem eq_ret_of_returned {α : Type} (o : Outcome α) (h : o.returned = true) :
    ∃ a, o = Outcome.ret a o.state := by
  cases o with
  | ret a s => exact ⟨a, rfl⟩
  | halt h' s => cases h

theorem eventsSince_append (s s1 : State) (evs : List Event) (h : s1.trace = s.trace ++ evs) :
    eventsSince s s1 = evs := by
  simp [eventsSince, h]

@[simp] theorem d2hShared_run (b : Buffer) (s : State) :
    d2hShared b s = Outcome.ret ()
      { s with trace := s.trace ++ [Event.d2hShared b s.ioSharedData.writingFinished] } := rfl

@[simp] theorem setWritingFinished_run (b : Bool) (s : State) :
    setWritingFinished b s = Outcome.ret ()
      { s with ioSharedData := { s.ioSharedData with writingFinished := b },
               trace := s.trace ++ [Event.setWritingFinished b] } := rfl

/-- The busy wait issues no operation; when it returns the flag is set, and it
does not return only by waiting forever. -/
theorem waitWritingFinished_run (env : Env) (s : State) :
    (waitWritingFinished env s).state.trace = s.trace
      ∧ ((waitWritingFinished env s).returned = true →
          (waitWritingFinished env s).state.ioSharedData.writingFinished = true)
      ∧ ((waitWritingFinished env s).returned = false →
          waitWritingFinished env s = Outcome.halt Halt.waitsForever s)
      ∧ (s.ioSharedData.writingFinished = true →
          waitWritingFinished env s = Outcome.ret () s) := by
  by_cases hf : s.ioSharedData.writingFinished = true
  · simp [waitWritingFinished, hf]
  · cases hio : env.ioThread s.ioSharedData with
    | none => simp [waitWritingFinished, hf, hio]
    | some io =>
      by_cases hw : io.writingFinished = true <;> simp [waitWritingFinished, hf, hio, hw]

/-- The shared-buffer snapshot path is the wait followed by the hand-off. -/
theorem snapshot_path (cfg : Config) (env : Env) (s : State)
    (hio : Config.useMPIIO cfg = false) (hsi : cfg.snapshotIter > 0)
    (ht : s.t_current ≥ s.nextSnapTime) :
    snapshot cfg env s
      = match snapshotWait cfg env s with
        | Outcome.halt h s1 => Outcome.halt h s1
        | Outcome.ret _ s1 =>
          if s1.ioSharedData.nBodies ≠ 0 then
            Outcome.halt Halt.assertFailed
              { s1 with ioSharedData := { s1.ioSharedData with t_current := s1.t_current } }
          else
            (if cfg.nProcs ≤ 16 then waitWritingFinished env else pure ())
              { s1 with
                ioSharedData := { writingFinished := false, nBodies := s1.n,
                                  t_current := s1.t_current },
                trace := s1.trace ++ [
                  Event.d2hShared Buffer.bodies_pos s1.ioSharedData.writingFinished,
                  Event.d2hShared Buffer.bodies_vel s1.ioSharedData.writingFinished,
                  Event.d2hShared Buffer.bodies_ids s1.ioSharedData.writingFinished,
                  Event.setWritingFinished false] } := by
  simp only [snapshot, snapshotWait, hio, Bool.false_eq_true, if_false, hsi, if_true, bind_run,
    getS_run, ht, modifyS_run]
  cases hW : waitWritingFinished env
      { s with nextSnapTime := s.nextSnapTime + cfg.snapshotIter } with
  | halt h s1 => rfl
  | ret u s1 =>
    by_cases hn : s1.ioSharedData.nBodies = 0 <;> by_cases hp : cfg.nProcs ≤ 16 <;>
      simp [hn, hp, haltWith]

/-- What the shared-buffer snapshot path does, by the outcome of its wait. -/
theorem snapshot_path_run (cfg : Config) (env : Env) (s : State)
    (hio : Config.useMPIIO cfg = false) (hsi : cfg.snapshotIter > 0)
    (ht : s.t_current ≥ s.nextSnapTime) :
    ((snapshotWait cfg env s).returned = false →
        snapshot cfg env s = Outcome.halt Halt.waitsForever
            { s with nextSnapTime := s.nextSnapTime + cfg.snapshotIter }
          ∧ eventsSince s (snapshot cfg env s).state = [])
      ∧ ((snapshotWait cfg env s).returned = true →
          (snapshotWait cfg env s).state.ioSharedData.writingFinished = true)
      ∧ ((snapshotWait cfg env s).returned = true →
          (snapshotWait cfg env s).state.ioSharedData.nBodies ≠ 0 →
          (snapshot cfg env s).returned = false
            ∧ eventsSince s (snapshot cfg env s).state = [])
      ∧ ((snapshotWait cfg env s).returned = true →
          (snapshotWait cfg env s).state.ioSharedData.nBodies = 0 →
          eventsSince s (snapshot cfg env s).state = snapshotHandOff) := by
  have hpath := snapshot_path cfg env s hio hsi ht
  obtain ⟨w1, w2, w3, -⟩ := waitWritingFinished_run env
    { s with nextSnapTime := s.nextSnapTime + cfg.snapshotIter }
  unfold snapshotWait at hpath ⊢
  cases hW : waitWritingFinished env
      { s with nextSnapTime := s.nextSnapTime + cfg.snapshotIter } with
  | halt h s1 =>
    rw [hW] at hpath w1 w3
    have h3 := w3 rfl
    simp only [Outcome.halt.injEq] at h3
    obtain ⟨h3a, h3b⟩ := h3
    subst h3a
    subst h3b
    rw [hpath]
    simp [eventsSince]
  | ret u s1 =>
    rw [hW] at hpath w1 w2
    have hflag : s1.ioSharedData.writingFinished = true := w2 rfl
    have htr : s1.trace = s.trace := w1
    refine ⟨fun h => (by cases h), fun _ => hflag, fun _ hn => ?_, fun _ hn => ?_⟩
    · have hn1 : s1.ioSharedData.nBodies ≠ 0 := hn
      have hrun : snapshot cfg env s = Outcome.halt Halt.assertFailed
          { s1 with ioSharedData := { s1.ioSharedData with t_current := s1.t_current } } := by
        rw [hpath]
        simp only [hn1, ne_eq, not_false_eq_true, if_true]
      rw [hrun]
      simp [eventsSince, htr]
    · have hn1 : s1.ioSharedData.nBodies = 0 := hn
      have hrun : snapshot cfg env s
          = (if cfg.nProcs ≤ 16 then waitWritingFinished env else pure ())
              { s1 with
                ioSharedData := { writingFinished := false, nBodies := s1.n,
                                  t_current := s1.t_current },
                trace := s.trace ++ snapshotHandOff } := by
        rw [hpath]
        simp only [hn1, ne_eq, not_true_eq_false, if_false, htr, hflag, snapshotHandOff]
      rw [hrun]
      by_cases hp : cfg.nProcs ≤ 16
      · simp only [hp, if_true]
        rw [eventsSince, (waitWritingFinished_run env _).1]
        simp
      · simp [hp, eventsSince]

/-- The operations of the snapshot block, for every configuration and state:
none, one dump, or the three copies issued with `writingFinished` set followed
by the clearing of the flag. -/
theorem snapshot_events (cfg : Config) (env : Env) (s : State) :
    eventsSince s (snapshot cfg env s).state = []
      ∨ eventsSince s (snapshot cfg env s).state = [Event.dumpDataMPI]
      ∨ eventsSince s (snapshot cfg env s).state = [Event.dumpData]
      ∨ eventsSince s (snapshot cfg env s).state = snapshotHandOff := by
  by_cases hio : Config.useMPIIO cfg = true
  · by_cases hm : cfg.USE_MPI = true
    · by_cases hr : cfg.mpiRenderMode = true
      · exact Or.inr (Or.inl (by simp [snapshot, hio, hm, hr, eventsSince]))
      · exact Or.inr (Or.inr (Or.inl (by simp [snapshot, hio, hm, hr, eventsSince])))
    · exact Or.inl (by simp [snapshot, hio, hm, eventsSince])
  · have hio1 : Config.useMPIIO cfg = false := by simpa using hio
    by_cases hsi : cfg.snapshotIter > 0
    · by_cases ht : s.t_current ≥ s.nextSnapTime
      · obtain ⟨p1, -, p3, p4⟩ := snapshot_path_run cfg env s hio1 hsi ht
        cases hr : (snapshotWait cfg env s).returned with
        | false => exact Or.inl (p1 hr).2
        | true =>
          by_cases hn : (snapshotWait cfg env s).state.ioSharedData.nBodies = 0
          · exact Or.inr (Or.inr (Or.inr (p4 hr hn)))
          · exact Or.inl (p3 hr hn).2
      · exact Or.inl (by simp [snapshot, hio1, hsi, ht, eventsSince])
    · exact Or.inl (by simp [snapshot, hio1, hsi, eventsSince])

theorem snapshot_frame_loose (cfg : Config) (env : Env) :
    Sat (Frame snapshotLooseAlphabet true true true true) (snapshot cfg env) := by
  unfold snapshot waitWritingFinished
  repeat (first
    | exact sat_pure _
    | exact sat_getS
    | exact sat_haltWith _
    | exact sat_get_time _
    | exact sat_d2hShared _ (by decide) (by decide)
    | exact sat_setWritingFinished _ (by decide)
    | exact sat_emit (by decide)
    | exact sat_modifyS (fun _ => rfl) (by first | (intro _ _; rfl) | (intro h; cases h))
        (by first | (intro _ _; rfl) | (intro h; cases h))
        (by first | (intro _ _; rfl) | (intro h; cases h))
        (by first | (intro _ _; rfl) | (intro h; cases h))
    | apply sat_bind
    | intro _
    | split)

theorem snapshot_frame (cfg : Config) (env : Env) :
    Sat (Frame outputAlphabet true true true true) (snapshot cfg env) := by
  constructor
  intro s
  obtain ⟨⟨evs, ht, -⟩, hi, hc, hn, ha⟩ := (snapshot_frame_loose cfg env).run s
  refine ⟨⟨evs, ht, ?_⟩, hi, hc, hn, ha⟩
  have he : eventsSince s (snapshot cfg env s).state = evs := eventsSince_append s _ evs ht
  rcases snapshot_events cfg env s with h | h | h | h <;> rw [he] at h <;> rw [h] <;> decide

theorem clearStartupTimings_run (env : Env) (s : State) :
    (clearStartupTimings env s).returned = true
      ∧ (clearStartupTimings env s).state.trace = s.trace
      ∧ (clearStartupTimings env s).state.iter = s.iter
      ∧ (clearStartupTimings env s).state.t_current = s.t_current
      ∧ (clearStartupTimings env s).state.predictTemp = s.predictTemp
      ∧ (clearStartupTimings env s).state.n = s.n
      ∧ (clearStartupTimings env s).state.idata.Nact_since_last_tree_rebuild
          = s.idata.Nact_since_last_tree_rebuild := by
  by_cases h : s.iter < 32 <;> simp [clearStartupTimings, h]

theorem predict_t_current_congr (cfg : Config) (env : Env) (s s1 : State)
    (ht : s1.t_current = s.t_current) (hp : s1.predictTemp = s.predictTemp) (hn : s1.n = s.n) :
    (predict cfg env s1).state.t_current = (predict cfg env s).state.t_current := by
  by_cases hb : cfg.DO_BLOCK_TIMESTEP = true <;> by_cases hn0 : s.n = 0 <;>
    by_cases htemp : s.predictTemp > 0 <;> simp [predict, hb, hn0, htemp, ht, hp, hn]

theorem predictStep_run (cfg : Config) (env : Env) (s : State) :
    (predictStep cfg env s).returned = true
      ∧ (∃ evs, (predictStep cfg env s).state.trace = s.trace ++ Event.predict :: evs
          ∧ ∀ e ∈ evs, e ∈ predictAlphabet)
      ∧ (predictStep cfg env s).state.t_current = (predict cfg env s).state.t_current := by
  by_cases hb : cfg.DO_BLOCK_TIMESTEP = true <;> by_cases hn0 : s.n = 0 <;>
    by_cases htemp : s.predictTemp > 0 <;>
    simp [predictStep, predict, hb, hn0, htemp, predictAlphabet]

theorem afterForces_run (cfg : Config) (env : Env) (t1 : ℚ) (s : State) :
    (afterForces cfg env t1 s).state.trace
      = s.trace ++ [Event.sync Stream.gravStream, Event.d2h Buffer.interactions] := by
  simp [afterForces]

theorem correctStep_run (cfg : Config) (env : Env) (s : State) :
    ∃ evs, (correctStep cfg env s).state.trace = s.trace ++ Event.correct :: evs
      ∧ ∀ e ∈ evs, e ∈ correctAlphabet := by
  by_cases hb : cfg.DO_BLOCK_TIMESTEP = true <;> simp [correctStep, correct, hb, correctAlphabet]

/-- The events of one call of `compute_energies`. -/
theorem compute_energies_run (cfg : Config) (env : Env) (s : State) :
    (compute_energies cfg env s).returned = true
      ∧ (compute_energies cfg env s).state.trace = s.trace ++ [Event.compute_energies,
          Event.execute2 Kernel.computeEnergy Stream.execStream, Event.d2h Buffer.energy,
          Event.AllSum, Event.AllSum] := by
  by_cases hf : s.en.store_energy_flag = true <;> by_cases hp : cfg.procId = 0 <;>
    simp [compute_energies, hf, hp]

theorem energyStep_run (cfg : Config) (env : Env) (s : State) :
    (energyStep cfg env s).state.trace = s.trace ++ [Event.compute_energies,
          Event.execute2 Kernel.computeEnergy Stream.execStream, Event.d2h Buffer.energy,
          Event.AllSum, Event.AllSum] := by
  by_cases hf : s.en.store_energy_flag = true <;> by_cases hp : cfg.procId = 0 <;>
    simp [energyStep, compute_energies, hf, hp]

theorem stopConditions_run (cfg : Config) (env : Env) (s : State) :
    ∃ b evs, stopConditions cfg env s = Outcome.ret b (stopConditions cfg env s).state
      ∧ (stopConditions cfg env s).state.trace = s.trace ++ evs
      ∧ (b = true ↔ (s.iter ≥ cfg.iterEnd ∨ s.t_current ≥ cfg.tEnd))
      ∧ (stopConditions cfg env s).state.iter = (if b = true then s.iter else s.iter + 1)
      ∧ (stopConditions cfg env s).state.t_current = s.t_current
      ∧ evs.count Event.compute_energies
          = (if s.iter ≥ cfg.iterEnd then 0 else if s.t_current ≥ cfg.tEnd then 1 else 0)
      ∧ (∀ e ∈ evs, e ∈ energyAlphabet)
      ∧ (stopConditions cfg env s).state.idata.Nact_since_last_tree_rebuild
          = s.idata.Nact_since_last_tree_rebuild
      ∧ (stopConditions cfg env s).state.n_active_particles = s.n_active_particles := by
  by_cases hi : s.iter ≥ cfg.iterEnd
  · exact ⟨true, [], by simp [stopConditions, hi]⟩
  · by_cases ht : s.t_current ≥ cfg.tEnd
    · refine ⟨true, [Event.compute_energies,
          Event.execute2 Kernel.computeEnergy Stream.execStream, Event.d2h Buffer.energy,
          Event.AllSum, Event.AllSum], ?_⟩
      by_cases hf : s.en.store_energy_flag = true <;> by_cases hp : cfg.procId = 0 <;>
        simp [stopConditions, compute_energies, hi, ht, hf, hp, energyAlphabet]
    · exact ⟨false, [], by simp [stopConditions, hi, ht]⟩

/-- The shape of a step that returns: its events in program order, the stop
flag, the iteration counter and the simulation time. -/
theorem iterate_once_shape {cfg : Config} {env : Env} {s s' : State} {b : Bool}
    (h : iterate_once cfg env s = Outcome.ret b s') :
    ∃ pe de fe ce le oe se,
      s'.trace = s.trace ++ (Event.iterate_once :: Event.predict :: pe ++ (de ++ fe)
        ++ Event.sync Stream.gravStream :: Event.d2h Buffer.interactions
        :: Event.correct :: ce ++ le
        ++ [Event.compute_energies, Event.execute2 Kernel.computeEnergy Stream.execStream,
            Event.d2h Buffer.energy, Event.AllSum, Event.AllSum] ++ oe ++ se)
      ∧ (∀ e ∈ pe, e ∈ predictAlphabet) ∧ (∀ e ∈ de, e ∈ domainAlphabet)
      ∧ cfg.useDirectGravity = true
      ∧ fe = [Event.direct_gravity, Event.execute2 Kernel.directGrav Stream.gravStream]
      ∧ (∀ e ∈ ce, e ∈ correctAlphabet) ∧ (∀ e ∈ le, e ∈ loadBalanceAlphabet)
      ∧ (∀ e ∈ oe, e ∈ outputAlphabet) ∧ (∀ e ∈ se, e ∈ energyAlphabet)
      ∧ se.count Event.compute_energies
          = (if s.iter ≥ cfg.iterEnd then 0
             else if (predict cfg env s).state.t_current ≥ cfg.tEnd then 1 else 0)
      ∧ (b = true ↔ (s.iter ≥ cfg.iterEnd ∨ (predict cfg env s).state.t_current ≥ cfg.tEnd))
      ∧ s'.iter = (if b = true then s.iter else s.iter + 1)
      ∧ s'.t_current = (predict cfg env s).state.t_current := by
  obtain ⟨s0, s1, s2, nd, s3, t1, s4, s5, s6, s7, s8, s9, s10, s11,
    h0, h1, h2, h3, h4, h5, h6, h7, h8, h9, h10, h11, h12⟩ := iterate_once_ret h
  -- entry
  simp only [emit_run, Outcome.ret.injEq, true_and] at h0
  -- timers
  have c1 := clearStartupTimings_run env s0
  rw [h1] at c1
  simp only [state_ret] at c1
  obtain ⟨-, c1t, c1i, c1c, c1p, c1n, -⟩ := c1
  -- predictor
  have p2 := predictStep_run cfg env s1
  rw [h2] at p2
  simp only [state_ret] at p2
  obtain ⟨-, ⟨pe, p2t, p2a⟩, p2c⟩ := p2
  have f2 := frame_of_ret (predictStep_frame cfg env) h2
  have hpred : (predict cfg env s1).state.t_current = (predict cfg env s).state.t_current := by
    apply predict_t_current_congr
    · rw [c1c, ← h0]
    · rw [c1p, ← h0]
    · rw [c1n, ← h0]
  -- domain update
  obtain ⟨⟨de, d3t, d3a⟩, d3i, d3c, -, -⟩ := frame_of_ret (domainUpdate_frame cfg env) h3
  -- forces
  obtain ⟨hdir, -, f4⟩ := forces_ret h4
  -- after the forces
  have a5 := afterForces_run cfg env t1 s4
  rw [h5] at a5
  simp only [state_ret] at a5
  obtain ⟨-, a5i, a5c, -, -⟩ := frame_of_ret (afterForces_frame cfg env t1) h5
  -- corrector
  have c6 := correctStep_run cfg env s5
  rw [h6] at c6
  simp only [state_ret] at c6
  obtain ⟨ce, c6t, c6a⟩ := c6
  obtain ⟨-, c6i, c6c, -, -⟩ := frame_of_ret (correctStep_frame cfg env) h6
  -- load balance, counter
  obtain ⟨⟨le, l7t, l7a⟩, l7i, l7c, -, -⟩ := frame_of_ret (loadBalance_frame cfg env) h7
  obtain ⟨⟨ne, n8t, n8a⟩, n8i, n8c, -, -⟩ := frame_of_ret countActive_frame h8
  have hne : ne = [] := by
    cases ne with
    | nil => rfl
    | cons x xs => exact absurd (n8a x (List.mem_cons_self _ _)) (List.not_mem_nil _)
  -- energies
  have e9 := energyStep_run cfg env s8
  rw [h9] at e9
  simp only [state_ret] at e9
  obtain ⟨-, e9i, e9c, -, -⟩ := frame_of_ret (energyStep_frame cfg env) h9
  -- output
  obtain ⟨⟨oe1, o10t, o10a⟩, o10i, o10c, -, -⟩ := frame_of_ret (statistics_frame cfg env) h10
  obtain ⟨⟨oe2, o11t, o11a⟩, o11i, o11c, -, -⟩ := frame_of_ret (snapshot_frame cfg env) h11
  -- stop conditions
  obtain ⟨b', se, hb, st, sb, si, sc, scount, sa, -, -⟩ := stopConditions_run cfg env s11
  rw [h12] at hb st si sc
  simp only [state_ret, Outcome.ret.injEq, and_true] at hb st si sc
  subst hb
  have hiter : s11.iter = s.iter := by
    rw [o11i rfl, o10i rfl, e9i rfl, n8i rfl, l7i rfl, c6i rfl, a5i rfl, f4, d3i rfl, f2.2.1 rfl,
      c1i, ← h0]
  have htc : s11.t_current = (predict cfg env s).state.t_current := by
    rw [o11c rfl, o10c rfl, e9c rfl, n8c rfl, l7c rfl, c6c rfl, a5c rfl, f4, d3c rfl, p2c, hpred]
  refine ⟨pe, de, _, ce, le, oe1 ++ oe2, se, ?_, p2a, d3a, hdir, rfl, c6a, l7a, ?_, sa, ?_, ?_, ?_, ?_⟩
  · rw [st, o11t, o10t, e9, n8t, hne, l7t, c6t, a5, f4, d3t, p2t, c1t, ← h0]
    simp [List.append_assoc]
  · intro e he
    rcases List.mem_append.1 he with h' | h'
    · exact o10a e h'
    · exact o11a e h'
  · rw [scount, hiter, htc]
  · rw [sb, hiter, htc]
  · rw [si, hiter]
  · rw [sc, htc]


/-! ## Frames of the force evaluation and of a whole step -/

theorem iterate_once_eq (cfg : Config) (env : Env) :
    iterate_once cfg env = (do
      emit Event.iterate_once
      clearStartupTimings env
      predictStep cfg env
      let needDomainUpdate ← domainUpdate cfg env
      stepTail cfg env needDomainUpdate) := rfl

theorem sat_weaken {α : Type} {al al2 : List Event} {kI kT kN kA kI2 kT2 kN2 kA2 : Bool}
    {m : Exec α} (hsub : ∀ e ∈ al, e ∈ al2) (hI : kI2 = true → kI = true)
    (hT : kT2 = true → kT = true) (hN : kN2 = true → kN = true) (hA : kA2 = true → kA = true)
    (h : Sat (Frame al kI kT kN kA) m) : Sat (Frame al2 kI2 kT2 kN2 kA2) m := by
  constructor
  intro s
  obtain ⟨⟨e1, t1, m1⟩, i1, c1, n1, a1⟩ := h.run s
  exact ⟨⟨e1, t1, fun e he => hsub e (m1 e he)⟩, fun h => i1 (hI h), fun h => c1 (hT h),
    fun h => n1 (hN h), fun h => a1 (hA h)⟩

theorem letAlphabet_sub_makeLET : ∀ e ∈ letAlphabet, e ∈ makeLETAlphabet :=
  fun _ h => List.mem_append_right _ h

theorem approxCall_sub_forces : ∀ e ∈ approxCallAlphabet, e ∈ forcesAlphabet :=
  fun _ h => List.mem_append_right _ (List.mem_append_left _ h)

theorem tree_sub_forces : ∀ e ∈ treeAlphabet, e ∈ forcesAlphabet :=
  fun _ h => List.mem_append_left _ h

theorem makeLET_sub_forces : ∀ e ∈ makeLETAlphabet, e ∈ forcesAlphabet :=
  fun _ h => List.mem_append_right _ (List.mem_append_right _ h)

theorem forces_sub_tail : ∀ e ∈ forcesAlphabet, e ∈ tailAlphabet :=
  fun _ h => List.mem_append_left _ h

theorem afterForces_sub_tail : ∀ e ∈ afterForcesAlphabet, e ∈ tailAlphabet :=
  fun _ h => List.mem_append_right _ (List.mem_append_left _ h)

theorem correct_sub_tail : ∀ e ∈ correctAlphabet, e ∈ tailAlphabet :=
  fun _ h => List.mem_append_right _ (List.mem_append_right _ (List.mem_append_left _ h))

theorem loadBalance_sub_tail : ∀ e ∈ loadBalanceAlphabet, e ∈ tailAlphabet :=
  fun _ h => List.mem_append_right _ (List.mem_append_right _ (List.mem_append_right _
    (List.mem_append_left _ h)))

theorem energy_sub_tail : ∀ e ∈ energyAlphabet, e ∈ tailAlphabet :=
  fun _ h => List.mem_append_right _ (List.mem_append_right _ (List.mem_append_right _
    (List.mem_append_right _ (List.mem_append_left _ h))))

theorem output_sub_tail : ∀ e ∈ outputAlphabet, e ∈ tailAlphabet :=
  fun _ h => List.mem_append_right _ (List.mem_append_right _ (List.mem_append_right _
    (List.mem_append_right _ (List.mem_append_right _ h))))

theorem predict_sub_step : ∀ e ∈ predictAlphabet, e ∈ stepAlphabet :=
  fun _ h => List.mem_append_left _ (List.mem_cons_of_mem _ h)

theorem domain_sub_step : ∀ e ∈ domainAlphabet, e ∈ stepAlphabet :=
  fun _ h => List.mem_append_right _ (List.mem_append_left _ h)

theorem tail_sub_step : ∀ e ∈ tailAlphabet, e ∈ stepAlphabet :=
  fun _ h => List.mem_append_right _ (List.mem_append_right _ h)

set_option maxRecDepth 8000 in
theorem approximate_gravity_frame (cfg : Config) (env : Env) :
    Sat (Frame approxCallAlphabet true true true false) (approximate_gravity cfg env) := by
  unfold approximate_gravity
  repeat (first
    | exact sat_pure _
    | exact sat_getS
    | exact sat_haltWith _
    | exact sat_get_time _
    | exact sat_emit (by decide)
    | exact sat_modifyS (fun _ => rfl) (by first | (intro _ _; rfl) | (intro h; cases h))
        (by first | (intro _ _; rfl) | (intro h; cases h))
        (by first | (intro _ _; rfl) | (intro h; cases h))
        (by first | (intro _ _; rfl) | (intro h; cases h))
    | apply sat_bind
    | intro _
    | split)

set_option maxRecDepth 8000 in
theorem approximate_gravity_let_frame (c : LetCall) :
    Sat (Frame letAlphabet true true true false) (approximate_gravity_let c) := by
  unfold approximate_gravity_let
  repeat (first
    | exact sat_pure _
    | exact sat_getS
    | exact sat_haltWith _
    | exact sat_get_time _
    | exact sat_emit (by decide)
    | exact sat_modifyS (fun _ => rfl) (by first | (intro _ _; rfl) | (intro h; cases h))
        (by first | (intro _ _; rfl) | (intro h; cases h))
        (by first | (intro _ _; rfl) | (intro h; cases h))
        (by first | (intro _ _; rfl) | (intro h; cases h))
    | apply sat_bind
    | intro _
    | split)

theorem letCallsLoop_frame (cs : List LetCall) :
    Sat (Frame letAlphabet true true true false) (letCallsLoop cs) := by
  induction cs with
  | nil => exact sat_pure _
  | cons c cs ih =>
    unfold letCallsLoop
    exact sat_bind (approximate_gravity_let_frame c) (fun _ => ih)

set_option maxRecDepth 8000 in
theorem makeLET_frame (env : Env) :
    Sat (Frame makeLETAlphabet true true true false) (makeLET env) := by
  unfold makeLET essential_tree_exchangeV2
  repeat (first
    | with_reducible exact sat_weaken letAlphabet_sub_makeLET
                       (by decide) (by decide) (by decide) (by decide) (letCallsLoop_frame _)
    | exact sat_pure _
    | exact sat_getS
    | exact sat_haltWith _
    | exact sat_get_time _
    | exact sat_emit (by decide)
    | exact sat_modifyS (fun _ => rfl) (by first | (intro _ _; rfl) | (intro h; cases h))
        (by first | (intro _ _; rfl) | (intro h; cases h))
        (by first | (intro _ _; rfl) | (intro h; cases h))
        (by first | (intro _ _; rfl) | (intro h; cases h))
    | apply sat_bind
    | intro _
    | split)

set_option maxRecDepth 8000 in
theorem treeUpdate_frame (cfg : Config) (env : Env) (nd : Bool) (r : Int) :
    Sat (Frame treeAlphabet true true false false) (treeUpdate cfg env nd r) := by
  unfold treeUpdate
  cases nd <;>
  repeat (first
    | exact sat_pure _
    | exact sat_getS
    | exact sat_haltWith _
    | exact sat_get_time _
    | exact sat_emit (by decide)
    | exact sat_modifyS (fun _ => rfl) (by first | (intro _ _; rfl) | (intro h; cases h))
        (by first | (intro _ _; rfl) | (intro h; cases h))
        (by first | (intro _ _; rfl) | (intro h; cases h))
        (by first | (intro _ _; rfl) | (intro h; cases h))
    | apply sat_bind
    | intro _
    | split)

set_option maxRecDepth 8000 in
theorem treeGravity_frame (cfg : Config) (env : Env) :
    Sat (Frame forcesAlphabet true true false false) (treeGravity cfg env) := by
  unfold treeGravity
  repeat (first
    | with_reducible exact sat_weaken approxCall_sub_forces
                       (by decide) (by decide) (by decide) (by decide) (approximate_gravity_frame cfg env)
    | with_reducible exact sat_weaken makeLET_sub_forces
                       (by decide) (by decide) (by decide) (by decide) (makeLET_frame env)
    | exact sat_pure _
    | exact sat_getS
    | exact sat_haltWith _
    | exact sat_get_time _
    | exact sat_emit (by decide)
    | exact sat_modifyS (fun _ => rfl) (by first | (intro _ _; rfl) | (intro h; cases h))
        (by first | (intro _ _; rfl) | (intro h; cases h))
        (by first | (intro _ _; rfl) | (intro h; cases h))
        (by first | (intro _ _; rfl) | (intro h; cases h))
    | apply sat_bind
    | intro _
    | split)

set_option maxRecDepth 8000 in
theorem forces_frame (cfg : Config) (env : Env) (nd : Bool) :
    Sat (Frame forcesAlphabet true true false false) (forces cfg env nd) := by
  unfold forces direct_gravity
  repeat (first
    | with_reducible exact sat_weaken tree_sub_forces
                       (by decide) (by decide) (by decide) (by decide) (treeUpdate_frame cfg env nd _)
    | with_reducible exact sat_weaken (fun _ h => h)
                       (by decide) (by decide) (by decide) (by decide) (treeGravity_frame cfg env)
    | exact sat_pure _
    | exact sat_getS
    | exact sat_haltWith _
    | exact sat_get_time _
    | exact sat_emit (by decide)
    | exact sat_modifyS (fun _ => rfl) (by first | (intro _ _; rfl) | (intro h; cases h))
        (by first | (intro _ _; rfl) | (intro h; cases h))
        (by first | (intro _ _; rfl) | (intro h; cases h))
        (by first | (intro _ _; rfl) | (intro h; cases h))
    | apply sat_bind
    | intro _
    | split)

set_option maxRecDepth 8000 in
theorem stopConditions_frame (cfg : Config) (env : Env) :
    Sat (Frame energyAlphabet false true true true) (stopConditions cfg env) := by
  unfold stopConditions
  repeat (first
    | with_reducible exact sat_weaken (fun _ h => h)
                       (by decide) (by decide) (by decide) (by decide) (compute_energies_frame cfg env)
    | exact sat_pure _
    | exact sat_getS
    | exact sat_haltWith _
    | exact sat_get_time _
    | exact sat_emit (by decide)
    | exact sat_modifyS (fun _ => rfl) (by first | (intro _ _; rfl) | (intro h; cases h))
        (by first | (intro _ _; rfl) | (intro h; cases h))
        (by first | (intro _ _; rfl) | (intro h; cases h))
        (by first | (intro _ _; rfl) | (intro h; cases h))
    | apply sat_bind
    | intro _
    | split)

set_option maxRecDepth 8000 in
theorem stepTail_frame (cfg : Config) (env : Env) (nd : Bool) :
    Sat (Frame tailAlphabet false true false false) (stepTail cfg env nd) := by
  unfold stepTail
  repeat (first
    | with_reducible exact sat_weaken forces_sub_tail
                       (by decide) (by decide) (by decide) (by decide) (forces_frame cfg env nd)
    | with_reducible exact sat_weaken afterForces_sub_tail
                       (by decide) (by decide) (by decide) (by decide) (afterForces_frame cfg env _)
    | with_reducible exact sat_weaken correct_sub_tail
                       (by decide) (by decide) (by decide) (by decide) (correctStep_frame cfg env)
    | with_reducible exact sat_weaken loadBalance_sub_tail
                       (by decide) (by decide) (by decide) (by decide) (loadBalance_frame cfg env)
    | with_reducible exact sat_weaken (fun _ h => absurd h (List.not_mem_nil _))
                       (by decide) (by decide) (by decide) (by decide) (countActive_frame)
    | with_reducible exact sat_weaken energy_sub_tail
                       (by decide) (by decide) (by decide) (by decide) (energyStep_frame cfg env)
    | with_reducible exact sat_weaken output_sub_tail
                       (by decide) (by decide) (by decide) (by decide) (statistics_frame cfg env)
    | with_reducible exact sat_weaken output_sub_tail
                       (by decide) (by decide) (by decide) (by decide) (snapshot_frame cfg env)
    | with_reducible exact sat_weaken energy_sub_tail
                       (by decide) (by decide) (by decide) (by decide) (stopConditions_frame cfg env)
    | apply sat_bind
    | intro _)

theorem iterate_once_frame (cfg : Config) (env : Env) :
    Sat (Frame stepAlphabet false false false false) (iterate_once cfg env) := by
  rw [iterate_once_eq]
  repeat (first
    | with_reducible exact sat_emit (List.mem_append_left _ (List.mem_cons_self _ _))
    | with_reducible exact sat_weaken (fun _ h => absurd h (List.not_mem_nil _))
                       (by decide) (by decide) (by decide) (by decide) (clearStartupTimings_frame env)
    | with_reducible exact sat_weaken predict_sub_step
                       (by decide) (by decide) (by decide) (by decide) (predictStep_frame cfg env)
    | with_reducible exact sat_weaken domain_sub_step
                       (by decide) (by decide) (by decide) (by decide) (domainUpdate_frame cfg env)
    | with_reducible exact sat_weaken tail_sub_step
                       (by decide) (by decide) (by decide) (by decide) (stepTail_frame cfg env _)
    | with_reducible apply sat_bind
    | intro _)


/-! ## Alphabets -/

theorem count_eq_zero_of_alphabet {evs al : List Event} {x : Event}
    (hal : ∀ e ∈ evs, e ∈ al) (hx : x ∉ al) : evs.count x = 0 :=
  List.count_eq_zero.2 (fun hm => hx (hal x hm))

theorem not_mem_of_alphabet {evs al : List Event} {x : Event}
    (hal : ∀ e ∈ evs, e ∈ al) (hx : x ∉ al) : x ∉ evs :=
  fun hm => hx (hal x hm)

theorem forall_of_alphabet {evs al : List Event} {p : Event → Bool}
    (hal : ∀ e ∈ evs, e ∈ al) (hp : ∀ e ∈ al, p e = false) : ∀ e ∈ evs, p e = false :=
  fun e he => hp e (hal e he)

theorem predictAlphabet_no_force_call :
    ∀ e ∈ predictAlphabet, (isForceEvaluation e || decide (e = Event.correct)) = false := by decide
theorem correctAlphabet_no_force : ∀ e ∈ correctAlphabet, isForceEvaluation e = false := by decide
theorem loadBalanceAlphabet_no_force : ∀ e ∈ loadBalanceAlphabet, isForceEvaluation e = false := by
  decide
theorem energyAlphabet_no_force : ∀ e ∈ energyAlphabet, isForceEvaluation e = false := by decide
theorem outputAlphabet_no_force : ∀ e ∈ outputAlphabet, isForceEvaluation e = false := by decide


/-! ## The head of a step, the domain update and the tree update -/

theorem filter_eq_nil_of_alphabet {evs al : List Event} {p : Event → Bool}
    (hal : ∀ e ∈ evs, e ∈ al) (hp : ∀ e ∈ al, p e = false) : evs.filter p = [] :=
  List.filter_eq_nil_iff.2 (fun e he => by simp [hp e (hal e he)])

theorem bind_state_of_never_returns {α β : Type} {m : Exec α} (hm : NeverReturns m)
    (f : α → Exec β) (s : State) : ((m >>= f) s).state = (m s).state := by
  have h := hm.run s
  rw [bind_run]
  cases hms : m s with
  | ret a s1 => rw [hms] at h; cases h
  | halt h s1 => rfl

/-- The step up to the predictor always returns; the rest of the step runs from
the state it leaves. -/
theorem iterate_once_head (cfg : Config) (env : Env) (s : State) :
    ∃ s2 pe, iterate_once cfg env s = (domainUpdate cfg env >>= stepTail cfg env) s2
      ∧ s2.trace = s.trace ++ Event.iterate_once :: Event.predict :: pe
      ∧ (∀ e ∈ pe, e ∈ predictAlphabet)
      ∧ s2.iter = s.iter
      ∧ s2.idata.Nact_since_last_tree_rebuild = s.idata.Nact_since_last_tree_rebuild
      ∧ s2.t_current = (predict cfg env s).state.t_current := by
  obtain ⟨s0, hs0⟩ : ∃ s0 : State, s0 = { s with trace := s.trace ++ [Event.iterate_once] } :=
    ⟨_, rfl⟩
  have h0t : s0.trace = s.trace ++ [Event.iterate_once] := by rw [hs0]
  have h0i : s0.iter = s.iter := by rw [hs0]
  have h0c : s0.t_current = s.t_current := by rw [hs0]
  have h0p : s0.predictTemp = s.predictTemp := by rw [hs0]
  have h0n : s0.n = s.n := by rw [hs0]
  have h0a : s0.idata = s.idata := by rw [hs0]
  obtain ⟨hcr, hct, hci, hcc, hcp, hcn, hca⟩ := clearStartupTimings_run env s0
  obtain ⟨u1, hc1⟩ := eq_ret_of_returned _ hcr
  obtain ⟨s1, hs1⟩ : ∃ s1 : State, s1 = (clearStartupTimings env s0).state := ⟨_, rfl⟩
  rw [← hs1] at hc1 hct hci hcc hcp hcn hca
  obtain ⟨hpr, ⟨pe, hpt, hpa⟩, hpc⟩ := predictStep_run cfg env s1
  obtain ⟨u2, hp1⟩ := eq_ret_of_returned _ hpr
  have hf := (predictStep_frame cfg env).run s1
  refine ⟨(predictStep cfg env s1).state, pe, ?_, ?_, hpa, ?_, ?_, ?_⟩
  · rw [iterate_once_eq]
    simp only [bind_run, emit_run]
    rw [← hs0, hc1]
    simp only []
    rw [hp1]
    rfl
  · rw [hpt, hct, h0t]
    simp
  · rw [hf.2.1 rfl, hci, h0i]
  · rw [hf.2.2.2.1 rfl, hca, h0a]
  · rw [hpc]
    exact predict_t_current_congr cfg env _ _ (hcc.trans h0c) (hcp.trans h0p) (hcn.trans h0n)

theorem domainUpdate_value {cfg : Config} {env : Env} {s s1 : State} {nd : Bool}
    (h : domainUpdate cfg env s = Outcome.ret nd s1) : nd = true := by
  by_cases hp : cfg.nProcs > 1
  · cases hc : cmod s.iter cfg.rebuild_tree_rate with
    | none => simp [domainUpdate, hp, hc] at h
    | some r =>
      by_cases hr : r = 0
      · simp [domainUpdate, hp, hc, hr] at h
        exact h.1
      · simp [domainUpdate, hp, hc, hr] at h
        exact h.1
  · simp [domainUpdate, hp] at h
    exact h.1

theorem domainUpdate_trace (cfg : Config) (env : Env) (s : State) :
    (domainUpdate cfg env s).state.trace = s.trace ++
      (if cfg.nProcs > 1 ∧ cmod s.iter cfg.rebuild_tree_rate = some 0
        then [Event.parallelDataSummary, Event.mpiSync] else []) := by
  by_cases hp : cfg.nProcs > 1
  · cases hc : cmod s.iter cfg.rebuild_tree_rate with
    | none => simp [domainUpdate, hp, hc]
    | some r =>
      by_cases hr : r = 0
      · simp [domainUpdate, hp, hc, hr]
      · simp [domainUpdate, hp, hc, hr]
  · simp [domainUpdate, hp]

theorem domainUpdate_returned (cfg : Config) (env : Env) (s : State)
    (h : cmod s.iter cfg.rebuild_tree_rate ≠ none) : (domainUpdate cfg env s).returned = true := by
  by_cases hp : cfg.nProcs > 1
  · cases hc : cmod s.iter cfg.rebuild_tree_rate with
    | none => exact absurd hc h
    | some r =>
      by_cases hr : r = 0
      · simp [domainUpdate, hp, hc, hr]
      · simp [domainUpdate, hp, hc, hr]
  · simp [domainUpdate, hp]

set_option maxRecDepth 8000 in
theorem tailAlphabet_no_domain : ∀ e ∈ tailAlphabet, isDomainOp e = false := by
  unfold tailAlphabet forcesAlphabet
  simp only [List.forall_mem_append]
  refine ⟨⟨?_, ?_, ?_⟩, ?_, ?_, ?_, ?_, ?_⟩ <;> decide

set_option maxRecDepth 8000 in
theorem approxAlphabet_no_tree_op : ∀ e ∈ approxAlphabet, isTreeOp e = false := by decide

theorem predictAlphabet_no_domain : ∀ e ∈ predictAlphabet, isDomainOp e = false := by decide

theorem predictAlphabet_no_tree_op : ∀ e ∈ predictAlphabet, isTreeOp e = false := by decide

theorem domainAlphabet_no_tree_op : ∀ e ∈ domainAlphabet, isTreeOp e = false := by decide

/-- The domain update of a step: which steps run `parallelDataSummary` and
`mpiSync`, whatever the outcome of the step. -/
theorem domain_update_cadence_step (cfg : Config) (env : Env) (s : State) :
    (eventsSince s (iterate_once cfg env s).state).filter isDomainOp
      = (if cfg.nProcs > 1 ∧ cmod s.iter cfg.rebuild_tree_rate = some 0
          then [Event.parallelDataSummary, Event.mpiSync] else []) := by
  obtain ⟨s2, pe, hrun, h2t, hpa, h2i, -, -⟩ := iterate_once_head cfg env s
  have hd := domainUpdate_trace cfg env s2
  rw [h2i] at hd
  have hpe : pe.filter isDomainOp = [] := filter_eq_nil_of_alphabet hpa predictAlphabet_no_domain
  have hif : (if cfg.nProcs > 1 ∧ cmod s.iter cfg.rebuild_tree_rate = some 0
          then [Event.parallelDataSummary, Event.mpiSync] else []).filter isDomainOp
      = (if cfg.nProcs > 1 ∧ cmod s.iter cfg.rebuild_tree_rate = some 0
          then [Event.parallelDataSummary, Event.mpiSync] else []) := by
    split_ifs <;> rfl
  rw [hrun, bind_run]
  cases hdu : domainUpdate cfg env s2 with
  | halt h s3 =>
    rw [hdu] at hd
    simp only [state_halt] at hd ⊢
    rw [eventsSince_append s s3 _ (by rw [hd, h2t, List.append_assoc])]
    have e1 : isDomainOp Event.iterate_once = false := rfl
    have e2 : isDomainOp Event.predict = false := rfl
    simp only [List.filter_append, List.filter_cons, e1, e2, hpe, hif, List.nil_append,
      Bool.false_eq_true, if_false]
  | ret nd s3 =>
    rw [hdu] at hd
    simp only [state_ret] at hd ⊢
    obtain ⟨⟨te, htt, hta⟩, -⟩ := (stepTail_frame cfg env nd).run s3
    have hte : te.filter isDomainOp = [] := filter_eq_nil_of_alphabet hta tailAlphabet_no_domain
    rw [eventsSince_append s _ _ (by rw [htt, hd, h2t, List.append_assoc, List.append_assoc])]
    have e1 : isDomainOp Event.iterate_once = false := rfl
    have e2 : isDomainOp Event.predict = false := rfl
    simp only [List.filter_append, List.filter_cons, e1, e2, hpe, hif, hte, List.nil_append,
      List.append_nil, Bool.false_eq_true, if_false]



theorem treeUpdate_run (cfg : Config) (env : Env) (nd : Bool) (r : Int) (s : State) :
    (treeUpdate cfg env nd r s).returned = true
      ∧ (∃ evs, (treeUpdate cfg env nd r s).state.trace = s.trace ++ evs
          ∧ evs.filter isTreeOp = (if r = 0
              then [Event.sort_bodies nd none, Event.build, Event.allocateTreePropMemory,
                Event.compute_properties]
              else [Event.compute_properties]))
      ∧ (treeUpdate cfg env nd r s).state.idata.Nact_since_last_tree_rebuild
          = (if cfg.DO_BLOCK_TIMESTEP = true then 0 else s.idata.Nact_since_last_tree_rebuild)
      ∧ (Event.build ∈ (treeUpdate cfg env nd r s).state.trace ↔ (Event.build ∈ s.trace ∨ r = 0)) := by
  by_cases hr : r = 0 <;> by_cases hb : cfg.DO_BLOCK_TIMESTEP = true <;>
    simp [treeUpdate, hr, hb, isTreeOp]

theorem treeGravity_run (cfg : Config) (env : Env) (s : State) :
    ∃ evs, (treeGravity cfg env s).state.trace = s.trace ++ Event.approximate_gravity :: evs
      ∧ (∀ e ∈ evs, e ∈ approxAlphabet)
      ∧ (treeGravity cfg env s).state.idata.Nact_since_last_tree_rebuild
          = s.idata.Nact_since_last_tree_rebuild := by
  have hnr : NeverReturns (approximate_gravity cfg env) := approximate_gravity_never_returns cfg env
  have hst : (treeGravity cfg env s).state
      = (approximate_gravity cfg env { s with clock := s.clock + 1 }).state := by
    unfold treeGravity
    simp only [bind_run, get_time_run]
    exact bind_state_of_never_returns hnr _ _
  rw [hst]
  by_cases hn : s.n = 0 <;> simp [approximate_gravity, hn, approxAlphabet]

/-- The force evaluation of a tree-mode step: what it leaves in the trace and in
the active-particle counter. -/
theorem forces_tree_run (cfg : Config) (env : Env) (nd : Bool) (s : State) (r : Int)
    (hd : cfg.useDirectGravity = false) (hc : cmod s.iter cfg.rebuild_tree_rate = some r) :
    (∃ evs, (forces cfg env nd s).state.trace = s.trace ++ evs
        ∧ evs.filter isTreeOp = (if r = 0
            then [Event.sort_bodies nd none, Event.build, Event.allocateTreePropMemory,
              Event.compute_properties, Event.approximate_gravity]
            else [Event.compute_properties, Event.approximate_gravity]))
      ∧ (forces cfg env nd s).state.idata.Nact_since_last_tree_rebuild
          = (if cfg.DO_BLOCK_TIMESTEP = true then 0 else s.idata.Nact_since_last_tree_rebuild)
      ∧ (Event.build ∈ (forces cfg env nd s).state.trace ↔ (Event.build ∈ s.trace ∨ r = 0)) := by
  obtain ⟨hur, ⟨ue, hut, huf⟩, hun, hub⟩ := treeUpdate_run cfg env nd r s
  obtain ⟨u, hu⟩ := eq_ret_of_returned _ hur
  obtain ⟨ge, hgt, hga, hgn⟩ := treeGravity_run cfg env (treeUpdate cfg env nd r s).state
  have hst : (forces cfg env nd s).state
      = (treeGravity cfg env (treeUpdate cfg env nd r s).state).state := by
    unfold forces
    rw [hd]
    simp only [Bool.false_eq_true, if_false, bind_run, getS_run, hc]
    rw [hu]
    rfl
  rw [hst]
  refine ⟨⟨ue ++ Event.approximate_gravity :: ge, by rw [hgt, hut, List.append_assoc], ?_⟩,
    by rw [hgn, hun], ?_⟩
  · have hge : ge.filter isTreeOp = [] := filter_eq_nil_of_alphabet hga approxAlphabet_no_tree_op
    have e1 : isTreeOp Event.approximate_gravity = true := rfl
    simp only [List.filter_append, huf, List.filter_cons, e1, hge, if_true]
    split_ifs <;> rfl
  · rw [hgt, List.mem_append, hub, List.mem_cons]
    have hb : Event.build ∉ ge := not_mem_of_alphabet hga (by decide)
    constructor
    · rintro (h | h | h)
      · exact h
      · cases h
      · exact absurd h hb
    · intro h
      exact Or.inl h

theorem stepTail_tree_state (cfg : Config) (env : Env) (nd : Bool) (s : State)
    (hd : cfg.useDirectGravity = false) :
    (stepTail cfg env nd s).state = (forces cfg env nd s).state := by
  unfold stepTail
  exact bind_state_of_never_returns (forces_tree_never_returns cfg env nd hd) _ _

theorem cmod_pos (a b : Int) (hb : 0 < b) : cmod a b = some (Int.tmod a b) := by
  unfold cmod
  rw [if_neg]
  rintro (h | ⟨-, h⟩) <;> omega

theorem tmod_eq_zero_iff (a b : Int) : Int.tmod a b = 0 ↔ a % b = 0 := by
  constructor
  · intro h
    exact Int.emod_eq_zero_of_dvd (Int.dvd_of_tmod_eq_zero h)
  · intro h
    exact Int.tmod_eq_zero_of_dvd (Int.dvd_of_emod_eq_zero h)


set_option maxRecDepth 8000 in
theorem iterate_setup_single_frame (cfg : Config) (env : Env) (hn : ¬ cfg.nProcs > 1) :
    Sat (Frame setupSingleAlphabet true true true true) (iterate_setup cfg env) := by
  unfold iterate_setup newStreamIfNull
  repeat (first
    | exact sat_pure _
    | exact sat_getS
    | exact sat_haltWith _
    | exact sat_get_time _
    | exact sat_emit (by decide)
    | exact sat_modifyS (fun _ => rfl) (by first | (intro _ _; rfl) | (intro h; cases h))
        (by first | (intro _ _; rfl) | (intro h; cases h))
        (by first | (intro _ _; rfl) | (intro h; cases h))
        (by first | (intro _ _; rfl) | (intro h; cases h))
    | contradiction
    | apply sat_bind
    | intro _
    | split)

theorem setupSingleAlphabet_no_domain : ∀ e ∈ setupSingleAlphabet, isDomainOp e = false := by
  decide



theorem countActive_run (s : State) :
    countActive s = Outcome.ret () { s with idata := { s.idata with
      Nact_since_last_tree_rebuild :=
        s.idata.Nact_since_last_tree_rebuild + s.n_active_particles } } := rfl

/-- A step that returns has added the `n_active_particles` it leaves to the
active-particle counter, and has not reset the counter. -/
theorem iterate_once_counts_active {cfg : Config} {env : Env} {s s' : State} {b : Bool}
    (h : iterate_once cfg env s = Outcome.ret b s') :
    s'.idata.Nact_since_last_tree_rebuild
      = s.idata.Nact_since_last_tree_rebuild + s'.n_active_particles := by
  obtain ⟨s0, s1, s2, nd, s3, t1, s4, s5, s6, s7, s8, s9, s10, s11,
    h0, h1, h2, h3, h4, h5, h6, h7, h8, h9, h10, h11, h12⟩ := iterate_once_ret h
  simp only [emit_run, Outcome.ret.injEq, true_and] at h0
  have f1 := frame_of_ret (clearStartupTimings_frame env) h1
  have f2 := frame_of_ret (predictStep_frame cfg env) h2
  have f3 := frame_of_ret (domainUpdate_frame cfg env) h3
  obtain ⟨-, -, f4⟩ := forces_ret h4
  have f5 := frame_of_ret (afterForces_frame cfg env t1) h5
  have f6 := frame_of_ret (correctStep_frame cfg env) h6
  have f7 := frame_of_ret (loadBalance_frame cfg env) h7
  rw [countActive_run] at h8
  simp only [Outcome.ret.injEq, true_and] at h8
  have f9 := frame_of_ret (energyStep_frame cfg env) h9
  have f10 := frame_of_ret (statistics_frame cfg env) h10
  have f11 := frame_of_ret (snapshot_frame cfg env) h11
  obtain ⟨b', se, hb, -, -, -, -, -, -, sn, sa⟩ := stopConditions_run cfg env s11
  rw [h12] at sn sa
  simp only [state_ret] at sn sa
  have hact : s'.n_active_particles = s7.n_active_particles := by
    rw [sa, f11.2.2.2.2 rfl, f10.2.2.2.2 rfl, f9.2.2.2.2 rfl, ← h8]
  have hn7 : s7.idata.Nact_since_last_tree_rebuild = s.idata.Nact_since_last_tree_rebuild := by
    rw [f7.2.2.2.1 rfl, f6.2.2.2.1 rfl, f5.2.2.2.1 rfl, f4, f3.2.2.2.1 rfl, f2.2.2.2.1 rfl,
      f1.2.2.2.1 rfl, ← h0]
  rw [sn, f11.2.2.2.1 rfl, f10.2.2.2.1 rfl, f9.2.2.2.1 rfl, ← h8, hact]
  simp only []
  rw [hn7]

theorem forces_no_reset (cfg : Config) (env : Env) (nd : Bool) (s : State)
    (h : cfg.useDirectGravity = true ∨ cfg.DO_BLOCK_TIMESTEP = false) :
    (forces cfg env nd s).state.idata.Nact_since_last_tree_rebuild
      = s.idata.Nact_since_last_tree_rebuild := by
  by_cases hd : cfg.useDirectGravity = true
  · simp [forces, hd, direct_gravity]
  · have hd' : cfg.useDirectGravity = false := by simpa using hd
    have hb : cfg.DO_BLOCK_TIMESTEP = false := by
      rcases h with h | h
      · exact absurd h hd
      · exact h
    cases hc : cmod s.iter cfg.rebuild_tree_rate with
    | none => simp [forces, hd, hc]
    | some r =>
      rw [(forces_tree_run cfg env nd s r hd' hc).2.1, hb]
      simp


/-! ## Properties of the step and of the run -/

theorem iterate_once_tree_never_returns (cfg : Config) (env : Env)
    (hd : cfg.useDirectGravity = false) : NeverReturns (iterate_once cfg env) := by
  unfold iterate_once
  repeat (first
    | exact never_returns_bind_left _ (forces_tree_never_returns cfg env _ hd)
    | apply never_returns_bind_right
    | intro _)


/-- C1, refuted on the tree path: with `useDirectGravity` false, one process
and a tree of one particle, `iterate_once` does not return a stop flag. The
step calls `approximate_gravity`, which ends the process with `exit(0)`
(line 935), and `correct` is never issued. -/
theorem tree_step_exits_before_correct :
    ∃ s1, iterate_once treeConfig quietEnv initState = Outcome.halt (Halt.exit 0) s1
      ∧ Event.approximate_gravity ∈ s1.trace ∧ Event.correct ∉ s1.trace :=
  ⟨_, rfl, by decide, by decide⟩

/-- C2: a call of `iterate_once` that runs to its end returns `true` exactly
when `iter >= iterEnd` or `t_current >= tEnd`, where `t_current` is the value
left by the `predict` of this step, which is also the value at the end of the
step. The iteration count is tested first: when it holds, `compute_energies` has
run once in the step; when only the time condition holds, it has run twice,
the second time on the way out. -/
theorem iterate_once_stop_flag (cfg : Config) (env : Env) (s s' : State) (b : Bool)
    (h : iterate_once cfg env s = Outcome.ret b s') :
    (b = true ↔ (s.iter ≥ cfg.iterEnd ∨ (predict cfg env s).state.t_current ≥ cfg.tEnd))
      ∧ s'.t_current = (predict cfg env s).state.t_current
      ∧ (eventsSince s s').count Event.compute_energies
          = (if s.iter ≥ cfg.iterEnd then 1
             else if (predict cfg env s).state.t_current ≥ cfg.tEnd then 2 else 1) := by
  obtain ⟨pe, de, fe, ce, le, oe, se, ht, hpe, hde, -, hfe, hce, hle, hoe, -, hcount, hb, -, htc⟩ :=
    iterate_once_shape h
  refine ⟨hb, htc, ?_⟩
  rw [eventsSince_append s s' _ ht]
  have z1 : pe.count Event.compute_energies = 0 := count_eq_zero_of_alphabet hpe (by decide)
  have z2 : de.count Event.compute_energies = 0 := count_eq_zero_of_alphabet hde (by decide)
  have z3 : ce.count Event.compute_energies = 0 := count_eq_zero_of_alphabet hce (by decide)
  have z4 : le.count Event.compute_energies = 0 := count_eq_zero_of_alphabet hle (by decide)
  have z5 : oe.count Event.compute_energies = 0 := count_eq_zero_of_alphabet hoe (by decide)
  have z6 : fe.count Event.compute_energies = 0 := by rw [hfe]; decide
  have z7 : [Event.compute_energies, Event.execute2 Kernel.computeEnergy Stream.execStream,
            Event.d2h Buffer.energy, Event.AllSum, Event.AllSum].count Event.compute_energies = 1 := by
    decide
  have z8 : ∀ l : List Event, (Event.iterate_once :: Event.predict :: l).count Event.compute_energies
      = l.count Event.compute_energies := by
    intro l
    rw [List.count_cons_of_ne (by decide), List.count_cons_of_ne (by decide)]
  have z9 : ∀ l : List Event, (Event.sync Stream.gravStream :: Event.d2h Buffer.interactions
      :: Event.correct :: l).count Event.compute_energies = l.count Event.compute_energies := by
    intro l
    rw [List.count_cons_of_ne (by decide), List.count_cons_of_ne (by decide),
      List.count_cons_of_ne (by decide)]
  rw [List.count_append, List.count_append, List.count_append, List.count_append,
    List.count_append, List.count_append, z9, z8, List.count_append, z1, z2, z6, z3, z4, z5, z7, hcount]
  split_ifs <;> rfl

theorem iterate_once_stop_flag_witness :
    (false = true ↔ (initState.iter ≥ directConfig.iterEnd
        ∨ (predict directConfig quietEnv initState).state.t_current ≥ directConfig.tEnd))
      ∧ (iterate_once directConfig quietEnv initState).state.t_current
          = (predict directConfig quietEnv initState).state.t_current
      ∧ (eventsSince initState (iterate_once directConfig quietEnv initState).state).count
          Event.compute_energies
          = (if initState.iter ≥ directConfig.iterEnd then 1
             else if (predict directConfig quietEnv initState).state.t_current
                ≥ directConfig.tEnd then 2 else 1) :=
  iterate_once_stop_flag directConfig quietEnv initState
    (iterate_once directConfig quietEnv initState).state false rfl

/-- C3: a call of `iterate_once` that returns `false` has incremented `iter`
by exactly one (and had `iter < iterEnd`); a call that returns `true` has left
`iter` unchanged. -/
theorem iterate_once_iter_counter (cfg : Config) (env : Env) (s s' : State) (b : Bool)
    (h : iterate_once cfg env s = Outcome.ret b s') :
    (b = false → s'.iter = s.iter + 1 ∧ s.iter < cfg.iterEnd) ∧ (b = true → s'.iter = s.iter) := by
  obtain ⟨pe, de, fe, ce, le, oe, se, -, -, -, -, -, -, -, -, -, -, hb, hi, -⟩ :=
    iterate_once_shape h
  constructor
  · intro hf
    subst hf
    simp only [Bool.false_eq_true, if_false] at hi
    refine ⟨hi, ?_⟩
    by_contra hlt
    exact absurd (hb.2 (Or.inl (not_lt.1 hlt))) (by decide)
  · intro ht
    subst ht
    simpa using hi

theorem iterate_once_iter_counter_witness :
    (false = false → (iterate_once directConfig quietEnv initState).state.iter = initState.iter + 1
        ∧ initState.iter < directConfig.iterEnd)
      ∧ (false = true → (iterate_once directConfig quietEnv initState).state.iter = initState.iter) :=
  iterate_once_iter_counter directConfig quietEnv initState
    (iterate_once directConfig quietEnv initState).state false rfl

/-- C4, refuted on the tree path: with `useDirectGravity` false, `iterate`
calls `iterate_once` once, the process ends with `exit(0)` inside that call,
and `iterate_teardown` is never run. -/
theorem iterate_tree_mode_skips_teardown :
    ∃ s1, iterate treeConfig quietEnv (fun _ => quietEnv) zeroIterationData 11 initState
        = some (Outcome.halt (Halt.exit 0) s1)
      ∧ s1.trace.count Event.iterate_once = 1
      ∧ s1.trace.count Event.iterate_teardown = 0 :=
  ⟨_, rfl, by decide, by decide⟩

/-- C5: the events of a completed step split as
`pre ++ predict :: mid ++ sync gravStream :: post1 ++ correct :: post2` with
no force evaluation (calls of `direct_gravity`, `approximate_gravity`,
`makeLET`, `approximate_gravity_let`, launches of the force kernels) in `pre`,
`post1` or `post2`, and no `correct` before the one shown. So `predict` comes
before every force evaluation, and the gravity stream is synchronized after the
last of them and before `correct`. -/
theorem iterate_once_order (cfg : Config) (env : Env) (s s' : State) (b : Bool)
    (h : iterate_once cfg env s = Outcome.ret b s') :
    ∃ pre mid post1 post2,
      eventsSince s s' = pre ++ Event.predict :: mid
        ++ Event.sync Stream.gravStream :: post1 ++ Event.correct :: post2
      ∧ (∀ e ∈ pre, isForceEvaluation e = false)
      ∧ (∀ e ∈ post1, isForceEvaluation e = false)
      ∧ (∀ e ∈ post2, isForceEvaluation e = false)
      ∧ Event.correct ∉ pre ++ Event.predict :: mid ++ Event.sync Stream.gravStream :: post1 := by
  obtain ⟨pe, de, fe, ce, le, oe, se, ht, hpe, hde, -, hfe, hce, hle, hoe, hse, -, -, -, -⟩ :=
    iterate_once_shape h
  refine ⟨[Event.iterate_once], pe ++ (de ++ fe), [Event.d2h Buffer.interactions],
    ce ++ le ++ [Event.compute_energies, Event.execute2 Kernel.computeEnergy Stream.execStream,
            Event.d2h Buffer.energy, Event.AllSum, Event.AllSum] ++ oe ++ se, ?_, ?_, ?_, ?_, ?_⟩
  · rw [eventsSince_append s s' _ ht]
    simp [List.append_assoc]
  · decide
  · decide
  · intro e he
    simp only [List.mem_append] at he
    rcases he with (((he | he) | he) | he) | he
    · exact correctAlphabet_no_force e (hce e he)
    · exact loadBalanceAlphabet_no_force e (hle e he)
    · exact energyAlphabet_no_force e (by revert he; simp [energyAlphabet])
    · exact outputAlphabet_no_force e (hoe e he)
    · exact energyAlphabet_no_force e (hse e he)
  · subst hfe
    intro hm
    simp only [List.mem_append, List.mem_cons, List.mem_singleton, List.mem_nil_iff] at hm
    have n1 : Event.correct ∉ pe := not_mem_of_alphabet hpe (by decide)
    have n2 : Event.correct ∉ de := not_mem_of_alphabet hde (by decide)
    simp [n1, n2] at hm

theorem iterate_once_order_witness :
    ∃ pre mid post1 post2,
      eventsSince initState (iterate_once directConfig quietEnv initState).state
        = pre ++ Event.predict :: mid
          ++ Event.sync Stream.gravStream :: post1 ++ Event.correct :: post2
      ∧ (∀ e ∈ pre, isForceEvaluation e = false)
      ∧ (∀ e ∈ post1, isForceEvaluation e = false)
      ∧ (∀ e ∈ post2, isForceEvaluation e = false)
      ∧ Event.correct ∉ pre ++ Event.predict :: mid ++ Event.sync Stream.gravStream :: post1 :=
  iterate_once_order directConfig quietEnv initState
    (iterate_once directConfig quietEnv initState).state false rfl

/-! ## The remote-tree buffer protocol -/

theorem letMonitor_append (a b : List Event) :
    letMonitor (a ++ b) = b.foldl letMonitorStep (letMonitor a) := by
  simp [letMonitor, List.foldl_append]

theorem letMonitorStep_quiet (m : Bool × Bool) (e : Event) (h : isLetCritical e = false) :
    (letMonitorStep m e).2 = m.2 ∧ (m.1 = false → (letMonitorStep m e).1 = false) := by
  unfold letMonitorStep
  split
  · simp [isLetCritical] at h
  · simp
  · simp [isLetCritical] at h
  · simp

theorem foldl_quiet (evs : List Event) (m : Bool × Bool)
    (h : ∀ e ∈ evs, isLetCritical e = false) :
    (evs.foldl letMonitorStep m).2 = m.2 ∧ (m.1 = false → (evs.foldl letMonitorStep m).1 = false) := by
  induction evs generalizing m with
  | nil => simp
  | cons e es ih =>
    have he := letMonitorStep_quiet m e (h e (List.mem_cons_self _ _))
    have hes := ih (letMonitorStep m e) (fun x hx => h x (List.mem_cons_of_mem _ hx))
    simp only [List.foldl_cons]
    exact ⟨hes.1.trans he.1, fun hm => hes.2 (he.2 hm)⟩

theorem letSafe_of_append (a b : List Event) (h : letSafe (a ++ b) = true) : letSafe a = true := by
  unfold letSafe at *
  rw [letMonitor_append] at h
  generalize letMonitor a = m at h
  induction b generalizing m with
  | nil => simpa using h
  | cons e es ih =>
    simp only [List.foldl_cons] at h
    have := ih _ h
    unfold letMonitorStep at this
    split at this <;> simp_all

theorem letIdle_of_quiet {s s1 : State} {evs : List Event} (ht : s1.trace = s.trace ++ evs)
    (hq : ∀ e ∈ evs, isLetCritical e = false) (h : LetIdle s) : LetIdle s1 := by
  unfold LetIdle letSafe letJoined at *
  rw [ht, letMonitor_append]
  obtain ⟨h2, h1⟩ := foldl_quiet evs (letMonitor s.trace) hq
  rw [h2]
  refine ⟨h.1, ?_⟩
  have : (letMonitor s.trace).1 = false := by simpa using h.2
  simp [h1 this]

theorem letSafe_of_quiet {s s1 : State} {evs : List Event} (ht : s1.trace = s.trace ++ evs)
    (hq : ∀ e ∈ evs, isLetCritical e = false) (h : LetSafe s) : LetSafe s1 := by
  unfold LetSafe letSafe at *
  rw [ht, letMonitor_append, (foldl_quiet evs (letMonitor s.trace) hq).1]
  exact h

theorem letIdle_guarded {s : State} (h : LetIdle s) : LetGuarded s := ⟨h.1, Or.inl h.2⟩

theorem letIdle_safe {s : State} (h : LetIdle s) : LetSafe s := h.1

theorem triple_bind {α β : Type} {P Q R H : State → Prop} {m : Exec α} {f : α → Exec β}
    (hm : Triple P m Q H) (hf : ∀ a, Triple Q (f a) R H) : Triple P (m >>= f) R H := by
  constructor
  intro s hs
  have h1 := hm.run s hs
  rw [bind_run]
  cases hms : m s with
  | ret a s1 =>
    rw [hms] at h1
    exact (hf a).run s1 h1
  | halt h s1 =>
    rw [hms] at h1
    exact h1

theorem triple_weaken {α : Type} {P P2 Q Q2 H H2 : State → Prop} {m : Exec α}
    (hP : ∀ s, P2 s → P s) (hQ : ∀ s, Q s → Q2 s) (hH : ∀ s, H s → H2 s)
    (hm : Triple P m Q H) : Triple P2 m Q2 H2 := by
  constructor
  intro s hs
  have h1 := hm.run s (hP s hs)
  cases hms : m s with
  | ret a s1 =>
    rw [hms] at h1
    exact hQ s1 h1
  | halt h s1 =>
    rw [hms] at h1
    exact hH s1 h1

theorem triple_pure {α : Type} {P H : State → Prop} (a : α) : Triple P (pure a : Exec α) P H :=
  ⟨fun _ hs => hs⟩

/-- A block whose events leave the buffer protocol alone keeps the buffer idle,
whatever its outcome. -/
theorem triple_idle_of_frame {α : Type} {al : List Event} {kI kT kN kA : Bool} {m : Exec α}
    (hm : Sat (Frame al kI kT kN kA) m) (hq : ∀ e ∈ al, isLetCritical e = false) :
    Triple LetIdle m LetIdle LetIdle := by
  constructor
  intro s hs
  obtain ⟨⟨evs, ht, ha⟩, -⟩ := hm.run s
  have := letIdle_of_quiet ht (fun e he => hq e (ha e he)) hs
  cases hms : m s with
  | ret a s1 => rw [hms] at this; exact this
  | halt h s1 => rw [hms] at this; exact this

theorem approximate_gravity_let_guarded (c : LetCall) :
    Triple LetGuarded (approximate_gravity_let c)
      (fun s => LetGuarded s ∧ s.letRunning = true) (fun _ => False) := by
  constructor
  intro s hs
  unfold LetGuarded letSafe letJoined at hs
  obtain ⟨hsafe, hj⟩ := hs
  by_cases hl : s.letRunning = true <;> by_cases ha : c.doActiveParticles = true <;>
    simp only [approximate_gravity_let, hl, ha, bind_run, emit_run, getS_run, modifyS_run,
      pure_run, if_true, if_false, Bool.false_eq_true] <;>
    simp only [LetGuarded, letSafe, letJoined, List.append_assoc, List.singleton_append,
      List.nil_append, letMonitor_append, List.foldl_cons, List.foldl_nil] <;>
    generalize letMonitor s.trace = m at hsafe hj <;>
    obtain ⟨m1, m2⟩ := m <;>
    cases m1 <;> cases m2 <;>
    first
      | exact absurd hsafe (by decide)
      | (simp only [Bool.not_true, Bool.false_eq_true, false_or] at hj; exact absurd hj hl)
      | decide

theorem letCallsLoop_guarded (cs : List LetCall) :
    Triple LetGuarded (letCallsLoop cs) LetGuarded (fun _ => False) := by
  induction cs with
  | nil => exact triple_pure _
  | cons c cs ih =>
    unfold letCallsLoop
    exact triple_bind (triple_weaken (fun _ h => h) (fun _ h => h.1) (fun _ h => h)
      (approximate_gravity_let_guarded c)) (fun _ => ih)

theorem letGuarded_emit {e : Event} (hq : isLetCritical e = false) (s : State)
    (h : LetGuarded s) : LetGuarded { s with trace := s.trace ++ [e] } := by
  unfold LetGuarded letSafe letJoined at *
  simp only [letMonitor_append]
  obtain ⟨h2, h1⟩ := foldl_quiet [e] (letMonitor s.trace) (by simpa using hq)
  rw [h2]
  refine ⟨h.1, ?_⟩
  rcases h.2 with hj | hl
  · left
    have hf : (letMonitor s.trace).1 = false := by simpa using hj
    rw [h1 hf]
    rfl
  · right
    exact hl

theorem triple_emit_guarded {e : Event} (hq : isLetCritical e = false) :
    Triple LetGuarded (emit e) LetGuarded (fun _ => False) :=
  ⟨fun s hs => letGuarded_emit hq s hs⟩

theorem triple_get_time_guarded (env : Env) :
    Triple LetGuarded (get_time env) LetGuarded (fun _ => False) :=
  ⟨fun _ hs => hs⟩

theorem triple_modifyS_guarded {f : State → State} (ht : ∀ s, (f s).trace = s.trace)
    (hl : ∀ s, (f s).letRunning = s.letRunning) :
    Triple LetGuarded (modifyS f) LetGuarded (fun _ => False) := by
  constructor
  intro s hs
  unfold LetGuarded at *
  simp only [modifyS_run]
  rw [ht, hl]
  exact hs

theorem triple_modifyS_clear {f : State → State} (ht : ∀ s, (f s).trace = s.trace)
    (hl : ∀ s, (f s).letRunning = false) :
    Triple LetGuarded (modifyS f) (fun s => LetSafe s ∧ s.letRunning = false)
      (fun _ => False) := by
  constructor
  intro s hs
  unfold LetSafe
  simp only [modifyS_run]
  rw [ht]
  exact ⟨hs.1, hl s⟩

/-- The LET exchange keeps the buffer safe from any state in which a kernel in
flight is announced by `letRunning`, and it returns. -/
theorem makeLET_clears (env : Env) :
    Triple LetGuarded (makeLET env) (fun s => LetSafe s ∧ s.letRunning = false)
      (fun _ => False) := by
  unfold makeLET essential_tree_exchangeV2
  repeat (first
    | exact triple_emit_guarded rfl
    | exact triple_get_time_guarded _
    | with_reducible exact letCallsLoop_guarded _
    | exact triple_modifyS_guarded (fun _ => rfl) (fun _ => rfl)
    | exact triple_modifyS_clear (fun _ => rfl) (fun _ => rfl)
    | refine triple_bind (?_ : Triple LetGuarded _ LetGuarded _) (fun _ => ?_))

theorem makeLET_safe (env : Env) : Triple LetGuarded (makeLET env) LetSafe (fun _ => False) :=
  triple_weaken (fun _ h => h) (fun _ h => h.1) (fun _ h => h) (makeLET_clears env)

theorem approxCallAlphabet_quiet : ∀ e ∈ approxCallAlphabet, isLetCritical e = false := by
  decide

theorem treeAlphabet_quiet : ∀ e ∈ treeAlphabet, isLetCritical e = false := by decide

theorem treeGravity_safe (cfg : Config) (env : Env) :
    Triple LetIdle (treeGravity cfg env) LetSafe LetSafe := by
  constructor
  intro s hs
  have hs1 : LetIdle { s with clock := s.clock + 1 } := hs
  have hag := (triple_idle_of_frame (approximate_gravity_frame cfg env)
    approxCallAlphabet_quiet).run _ hs1
  unfold treeGravity
  simp only [bind_run, get_time_run]
  cases hms : approximate_gravity cfg env { s with clock := s.clock + 1 } with
  | halt h s1 =>
    rw [hms] at hag
    exact hag.1
  | ret a s1 =>
    rw [hms] at hag
    simp only [modifyS_run] at hag ⊢
    by_cases hp : cfg.nProcs > 1
    · simp only [hp, if_true, bind_run]
      have hg : LetGuarded { s1 with runningLETTimeSum := 0 } := letIdle_guarded hag
      have hm := (makeLET_safe env).run _ hg
      cases hmk : makeLET env { s1 with runningLETTimeSum := 0 } with
      | halt h s2 => rw [hmk] at hm; exact absurd hm id
      | ret a s2 => rw [hmk] at hm; exact hm
    · simp only [hp, if_false, bind_run, pure_run]
      exact hag.1

theorem forces_safe (cfg : Config) (env : Env) (nd : Bool) :
    Triple LetIdle (forces cfg env nd) LetSafe LetSafe := by
  by_cases hd : cfg.useDirectGravity = true
  · constructor
    intro s hs
    simp only [forces, hd, if_true, direct_gravity, bind_run, emit_run, pure_run]
    exact @letSafe_of_quiet s _ [Event.direct_gravity,
      Event.execute2 Kernel.directGrav Stream.gravStream] (by simp) (by decide) hs.1
  · have hd1 : cfg.useDirectGravity = false := by simpa using hd
    constructor
    intro s hs
    simp only [forces, hd1, Bool.false_eq_true, if_false, bind_run, getS_run]
    cases hc : cmod s.iter cfg.rebuild_tree_rate with
    | none => exact hs.1
    | some r =>
      exact (triple_bind (triple_weaken (fun _ h => h) (fun _ h => h) (fun _ h => h.1)
        (triple_idle_of_frame (treeUpdate_frame cfg env nd r) treeAlphabet_quiet))
        (fun _ => treeGravity_safe cfg env)).run s hs

theorem afterForces_idle (cfg : Config) (env : Env) (t1 : ℚ) :
    Triple LetSafe (afterForces cfg env t1) LetIdle (fun _ => False) := by
  constructor
  intro s hs
  unfold LetSafe letSafe at hs
  simp only [afterForces, bind_run, emit_run, get_time_run, modifyS_run, getS_run, pure_run]
  simp only [LetIdle, letSafe, letJoined, List.append_assoc, List.singleton_append,
    letMonitor_append, List.foldl_cons, List.foldl_nil]
  generalize letMonitor s.trace = m at hs
  obtain ⟨m1, m2⟩ := m
  cases m1 <;> cases m2 <;> first | exact absurd hs (by decide) | decide

theorem quiet_nil : ∀ e ∈ ([] : List Event), isLetCritical e = false := by decide

theorem predictAlphabet_quiet : ∀ e ∈ predictAlphabet, isLetCritical e = false := by decide

theorem domainAlphabet_quiet : ∀ e ∈ domainAlphabet, isLetCritical e = false := by decide

theorem correctAlphabet_quiet : ∀ e ∈ correctAlphabet, isLetCritical e = false := by decide

theorem loadBalanceAlphabet_quiet : ∀ e ∈ loadBalanceAlphabet, isLetCritical e = false := by
  decide

theorem energyAlphabet_quiet : ∀ e ∈ energyAlphabet, isLetCritical e = false := by decide

theorem outputAlphabet_quiet : ∀ e ∈ outputAlphabet, isLetCritical e = false := by decide

theorem setupAlphabet_quiet : ∀ e ∈ setupAlphabet, isLetCritical e = false := by decide

theorem teardownAlphabet_quiet : ∀ e ∈ teardownAlphabet, isLetCritical e = false := by decide

theorem triple_emit_idle {e : Event} (hq : isLetCritical e = false) :
    Triple LetIdle (emit e) LetIdle LetSafe :=
  ⟨fun s hs => @letIdle_of_quiet s _ [e] rfl (by simpa using hq) hs⟩

/-- The part of a step after the domain update takes an idle buffer to an idle
buffer, and keeps the buffer safe when the step does not return. -/
theorem stepTail_idle (cfg : Config) (env : Env) (nd : Bool) :
    Triple LetIdle (stepTail cfg env nd) LetIdle LetSafe := by
  have w : ∀ {α : Type} {m : Exec α}, Triple LetIdle m LetIdle LetIdle →
      Triple LetIdle m LetIdle LetSafe :=
    fun h => triple_weaken (fun _ h => h) (fun _ h => h) (fun _ h => h.1) h
  unfold stepTail
  refine triple_bind (forces_safe cfg env nd) (fun t1 => ?_)
  refine triple_bind (triple_weaken (fun _ h => h) (fun _ h => h) (fun _ h => h.elim)
    (afterForces_idle cfg env t1)) (fun _ => ?_)
  refine triple_bind (w (triple_idle_of_frame (correctStep_frame cfg env)
    correctAlphabet_quiet)) (fun _ => ?_)
  refine triple_bind (w (triple_idle_of_frame (loadBalance_frame cfg env)
    loadBalanceAlphabet_quiet)) (fun _ => ?_)
  refine triple_bind (w (triple_idle_of_frame countActive_frame quiet_nil)) (fun _ => ?_)
  refine triple_bind (w (triple_idle_of_frame (energyStep_frame cfg env)
    energyAlphabet_quiet)) (fun _ => ?_)
  refine triple_bind (w (triple_idle_of_frame (statistics_frame cfg env)
    outputAlphabet_quiet)) (fun _ => ?_)
  refine triple_bind (w (triple_idle_of_frame (snapshot_frame cfg env)
    outputAlphabet_quiet)) (fun _ => ?_)
  exact w (triple_idle_of_frame (stopConditions_frame cfg env) energyAlphabet_quiet)

theorem iterate_once_idle (cfg : Config) (env : Env) :
    Triple LetIdle (iterate_once cfg env) LetIdle LetSafe := by
  have w : ∀ {α : Type} {m : Exec α}, Triple LetIdle m LetIdle LetIdle →
      Triple LetIdle m LetIdle LetSafe :=
    fun h => triple_weaken (fun _ h => h) (fun _ h => h) (fun _ h => h.1) h
  rw [iterate_once_eq]
  refine triple_bind (triple_emit_idle rfl) (fun _ => ?_)
  refine triple_bind (w (triple_idle_of_frame (clearStartupTimings_frame env) quiet_nil))
    (fun _ => ?_)
  refine triple_bind (w (triple_idle_of_frame (predictStep_frame cfg env)
    predictAlphabet_quiet)) (fun _ => ?_)
  refine triple_bind (w (triple_idle_of_frame (domainUpdate_frame cfg env)
    domainAlphabet_quiet)) (fun nd => ?_)
  exact stepTail_idle cfg env nd

theorem iterateBody_idle (cfg : Config) (env : Env) :
    Triple LetIdle (iterateBody cfg env) LetIdle LetSafe := by
  unfold iterateBody
  refine triple_bind (iterate_once_idle cfg env) (fun b => ?_)
  refine triple_bind (⟨fun _ hs => hs⟩ : Triple LetIdle (get_time env) LetIdle LetSafe)
    (fun _ => ?_)
  refine triple_bind (triple_emit_idle rfl) (fun _ => ?_)
  exact triple_pure _

set_option maxRecDepth 8000 in
theorem setupPasses_frame (cfg : Config) (env : Env) (k i : Nat) :
    Sat (Frame setupAlphabet true true true true) (setupPasses cfg env k i) := by
  induction k generalizing i with
  | zero => exact sat_pure _
  | succ k ih =>
    unfold setupPasses
    repeat (first
      | with_reducible exact ih _
      | exact sat_pure _
      | exact sat_haltWith _
      | exact sat_emit (by decide)
      | exact sat_modifyS (fun _ => rfl) (by first | (intro _ _; rfl) | (intro h; cases h))
          (by first | (intro _ _; rfl) | (intro h; cases h))
          (by first | (intro _ _; rfl) | (intro h; cases h))
          (by first | (intro _ _; rfl) | (intro h; cases h))
      | apply sat_bind
      | intro _
      | split)

set_option maxRecDepth 8000 in
theorem iterate_setup_frame (cfg : Config) (env : Env) :
    Sat (Frame setupAlphabet true true true true) (iterate_setup cfg env) := by
  unfold iterate_setup newStreamIfNull
  repeat (first
    | with_reducible exact setupPasses_frame _ _ _ _
    | exact sat_pure _
    | exact sat_getS
    | exact sat_haltWith _
    | exact sat_get_time _
    | exact sat_emit (by decide)
    | exact sat_modifyS (fun _ => rfl) (by first | (intro _ _; rfl) | (intro h; cases h))
        (by first | (intro _ _; rfl) | (intro h; cases h))
        (by first | (intro _ _; rfl) | (intro h; cases h))
        (by first | (intro _ _; rfl) | (intro h; cases h))
    | apply sat_bind
    | intro _
    | split)

/-- The driver loop keeps the buffer safe: whenever it ends, by return or by
halt, no unsafe transfer has been issued. -/
theorem iterateLoop_safe (cfg : Config) (envs : Nat → Env) (fuel k : Nat) (s : State)
    (o : Outcome Unit) (hs : LetIdle s) (h : iterateLoop cfg envs fuel k s = some o) :
    (∀ s1, o = Outcome.ret () s1 → LetIdle s1) ∧ LetSafe o.state := by
  induction fuel generalizing k s with
  | zero => simp [iterateLoop] at h
  | succ fuel ih =>
    have hb := (iterateBody_idle cfg (envs k)).run s hs
    unfold iterateLoop at h
    cases hms : iterateBody cfg (envs k) s with
    | halt hh s1 =>
      rw [hms] at h hb
      simp only [Option.some.injEq] at h
      subst h
      exact ⟨fun _ he => (by cases he), hb⟩
    | ret b s1 =>
      rw [hms] at h hb
      cases b with
      | true =>
        simp only [Option.some.injEq] at h
        subst h
        exact ⟨fun _ he => (by cases he; exact hb), hb.1⟩
      | false => exact ih (k + 1) s1 hb h

theorem iterate_safe (cfg : Config) (env0 : Env) (envs : Nat → Env) (idata0 : IterationData)
    (fuel : Nat) (s : State) (o : Outcome Unit) (hs : LetIdle s)
    (h : iterate cfg env0 envs idata0 fuel s = some o) : LetSafe o.state := by
  have hs0 : LetIdle { s with idata := idata0 } := hs
  have h0 := (triple_idle_of_frame (iterate_setup_frame cfg env0) setupAlphabet_quiet).run _ hs0
  unfold iterate at h
  cases hms : iterate_setup cfg env0 { s with idata := idata0 } with
  | halt hh s1 =>
    rw [hms] at h h0
    simp only [Option.some.injEq] at h
    subst h
    exact h0.1
  | ret u s1 =>
    rw [hms] at h h0
    simp only at h
    cases hl : iterateLoop cfg envs fuel 0 s1 with
    | none => rw [hl] at h; cases h
    | some o1 =>
      rw [hl] at h
      have h1 := iterateLoop_safe cfg envs fuel 0 s1 o1 h0 hl
      cases o1 with
      | halt hh s2 =>
        simp only [Option.some.injEq] at h
        subst h
        exact h1.2
      | ret u2 s2 =>
        simp only [Option.some.injEq] at h
        subst h
        have h2 := (triple_idle_of_frame iterate_teardown_frame teardownAlphabet_quiet).run s2
          (h1.1 s2 rfl)
        cases ht : iterate_teardown s2 with
        | ret a s3 => rw [ht] at h2; exact h2.1
        | halt a s3 => rw [ht] at h2; exact h2.1

theorem completedSteps_idle {cfg : Config} {envs : Nat → Env} {k : Nat} {s s1 : State}
    {total : Int} (h : CompletedSteps cfg envs k s s1 total) (hs : LetIdle s) : LetIdle s1 := by
  induction h with
  | zero => exact hs
  | @succ k s s1 s2 b total _ hstep ih =>
    have h1 := (iterate_once_idle cfg (envs k)).run s1 (ih hs)
    rw [hstep] at h1
    exact h1

theorem triple_returns {α : Type} {P Q : State → Prop} {m : Exec α}
    (hm : Triple P m Q (fun _ => False)) {s : State} (hs : P s) :
    (m s).returned = true ∧ Q (m s).state := by
  have h := hm.run s hs
  cases hms : m s with
  | ret a s1 => rw [hms] at h; exact ⟨rfl, h⟩
  | halt a s1 => rw [hms] at h; exact absurd h id

theorem triple_any {α : Type} (m : Exec α) :
    Triple (fun _ => True) m (fun _ => True) (fun _ => True) := by
  constructor
  intro s _
  cases m s <;> trivial

/-- When `iterate_setup` returns, `letRunning` is false. -/
theorem iterate_setup_clears_flag (cfg : Config) (env : Env) :
    Triple (fun _ => True) (iterate_setup cfg env) (fun s => s.letRunning = false)
      (fun _ => True) := by
  unfold iterate_setup
  repeat (first
    | exact ⟨fun _ h => h⟩
    | refine triple_bind (⟨fun _ _ => rfl⟩ :
        Triple (fun _ => True) (modifyS fun s => { s with letRunning := false })
          (fun s => s.letRunning = false) (fun _ => True)) (fun _ => ?_)
    | refine triple_bind (⟨fun _ h => h⟩ :
        Triple (fun s => s.letRunning = false) (get_time env)
          (fun s => s.letRunning = false) (fun _ => True)) (fun _ => ?_)
    | refine triple_bind (triple_any _) (fun _ => ?_)
    | intro _
    | split)

/-- C6: across a run started by `iterate_setup` from a state whose remote-tree
buffer is idle, no host-to-device transfer into the remote-tree buffer is issued
while a remote-force kernel launched earlier has not been joined by a
synchronization of the gravity stream. The outcome `o` of a run is safe, whether
the run returns or halts, and so is every prefix of its trace; after any number
`k` of completed steps the buffer is idle again; `iterate_setup` returns with
`letRunning` false. The mechanism: from a state in which a kernel can be in
flight only while `letRunning` is set, `approximate_gravity_let` returns, keeps
that invariant and sets `letRunning`; `makeLET`, for any list of remote trees,
returns with a safe trace and `letRunning` false; the block after the force
evaluation synchronizes the gravity stream and leaves the buffer idle. -/
theorem let_buffer_protocol (cfg : Config) (env0 : Env) (envs : Nat → Env)
    (idata0 : IterationData) (fuel : Nat) (s : State) (o : Outcome Unit)
    (k : Nat) (sk : State) (total : Int) (env : Env) (c : LetCall) (t1 : ℚ) (s0 : State)
    (a b : List Event)
    (hs : LetIdle s)
    (hrun : iterate cfg env0 envs idata0 fuel s = some o)
    (hsteps : CompletedSteps cfg envs k s sk total)
    (h0 : LetGuarded s0) :
    letSafe o.state.trace = true
      ∧ LetIdle sk
      ∧ ((iterate_setup cfg env0 s).returned = true
          → (iterate_setup cfg env0 s).state.letRunning = false
            ∧ LetIdle (iterate_setup cfg env0 s).state)
      ∧ ((approximate_gravity_let c s0).returned = true
          ∧ LetGuarded (approximate_gravity_let c s0).state
          ∧ (approximate_gravity_let c s0).state.letRunning = true)
      ∧ ((makeLET env s0).returned = true
          ∧ letSafe (makeLET env s0).state.trace = true
          ∧ (makeLET env s0).state.letRunning = false)
      ∧ ((afterForces cfg env t1 (makeLET env s0).state).returned = true
          ∧ LetIdle (afterForces cfg env t1 (makeLET env s0).state).state)
      ∧ (letSafe (a ++ b) = true → letSafe a = true)
      ∧ letSafe [Event.execute2 Kernel.approxGravLET Stream.gravStream,
          Event.h2d Buffer.fullRemoteTree] = false := by
  have hm := triple_returns (makeLET_clears env) h0
  refine ⟨iterate_safe cfg env0 envs idata0 fuel s o hs hrun, completedSteps_idle hsteps hs,
    ?_, triple_returns (approximate_gravity_let_guarded c) h0, ⟨hm.1, hm.2.1, hm.2.2⟩,
    triple_returns (afterForces_idle cfg env t1) hm.2.1, letSafe_of_append a b, by decide⟩
  intro hr
  have h1 := (iterate_setup_clears_flag cfg env0).run s trivial
  have h2 := (triple_idle_of_frame (iterate_setup_frame cfg env0) setupAlphabet_quiet).run s hs
  obtain ⟨u, hu⟩ := eq_ret_of_returned _ hr
  rw [hu] at h1 h2
  exact ⟨h1, h2⟩

theorem let_buffer_protocol_witness :
    letSafe ((iterate lastStepConfig quietEnv (fun _ => quietEnv) zeroIterationData 1
        initState).getD (Outcome.ret () initState)).state.trace = true
      ∧ LetIdle (iterate_once lastStepConfig quietEnv initState).state
      ∧ ((iterate_setup lastStepConfig quietEnv initState).returned = true
          → (iterate_setup lastStepConfig quietEnv initState).state.letRunning = false
            ∧ LetIdle (iterate_setup lastStepConfig quietEnv initState).state)
      ∧ ((approximate_gravity_let ⟨4, 2, 0, 1, 16, false, 0⟩ initState).returned = true
          ∧ LetGuarded (approximate_gravity_let ⟨4, 2, 0, 1, 16, false, 0⟩ initState).state
          ∧ (approximate_gravity_let ⟨4, 2, 0, 1, 16, false, 0⟩ initState).state.letRunning
              = true)
      ∧ ((makeLET letEnv initState).returned = true
          ∧ letSafe (makeLET letEnv initState).state.trace = true
          ∧ (makeLET letEnv initState).state.letRunning = false)
      ∧ ((afterForces lastStepConfig letEnv 0 (makeLET letEnv initState).state).returned = true
          ∧ LetIdle (afterForces lastStepConfig letEnv 0 (makeLET letEnv initState).state).state)
      ∧ (letSafe ([Event.sync Stream.gravStream] ++ [Event.h2d Buffer.fullRemoteTree]) = true
          → letSafe [Event.sync Stream.gravStream] = true)
      ∧ letSafe [Event.execute2 Kernel.approxGravLET Stream.gravStream,
          Event.h2d Buffer.fullRemoteTree] = false :=
  let_buffer_protocol lastStepConfig quietEnv (fun _ => quietEnv) zeroIterationData 1 initState
    ((iterate lastStepConfig quietEnv (fun _ => quietEnv) zeroIterationData 1
        initState).getD (Outcome.ret () initState))
    1 (iterate_once lastStepConfig quietEnv initState).state
    (0 + (iterate_once lastStepConfig quietEnv initState).state.n_active_particles)
    letEnv ⟨4, 2, 0, 1, 16, false, 0⟩ 0 initState
    [Event.sync Stream.gravStream] [Event.h2d Buffer.fullRemoteTree]
    ⟨by decide, by decide⟩ rfl
    (CompletedSteps.succ (b := true) (CompletedSteps.zero initState) rfl)
    ⟨by decide, Or.inl (by decide)⟩

/-- C7, refuted for several processes: in tree mode with `nProcs = 2` the
step calls `approximate_gravity` once and never calls `makeLET`, because the
process ends with `exit(0)` inside `approximate_gravity`. -/
theorem tree_step_two_procs_skips_makeLET :
    ∃ s1, iterate_once twoProcTreeConfig quietEnv initState = Outcome.halt (Halt.exit 0) s1
      ∧ s1.trace.count Event.approximate_gravity = 1
      ∧ s1.trace.count Event.makeLET = 0 :=
  ⟨_, rfl, by decide, by decide⟩

/-- C8: in tree mode with `rebuild_tree_rate > 0`, the tree operations of a
step (`sort_bodies`, `build`, `allocateTreePropMemory`, `compute_properties`,
`approximate_gravity`) are, in this order, `sort_bodies`, `build`,
`allocateTreePropMemory`, `compute_properties`, `approximate_gravity` when
`iter` is a multiple of `rebuild_tree_rate`, and `compute_properties`,
`approximate_gravity` otherwise. -/
theorem tree_step_rebuild_cadence (cfg : Config) (env : Env) (s : State)
    (hd : cfg.useDirectGravity = false) (hr : 0 < cfg.rebuild_tree_rate) :
    (eventsSince s (iterate_once cfg env s).state).filter isTreeOp
      = (if s.iter % cfg.rebuild_tree_rate = 0
          then [Event.sort_bodies true none, Event.build, Event.allocateTreePropMemory,
            Event.compute_properties, Event.approximate_gravity]
          else [Event.compute_properties, Event.approximate_gravity]) := by
  obtain ⟨s2, pe, hrun, h2t, hpa, h2i, -, -⟩ := iterate_once_head cfg env s
  have hc2 : cmod s2.iter cfg.rebuild_tree_rate = some (Int.tmod s.iter cfg.rebuild_tree_rate) := by
    rw [h2i]
    exact cmod_pos _ _ hr
  obtain ⟨nd, hdu⟩ := eq_ret_of_returned _ (domainUpdate_returned cfg env s2 (by rw [hc2]; simp))
  have hnd : nd = true := domainUpdate_value hdu
  subst hnd
  obtain ⟨⟨de, hdt, hda⟩, hdi, -⟩ := (domainUpdate_frame cfg env).run s2
  have hc3 : cmod (domainUpdate cfg env s2).state.iter cfg.rebuild_tree_rate
      = some (Int.tmod s.iter cfg.rebuild_tree_rate) := by
    rw [hdi rfl]
    exact hc2
  obtain ⟨⟨fe, hft, hff⟩, -, -⟩ := forces_tree_run cfg env true _ _ hd hc3
  have hst : (iterate_once cfg env s).state
      = (forces cfg env true (domainUpdate cfg env s2).state).state := by
    rw [hrun, bind_run, hdu]
    exact stepTail_tree_state cfg env true _ hd
  rw [hst, eventsSince_append s _ (Event.iterate_once :: Event.predict :: pe ++ (de ++ fe))
    (by rw [hft, hdt, h2t]; simp [List.append_assoc])]
  have hpe : pe.filter isTreeOp = [] := filter_eq_nil_of_alphabet hpa predictAlphabet_no_tree_op
  have hde : de.filter isTreeOp = [] := filter_eq_nil_of_alphabet hda domainAlphabet_no_tree_op
  have e1 : isTreeOp Event.iterate_once = false := rfl
  have e2 : isTreeOp Event.predict = false := rfl
  simp only [List.filter_append, List.filter_cons, e1, e2, hpe, hde, hff, List.nil_append,
    Bool.false_eq_true, if_false, tmod_eq_zero_iff]

theorem tree_step_rebuild_cadence_witness :
    (eventsSince initState (iterate_once treeConfig quietEnv initState).state).filter isTreeOp
      = (if initState.iter % treeConfig.rebuild_tree_rate = 0
          then [Event.sort_bodies true none, Event.build, Event.allocateTreePropMemory,
            Event.compute_properties, Event.approximate_gravity]
          else [Event.compute_properties, Event.approximate_gravity]) :=
  tree_step_rebuild_cadence treeConfig quietEnv initState rfl (by decide)

/-- C9: the domain operations of a step are `parallelDataSummary` followed by
`mpiSync` when `nProcs > 1` and `iter % rebuild_tree_rate` is `0`, and none
otherwise; with a single process neither `iterate_setup` nor a step issues a
domain operation. -/
theorem domain_update_cadence (cfg : Config) (env : Env) (s : State) :
    (eventsSince s (iterate_once cfg env s).state).filter isDomainOp
        = (if cfg.nProcs > 1 ∧ cmod s.iter cfg.rebuild_tree_rate = some 0
            then [Event.parallelDataSummary, Event.mpiSync] else [])
      ∧ (¬ cfg.nProcs > 1 →
          (eventsSince s (iterate_setup cfg env s).state).filter isDomainOp = []
          ∧ (eventsSince s (iterate_once cfg env s).state).filter isDomainOp = []) := by
  refine ⟨domain_update_cadence_step cfg env s, fun hn => ⟨?_, ?_⟩⟩
  · obtain ⟨⟨evs, ht, ha⟩, -⟩ := (iterate_setup_single_frame cfg env hn).run s
    rw [eventsSince_append s _ _ ht]
    exact filter_eq_nil_of_alphabet ha setupSingleAlphabet_no_domain
  · rw [domain_update_cadence_step cfg env s, if_neg (fun h => hn h.1)]

theorem domain_update_cadence_witness :
    (eventsSince initState (iterate_once twoProcTreeConfig quietEnv initState).state).filter
        isDomainOp
        = (if twoProcTreeConfig.nProcs > 1
              ∧ cmod initState.iter twoProcTreeConfig.rebuild_tree_rate = some 0
            then [Event.parallelDataSummary, Event.mpiSync] else [])
      ∧ ¬ treeConfig.nProcs > 1
      ∧ (eventsSince initState (iterate_setup treeConfig quietEnv initState).state).filter
          isDomainOp = []
      ∧ (eventsSince initState (iterate_once treeConfig quietEnv initState).state).filter
          isDomainOp = [] :=
  ⟨(domain_update_cadence twoProcTreeConfig quietEnv initState).1, by decide,
    (domain_update_cadence treeConfig quietEnv initState).2 (by decide)⟩

/-- C10, counterexample: without `DO_BLOCK_TIMESTEP`, a tree-mode step at
`iter = 0` rebuilds the tree (`build` is issued) and leaves
`Nact_since_last_tree_rebuild` at its old value 5. -/
theorem nact_not_reset_on_rebuild :
    countedState.idata.Nact_since_last_tree_rebuild = 5
      ∧ Event.build ∈ eventsSince countedState (iterate_once treeConfig quietEnv countedState).state
      ∧ (iterate_once treeConfig quietEnv countedState).state.idata.Nact_since_last_tree_rebuild
          = 5 := by
  refine ⟨rfl, by decide, by decide⟩

/-- C10, amended: the reset of `Nact_since_last_tree_rebuild` is compiled only
under `DO_BLOCK_TIMESTEP`. With it, a tree-mode force evaluation at an `iter`
that is a multiple of `rebuild_tree_rate` rebuilds the tree and leaves the
counter at 0. In direct mode or without `DO_BLOCK_TIMESTEP` the force
evaluation keeps the counter, and after any number of completed steps the
counter has grown by the sum of the values of `n_active_particles` left by
these steps. -/
theorem nact_counter_accounting (cfg : Config) :
    (∀ env nd s, cfg.useDirectGravity = false → cfg.DO_BLOCK_TIMESTEP = true →
        cmod s.iter cfg.rebuild_tree_rate = some 0 →
        Event.build ∈ eventsSince s (forces cfg env nd s).state
          ∧ (forces cfg env nd s).state.idata.Nact_since_last_tree_rebuild = 0)
      ∧ (∀ env nd s, (cfg.useDirectGravity = true ∨ cfg.DO_BLOCK_TIMESTEP = false) →
          (forces cfg env nd s).state.idata.Nact_since_last_tree_rebuild
            = s.idata.Nact_since_last_tree_rebuild)
      ∧ (∀ envs k s s1 total, (cfg.useDirectGravity = true ∨ cfg.DO_BLOCK_TIMESTEP = false) →
          CompletedSteps cfg envs k s s1 total →
          s1.idata.Nact_since_last_tree_rebuild
            = s.idata.Nact_since_last_tree_rebuild + total) := by
  refine ⟨?_, ?_, ?_⟩
  · intro env nd s hd hb hc
    obtain ⟨⟨evs, ht, hf⟩, hn, -⟩ := forces_tree_run cfg env nd s 0 hd hc
    refine ⟨?_, by rw [hn, hb]; rfl⟩
    rw [eventsSince_append s _ _ ht]
    have : Event.build ∈ evs.filter isTreeOp := by
      rw [hf]
      simp
    exact (List.mem_filter.1 this).1
  · intro env nd s h
    exact forces_no_reset cfg env nd s h
  · intro envs k s s1 total _ hsteps
    induction hsteps with
    | zero s => simp
    | succ _ hstep ih =>
      rw [iterate_once_counts_active hstep, ih]
      ring

theorem nact_counter_accounting_witness :
    (Event.build ∈ eventsSince countedState (forces blockTreeConfig quietEnv true countedState).state
        ∧ (forces blockTreeConfig quietEnv true countedState).state.idata.Nact_since_last_tree_rebuild
            = 0)
      ∧ (forces treeConfig quietEnv true countedState).state.idata.Nact_since_last_tree_rebuild
          = countedState.idata.Nact_since_last_tree_rebuild
      ∧ (iterate_once directConfig quietEnv countedState).state.idata.Nact_since_last_tree_rebuild
          = countedState.idata.Nact_since_last_tree_rebuild
            + (0 + (iterate_once directConfig quietEnv countedState).state.n_active_particles) :=
  ⟨(nact_counter_accounting blockTreeConfig).1 quietEnv true countedState rfl rfl (by decide),
    (nact_counter_accounting treeConfig).2.1 quietEnv true countedState (Or.inr rfl),
    (nact_counter_accounting directConfig).2.2 (fun _ => quietEnv) 1 countedState _ _ (Or.inl rfl)
      (CompletedSteps.succ (b := false) (CompletedSteps.zero countedState) rfl)⟩

/-! ## Start-up timings -/

/-- C11, refuted for `totalWaitTime`: a step that starts with `iter = 0 < 32`
and 7 in `idata.totalWaitTime` does not set `totalWaitTime` to 0. The reset
block of lines 114-128 clears the other accumulators (`lastWaitTime` among
them) and leaves `totalWaitTime` out; with one process nothing else writes it,
and it is still 7 after the block and at the end of the step. -/
theorem startup_reset_misses_totalWaitTime :
    waitedState.iter < 32
      ∧ (clearStartupTimings quietEnv waitedState).state.idata.totalWaitTime = 7
      ∧ (clearStartupTimings quietEnv waitedState).state.idata.lastWaitTime = 0
      ∧ (iterate_once directConfig quietEnv waitedState).returned = true
      ∧ (iterate_once directConfig quietEnv waitedState).state.idata.totalWaitTime = 7 :=
  ⟨by decide, rfl, rfl, rfl, rfl⟩

/-- What the reset block does: with `iter < 32` it clears eleven accumulators,
with `iter >= 32` it leaves `IterationData` alone; `totalWaitTime` is kept in
both cases. -/
theorem clearStartupTimings_idata (env : Env) (s : State) :
    (s.iter < 32 →
        (clearStartupTimings env s).state.idata
          = { s.idata with
              totalGPUGravTimeLocal := 0, totalGPUGravTimeLET := 0, totalLETCommTime := 0,
              totalBuildTime := 0, totalDomTime := 0, lastWaitTime := 0,
              startTime := env.get_time s.clock, totalGravTime := 0, totalDomUp := 0,
              totalDomEx := 0, totalDomWait := 0, totalPredCor := 0 })
      ∧ (¬ s.iter < 32 → (clearStartupTimings env s).state.idata = s.idata) := by
  constructor <;> intro h <;> simp [clearStartupTimings, h]

/-! ## The predictor -/

/-- One call of `predict` without `DO_BLOCK_TIMESTEP`. -/
theorem predict_shared_run (cfg : Config) (env : Env) (s : State)
    (hb : cfg.DO_BLOCK_TIMESTEP = false) :
    predict cfg env s = Outcome.ret () (predict cfg env s).state
      ∧ (predict cfg env s).state.t_previous = s.t_current
      ∧ (predict cfg env s).state.t_current
          = (if s.predictTemp > 0 then env.fadd s.t_current cfg.timeStep else s.t_current)
      ∧ (predict cfg env s).state.predictTemp = (if s.predictTemp > 0 then s.predictTemp else 1) := by
  by_cases ht : s.predictTemp > 0 <;> simp [predict, hb, ht]

theorem repeatExec_succ (m : Exec Unit) (k : Nat) (s s1 : State) (h : m s = Outcome.ret () s1) :
    repeatExec m (k + 1) s = repeatExec m k s1 := by
  show (m >>= fun _ => repeatExec m k) s = _
  rw [bind_run, h]

/-- After the first call every further call of `predict` makes one
floating-point addition of `timeStep`. -/
theorem predict_shared_repeat (cfg : Config) (env : Env) (hb : cfg.DO_BLOCK_TIMESTEP = false)
    (k : Nat) (s : State) (hs : s.predictTemp > 0) :
    (repeatExec (predict cfg env) k s).returned = true
      ∧ (repeatExec (predict cfg env) k s).state.t_current
          = advanceTime cfg env k s.t_current := by
  induction k generalizing s with
  | zero => simp [repeatExec, advanceTime]
  | succ k ih =>
    obtain ⟨hr, -, ht, hp⟩ := predict_shared_run cfg env s hb
    rw [repeatExec_succ _ k s _ hr]
    have hs1 : (predict cfg env s).state.predictTemp > 0 := by
      rw [hp, if_pos hs]
      exact hs
    obtain ⟨h1, h2⟩ := ih _ hs1
    refine ⟨h1, ?_⟩
    rw [h2, ht, if_pos hs]
    rfl

/-- When none of the `k` additions rounds, `k` advances add `k * timeStep`. -/
theorem advanceTime_exact (cfg : Config) (env : Env) (k : Nat) (t : ℚ)
    (hx : ∀ j : Nat, j < k →
      env.fadd (t + j * cfg.timeStep) cfg.timeStep = t + j * cfg.timeStep + cfg.timeStep) :
    advanceTime cfg env k t = t + k * cfg.timeStep := by
  induction k generalizing t with
  | zero => simp [advanceTime]
  | succ k ih =>
    have h0 : env.fadd t cfg.timeStep = t + cfg.timeStep := by
      have := hx 0 (Nat.succ_pos k)
      simpa using this
    rw [advanceTime, h0, ih (t + cfg.timeStep) (fun j hj => by
      have := hx (j + 1) (by omega)
      push_cast at this
      rw [show t + cfg.timeStep + (j : ℚ) * cfg.timeStep = t + ((j : ℚ) + 1) * cfg.timeStep by ring]
      exact this)]
    push_cast
    ring

/-- Three advances of a tenth that round as the additions `0.1 + 0.1` and
`0.2 + 0.1` do in double precision do not give three tenths. -/
theorem advanceTime_rounds :
    advanceTime tenthConfig roundingEnv 3 0 = 3 / 10 + 1 / 25000000000000000
      ∧ advanceTime tenthConfig roundingEnv 3 0 ≠ 0 + (3 : ℕ) * tenthConfig.timeStep := by
  have h : advanceTime tenthConfig roundingEnv 3 0 = 3 / 10 + 1 / 25000000000000000 := by
    norm_num [advanceTime, tenthConfig, roundingEnv, treeConfig]
  refine ⟨h, ?_⟩
  rw [h]
  norm_num [tenthConfig, treeConfig]

/-- C13, counterexample: without `DO_BLOCK_TIMESTEP`, the first call of
`predict` in a run (`static int temp` still 0) with `timeStep = 1` leaves
`t_current` at 0 instead of advancing it by `timeStep`. -/
theorem first_predict_keeps_t_current :
    treeConfig.DO_BLOCK_TIMESTEP = false
      ∧ initState.predictTemp = 0
      ∧ (predict treeConfig quietEnv initState).state.t_current = 0
      ∧ (predict treeConfig quietEnv initState).state.t_current
          ≠ initState.t_current + treeConfig.timeStep := by
  refine ⟨rfl, rfl, rfl, ?_⟩
  have h : (predict treeConfig quietEnv initState).state.t_current = 0 := rfl
  rw [h]
  norm_num [initState, treeConfig]

/-- C13, amended: without `DO_BLOCK_TIMESTEP` every call of `predict` returns
and sets `t_previous` to the former `t_current`. The first call of the process
(`static int temp` not yet positive) leaves `t_current` as it is and makes
`temp` positive; every later call replaces `t_current` by the floating-point
sum of `t_current` and `timeStep`. So after `k + 1` calls, the first of which is
the first of the process, `t_current` is the result of `k` successive rounded
additions of `timeStep` to `t0`; it is `t0 + k * timeStep` when none of these
`k` additions rounds. -/
theorem predict_shared_timestep (cfg : Config) (env : Env) (s : State) (k : Nat)
    (hb : cfg.DO_BLOCK_TIMESTEP = false) :
    (predict cfg env s).returned = true
      ∧ (predict cfg env s).state.t_previous = s.t_current
      ∧ (s.predictTemp > 0 →
          (predict cfg env s).state.t_current = env.fadd s.t_current cfg.timeStep)
      ∧ (¬ s.predictTemp > 0 → (predict cfg env s).state.t_current = s.t_current
            ∧ (predict cfg env s).state.predictTemp > 0)
      ∧ (¬ s.predictTemp > 0 →
          (repeatExec (predict cfg env) (k + 1) s).returned = true
            ∧ (repeatExec (predict cfg env) (k + 1) s).state.t_current
                = advanceTime cfg env k s.t_current)
      ∧ ((∀ j : Nat, j < k →
            env.fadd (s.t_current + j * cfg.timeStep) cfg.timeStep
              = s.t_current + j * cfg.timeStep + cfg.timeStep) →
          advanceTime cfg env k s.t_current = s.t_current + k * cfg.timeStep) := by
  obtain ⟨hr, hprev, ht, hp⟩ := predict_shared_run cfg env s hb
  refine ⟨by rw [hr]; rfl, hprev, fun h => by rw [ht, if_pos h],
    fun h => ⟨by rw [ht, if_neg h], by rw [hp, if_neg h]; decide⟩, fun h => ?_,
    fun hx => advanceTime_exact cfg env k s.t_current hx⟩
  rw [repeatExec_succ _ k s _ hr]
  have hs1 : (predict cfg env s).state.predictTemp > 0 := by
    rw [hp, if_neg h]
    decide
  obtain ⟨h1, h2⟩ := predict_shared_repeat cfg env hb k _ hs1
  refine ⟨h1, ?_⟩
  rw [h2, ht, if_neg h]

theorem predict_shared_timestep_witness :
    (predict tenthConfig roundingEnv initState).returned = true
      ∧ (predict tenthConfig roundingEnv initState).state.t_previous = initState.t_current
      ∧ (initState.predictTemp > 0 →
          (predict tenthConfig roundingEnv initState).state.t_current
            = roundingEnv.fadd initState.t_current tenthConfig.timeStep)
      ∧ (¬ initState.predictTemp > 0 →
          (predict tenthConfig roundingEnv initState).state.t_current = initState.t_current
            ∧ (predict tenthConfig roundingEnv initState).state.predictTemp > 0)
      ∧ (¬ initState.predictTemp > 0 →
          (repeatExec (predict tenthConfig roundingEnv) (3 + 1) initState).returned = true
            ∧ (repeatExec (predict tenthConfig roundingEnv) (3 + 1) initState).state.t_current
                = advanceTime tenthConfig roundingEnv 3 initState.t_current)
      ∧ ((∀ j : Nat, j < 3 →
            roundingEnv.fadd (initState.t_current + j * tenthConfig.timeStep) tenthConfig.timeStep
              = initState.t_current + j * tenthConfig.timeStep + tenthConfig.timeStep) →
          advanceTime tenthConfig roundingEnv 3 initState.t_current
            = initState.t_current + (3 : ℕ) * tenthConfig.timeStep) :=
  predict_shared_timestep tenthConfig roundingEnv initState 3 rfl

/-- One call of `predict` with `DO_BLOCK_TIMESTEP` on a process that holds
particles: the new time is the minimum of the blocks of this process. -/
theorem predict_block_run (cfg : Config) (env : Env) (s : State)
    (hb : cfg.DO_BLOCK_TIMESTEP = true) (hn : s.n ≠ 0) :
    (predict cfg env s).returned = true
      ∧ (predict cfg env s).state.t_previous = s.t_current
      ∧ (predict cfg env s).state.t_current
          = (List.range' 1 (cfg.NBLOCK_REDUCE - 1)).foldl (fun t i => min t (env.tnext i))
              (env.tnext 0)
      ∧ eventsSince s (predict cfg env s).state
          = [Event.predict, Event.execute2 Kernel.getTNext Stream.execStream,
             Event.d2h Buffer.tnext, Event.execute2 Kernel.predictParticles Stream.execStream] := by
  simp [predict, hb, hn, eventsSince]

/-- C14, refuted: with `DO_BLOCK_TIMESTEP` and two processes, a process whose
blocks report the minimum 1 and a process whose blocks report the minimum 2
leave `predict` with `t_current = 1` and `t_current = 2`: each takes the minimum
of its own blocks, and `predict` issues no reduction across processes. -/
theorem block_predict_uses_local_minimum :
    twoProcBlockConfig.DO_BLOCK_TIMESTEP = true
      ∧ twoProcBlockConfig.nProcs = 2
      ∧ (predict twoProcBlockConfig (localMinEnv 1) initState).state.t_current = 1
      ∧ (predict twoProcBlockConfig (localMinEnv 2) initState).state.t_current = 2
      ∧ eventsSince initState (predict twoProcBlockConfig (localMinEnv 1) initState).state
          = [Event.predict, Event.execute2 Kernel.getTNext Stream.execStream,
             Event.d2h Buffer.tnext, Event.execute2 Kernel.predictParticles Stream.execStream] :=
  ⟨rfl, rfl, rfl, rfl, by decide⟩

/-! ## A process without particles -/

/-- With `tree.n = 0` the tree walk stops at the first division by the
particle count (line 819), before the `approxGrav` kernel is launched. -/
theorem approximate_gravity_empty (cfg : Config) (env : Env) (s : State) (hn : s.n = 0) :
    approximate_gravity cfg env s
        = Outcome.halt Halt.undefinedBehaviour (approximate_gravity cfg env s).state
      ∧ Event.execute2 Kernel.approxGrav Stream.gravStream
          ∉ eventsSince s (approximate_gravity cfg env s).state
      ∧ Event.zeroMemGPUAsync Buffer.bodies_acc1 Stream.gravStream
          ∈ eventsSince s (approximate_gravity cfg env s).state := by
  simp [approximate_gravity, hn, eventsSince]

/-- C16, refuted: on a process with `tree.n = 0`, `approximate_gravity` is not
a no-op. It clears `bodies_acc1`, launches the two density kernels and then
evaluates `openingTestSum / tree.n` (line 819), an integer division by zero:
the call has undefined behaviour and does not return. -/
theorem approximate_gravity_divides_by_zero_particles :
    emptyState.n = 0
      ∧ (approximate_gravity twoProcTreeConfig quietEnv emptyState).returned = false
      ∧ (∃ s1, approximate_gravity twoProcTreeConfig quietEnv emptyState
            = Outcome.halt Halt.undefinedBehaviour s1)
      ∧ Event.zeroMemGPUAsync Buffer.bodies_acc1 Stream.gravStream
          ∈ (approximate_gravity twoProcTreeConfig quietEnv emptyState).state.trace
      ∧ Event.execute2 Kernel.SPHDensity Stream.gravStream
          ∈ (approximate_gravity twoProcTreeConfig quietEnv emptyState).state.trace :=
  ⟨rfl, rfl, ⟨_, rfl⟩, by decide, by decide⟩

/-! ## Accounting of the remote GPU time -/

/-- The tree walks of lines 221-229 are the local walk followed by `letPhase`. -/
theorem treeGravity_eq (cfg : Config) (env : Env) :
    treeGravity cfg env = (do
      let t1 ← get_time env
      approximate_gravity cfg env
      letPhase cfg env
      pure t1) := by
  funext s
  simp only [treeGravity, letPhase, bind_run, get_time_run, modifyS_run, pure_run]
  cases approximate_gravity cfg env { s with clock := s.clock + 1 } with
  | halt h s1 => rfl
  | ret a s1 =>
    simp only []
    split <;> simp

/-- One call of `approximate_gravity_let`: it returns, marks a kernel as
launched, launches exactly one remote-force kernel and adds its GPU time to the
time held; the local event pair is not touched. -/
theorem approximate_gravity_let_time (c : LetCall) (s : State) :
    (approximate_gravity_let c s).returned = true
      ∧ (approximate_gravity_let c s).state.letRunning = true
      ∧ letTimeHeld (approximate_gravity_let c s).state = letTimeHeld s + c.gpuTime
      ∧ (approximate_gravity_let c s).state.elapsedLocalGrav = s.elapsedLocalGrav
      ∧ (approximate_gravity_let c s).state.idata = s.idata
      ∧ (eventsSince s (approximate_gravity_let c s).state).count
          (Event.execute2 Kernel.approxGravLET Stream.gravStream) = 1 := by
  by_cases hl : s.letRunning = true <;> by_cases ha : c.doActiveParticles = true <;>
    simp [approximate_gravity_let, hl, ha, letTimeHeld, eventsSince, List.count_cons]

theorem approximate_gravity_let_split (c : LetCall) (s : State) :
    (approximate_gravity_let c s).state.runningLETTimeSum
        = s.runningLETTimeSum + (if s.letRunning then s.elapsedRemoteGrav else 0)
      ∧ (approximate_gravity_let c s).state.elapsedRemoteGrav = c.gpuTime
      ∧ ∃ evs, (approximate_gravity_let c s).state.trace = s.trace ++ evs
          ∧ evs.count (Event.execute2 Kernel.approxGravLET Stream.gravStream) = 1 := by
  by_cases hl : s.letRunning = true <;> by_cases ha : c.doActiveParticles = true <;>
    simp [approximate_gravity_let, hl, ha, List.count_cons]

theorem letCallsLoop_cons (c : LetCall) (cs : List LetCall) (s : State) :
    letCallsLoop (c :: cs) s = letCallsLoop cs (approximate_gravity_let c s).state := by
  obtain ⟨u, hu⟩ := eq_ret_of_returned _ (approximate_gravity_let_time c s).1
  show (approximate_gravity_let c >>= fun _ => letCallsLoop cs) s = _
  rw [bind_run, hu]
  rfl

/-- The calls made for a list of remote trees: the time held grows by the sum
of the GPU times of their kernels, one kernel is launched per tree. -/
theorem letCallsLoop_time (cs : List LetCall) (s : State) :
    (letCallsLoop cs s).returned = true
      ∧ (cs ≠ [] → (letCallsLoop cs s).state.letRunning = true)
      ∧ letTimeHeld (letCallsLoop cs s).state = letTimeHeld s + (cs.map LetCall.gpuTime).sum
      ∧ (letCallsLoop cs s).state.elapsedLocalGrav = s.elapsedLocalGrav
      ∧ (letCallsLoop cs s).state.idata = s.idata
      ∧ ∃ evs, (letCallsLoop cs s).state.trace = s.trace ++ evs
          ∧ evs.count (Event.execute2 Kernel.approxGravLET Stream.gravStream) = cs.length := by
  induction cs generalizing s with
  | nil => exact ⟨rfl, fun h => absurd rfl h, by simp [letCallsLoop], rfl, rfl, [], by simp [letCallsLoop]⟩
  | cons c cs ih =>
    obtain ⟨-, h2, h3, h4, h5, -⟩ := approximate_gravity_let_time c s
    obtain ⟨-, -, e1, he1, hc1⟩ := approximate_gravity_let_split c s
    obtain ⟨i1, i2, i3, i4, i5, e2, he2, hc2⟩ := ih (approximate_gravity_let c s).state
    rw [letCallsLoop_cons]
    refine ⟨i1, fun _ => ?_, ?_, i4.trans h4, i5.trans h5, e1 ++ e2, ?_, ?_⟩
    · by_cases hcs : cs = []
      · subst hcs
        exact h2
      · exact i2 hcs
    · rw [i3, h3, List.map_cons, List.sum_cons]
      ring
    · rw [he2, he1, List.append_assoc]
    · rw [List.count_append, hc1, hc2, List.length_cons]
      omega

/-- How the time is split: the running sum receives the kernels that were
waited for, all but the last; the event pair holds the last one. -/
theorem letCallsLoop_split (cs : List LetCall) (s : State) (hne : cs ≠ []) :
    (letCallsLoop cs s).state.runningLETTimeSum
        = s.runningLETTimeSum + (if s.letRunning then s.elapsedRemoteGrav else 0)
          + (cs.dropLast.map LetCall.gpuTime).sum
      ∧ some (letCallsLoop cs s).state.elapsedRemoteGrav = cs.getLast?.map LetCall.gpuTime := by
  induction cs generalizing s with
  | nil => exact absurd rfl hne
  | cons c cs ih =>
    obtain ⟨h1, h2, -⟩ := approximate_gravity_let_split c s
    have hrun := (approximate_gravity_let_time c s).2.1
    rw [letCallsLoop_cons]
    cases cs with
    | nil => simp [letCallsLoop, h1, h2]
    | cons c2 rest =>
      obtain ⟨i1, i2⟩ := ih (approximate_gravity_let c s).state (by simp)
      refine ⟨?_, ?_⟩
      · rw [i1, h1, hrun, h2]
        simp only [if_true, List.dropLast_cons₂, List.map_cons, List.sum_cons]
        ring
      · rw [i2]
        simp [List.getLast?_cons_cons]

/-- The exchange of `makeLET` is the loop over the remote trees, run after the
preparation of lines 24-44; afterwards `letRunning` is cleared. -/
theorem makeLET_run (env : Env) (s : State) :
    makeLET env s = Outcome.ret ()
      { (letCallsLoop env.letCalls
          { s with
            clock := s.clock + 1 + 1 + 1 + 1,
            trace := s.trace ++ [Event.makeLET] ++ [Event.d2h Buffer.boxSizeInfo]
              ++ [Event.d2h Buffer.boxCenterInfo] ++ [Event.d2h Buffer.multipole]
              ++ [Event.sendCurrentInfoGrpTree] ++ [Event.essential_tree_exchangeV2] }).state with
        thisPartLETExTime := env.letExTime, letRunning := false } := by
  obtain ⟨u, hu⟩ := eq_ret_of_returned _ (letCallsLoop_time env.letCalls
    { s with
      clock := s.clock + 1 + 1 + 1 + 1,
      trace := s.trace ++ [Event.makeLET] ++ [Event.d2h Buffer.boxSizeInfo]
        ++ [Event.d2h Buffer.boxCenterInfo] ++ [Event.d2h Buffer.multipole]
        ++ [Event.sendCurrentInfoGrpTree] ++ [Event.essential_tree_exchangeV2] }).1
  simp only [makeLET, essential_tree_exchangeV2, bind_run, emit_run, get_time_run, modifyS_run]
  rw [hu]
  rfl

/-- The events of one call of `approximate_gravity_let`. -/
theorem approximate_gravity_let_events (c : LetCall) (s : State) :
    eventsSince s (approximate_gravity_let c s).state
      = Event.approximate_gravity_let
        :: ((if s.letRunning then [Event.sync Stream.gravStream] else [])
          ++ [Event.h2d Buffer.fullRemoteTree,
              Event.zeroMemGPUAsync Buffer.activePartlist Stream.gravStream,
              Event.cudaEventRecord GpuEvent.startRemoteGrav Stream.gravStream,
              Event.execute2 Kernel.approxGravLET Stream.gravStream,
              Event.cudaEventRecord GpuEvent.endRemoteGrav Stream.gravStream]) := by
  by_cases hl : s.letRunning = true <;> by_cases ha : c.doActiveParticles = true <;>
    simp [approximate_gravity_let, hl, ha, eventsSince]

theorem makeLETAlphabet_keeps_acc1 :
    ∀ e ∈ makeLETAlphabet, hostOverwrites e ≠ some Buffer.bodies_acc1 := by decide

/-- C15: `approximate_gravity_let` binds `tree.bodies_acc1` as argument 7 of
the remote-force kernel, the position at which `approximate_gravity` binds the
same buffer for the local kernel, and nowhere else. A call returns; before its
kernel launch it overwrites the remote-tree buffer and clears `activePartlist`,
and it issues no reset or overwrite of `bodies_acc1`; `activePartlist` is the
only device buffer it clears. The same holds for the whole of `makeLET`,
whatever remote trees the exchange hands over: no operation of it resets or
overwrites `bodies_acc1`. -/
theorem let_walk_keeps_acc1 (c : LetCall) (env : Env) (s : State) :
    approxGravLET_args.get? 7 = some KernelArg.bodies_acc1
      ∧ approxGrav_args.get? 7 = some KernelArg.bodies_acc1
      ∧ approxGravLET_args.count KernelArg.bodies_acc1 = 1
      ∧ approxGrav_args.count KernelArg.bodies_acc1 = 1
      ∧ (approximate_gravity_let c s).returned = true
      ∧ (eventsSince s (approximate_gravity_let c s).state).count
          (Event.execute2 Kernel.approxGravLET Stream.gravStream) = 1
      ∧ (∀ e ∈ eventsSince s (approximate_gravity_let c s).state,
          hostOverwrites e ≠ some Buffer.bodies_acc1)
      ∧ (eventsSince s (approximate_gravity_let c s).state).filterMap hostClears
          = [Buffer.activePartlist]
      ∧ (eventsSince s (approximate_gravity_let c s).state).filterMap hostOverwrites
          = [Buffer.fullRemoteTree, Buffer.activePartlist]
      ∧ (makeLET env s).returned = true
      ∧ (∀ e ∈ eventsSince s (makeLET env s).state,
          hostOverwrites e ≠ some Buffer.bodies_acc1) := by
  refine ⟨rfl, rfl, by decide, by decide, (approximate_gravity_let_time c s).1,
    (approximate_gravity_let_time c s).2.2.2.2.2, ?_, ?_, ?_, ?_, ?_⟩
  · rw [approximate_gravity_let_events]
    cases s.letRunning <;> decide
  · rw [approximate_gravity_let_events]
    cases s.letRunning <;> rfl
  · rw [approximate_gravity_let_events]
    cases s.letRunning <;> rfl
  · rw [makeLET_run]
    rfl
  · obtain ⟨⟨evs, ht, ha⟩, -⟩ := (makeLET_frame env).run s
    rw [eventsSince_append s _ _ ht]
    intro e he
    exact makeLETAlphabet_keeps_acc1 e (ha e he)

/-! ## The energy tracker -/

theorem foldl_add_eq_sum (f : Nat → ℚ) (l : List Nat) (a : ℚ) :
    l.foldl (fun a i => a + f i) a = a + (l.map f).sum := by
  induction l generalizing a with
  | nil => simp
  | cons x xs ih =>
    rw [List.foldl_cons, ih, List.map_cons, List.sum_cons]
    ring

/-- The host-side reduction loop of lines 1287-1292 adds up the blocks. -/
theorem block_reduce_eq_sum (f : Nat → ℚ) (N : Nat) (hN : 0 < N) :
    (List.range' 1 (N - 1)).foldl (fun a i => a + f i) (f 0) = ((List.range N).map f).sum := by
  obtain ⟨m, rfl⟩ : ∃ m, N = m + 1 := ⟨N - 1, by omega⟩
  rw [foldl_add_eq_sum, List.range_eq_range', List.range'_succ, List.map_cons, List.sum_cons]
  simp

@[simp] theorem result_ret {α : Type} (a : α) (s : State) :
    (Outcome.ret a s).result = some a := rfl

/-- One call of `compute_energies`: the energy bookkeeping it leaves and the two
drifts it computes. -/
theorem compute_energies_state (cfg : Config) (env : Env) (s : State)
    (hN : 0 < cfg.NBLOCK_REDUCE) :
    (compute_energies cfg env s).state.en
        = { Ekin := totalEkin cfg env, Epot := totalEpot cfg env,
            Etot := totalEpot cfg env + totalEkin cfg env,
            Ekin0 := if s.en.store_energy_flag then totalEkin cfg env else s.en.Ekin0,
            Epot0 := if s.en.store_energy_flag then totalEpot cfg env else s.en.Epot0,
            Etot0 := if s.en.store_energy_flag then totalEpot cfg env + totalEkin cfg env
              else s.en.Etot0,
            Ekin1 := totalEkin cfg env, Epot1 := totalEpot cfg env,
            Etot1 := totalEpot cfg env + totalEkin cfg env,
            tinit := if s.en.store_energy_flag then env.get_time s.clock else s.en.tinit,
            store_energy_flag := false }
      ∧ (compute_energies cfg env s).result
          = some (fdiv (totalEpot cfg env + totalEkin cfg env
              - (if s.en.store_energy_flag then totalEpot cfg env + totalEkin cfg env
                  else s.en.Etot0))
              (if s.en.store_energy_flag then totalEpot cfg env + totalEkin cfg env
                  else s.en.Etot0))
      ∧ (compute_energies_dde cfg env s).result
          = some (fdiv (totalEpot cfg env + totalEkin cfg env
              - (if s.en.store_energy_flag then totalEpot cfg env + totalEkin cfg env
                  else s.en.Etot1))
              (if s.en.store_energy_flag then totalEpot cfg env + totalEkin cfg env
                  else s.en.Etot1))
      ∧ (compute_energies_dde cfg env s).state = (compute_energies cfg env s).state := by
  have hk := block_reduce_eq_sum (fun i => (env.energy i).1) cfg.NBLOCK_REDUCE hN
  have hp := block_reduce_eq_sum (fun i => (env.energy i).2) cfg.NBLOCK_REDUCE hN
  by_cases hf : s.en.store_energy_flag = true <;> by_cases hr : cfg.procId = 0 <;>
    simp [compute_energies, compute_energies_dde, hf, hr, totalEkin, totalEpot, hk, hp]

/-- The drifts of one call in terms of the bookkeeping the call leaves; no
assumption on the number of blocks. -/
theorem compute_energies_drifts (cfg : Config) (env : Env) (s : State) :
    (compute_energies cfg env s).returned = true
      ∧ (compute_energies cfg env s).state.en.Etot
          = (compute_energies cfg env s).state.en.Epot + (compute_energies cfg env s).state.en.Ekin
      ∧ (compute_energies cfg env s).state.en.Etot0
          = (if s.en.store_energy_flag then (compute_energies cfg env s).state.en.Etot
              else s.en.Etot0)
      ∧ (compute_energies cfg env s).state.en.Etot1 = (compute_energies cfg env s).state.en.Etot
      ∧ (compute_energies cfg env s).state.en.store_energy_flag = false
      ∧ (compute_energies cfg env s).result
          = some (fdiv ((compute_energies cfg env s).state.en.Etot
                - (compute_energies cfg env s).state.en.Etot0)
              (compute_energies cfg env s).state.en.Etot0)
      ∧ (compute_energies_dde cfg env s).result
          = some (fdiv ((compute_energies cfg env s).state.en.Etot
                - (if s.en.store_energy_flag then (compute_energies cfg env s).state.en.Etot
                    else s.en.Etot1))
              (if s.en.store_energy_flag then (compute_energies cfg env s).state.en.Etot
                else s.en.Etot1))
      ∧ (compute_energies_dde cfg env s).state = (compute_energies cfg env s).state := by
  by_cases hf : s.en.store_energy_flag = true <;> by_cases hr : cfg.procId = 0 <;>
    simp [compute_energies, compute_energies_dde, hf, hr]

/-- The total energy a call computes depends on the oracles only. -/
theorem compute_energies_Etot_congr (cfg : Config) (env : Env) (s s' : State) :
    (compute_energies cfg env s).state.en.Etot = (compute_energies cfg env s').state.en.Etot := by
  by_cases hf : s.en.store_energy_flag = true <;> by_cases hf' : s'.en.store_energy_flag = true <;>
    by_cases hr : cfg.procId = 0 <;>
    simp [compute_energies, hf, hf', hr]

/-- C18: on the reference call of `compute_energies` (`store_energy_flag` set)
with a total energy that is not zero, the drift `de` that is returned and the
step-to-step drift `dde` are both exactly 0; afterwards `Etot0` and `Etot1`
equal `Etot` and `store_energy_flag` is false. -/
theorem compute_energies_reference_call (cfg : Config) (env : Env) (s : State)
    (hf : s.en.store_energy_flag = true)
    (hE : (compute_energies cfg env s).state.en.Etot ≠ 0) :
    (compute_energies cfg env s).result = some (some 0)
      ∧ (compute_energies_dde cfg env s).result = some (some 0)
      ∧ (compute_energies cfg env s).state.en.Etot0 = (compute_energies cfg env s).state.en.Etot
      ∧ (compute_energies cfg env s).state.en.Etot1 = (compute_energies cfg env s).state.en.Etot
      ∧ (compute_energies cfg env s).state.en.store_energy_flag = false := by
  obtain ⟨-, -, h3, h4, h5, h6, h7, -⟩ := compute_energies_drifts cfg env s
  rw [hf] at h3 h7
  simp only [if_true] at h3 h7
  refine ⟨?_, ?_, h3, h4, h5⟩
  · rw [h6, h3, sub_self, fdiv, if_neg hE, zero_div]
  · rw [h7, sub_self, fdiv, if_neg hE, zero_div]

theorem compute_energies_reference_call_witness :
    (compute_energies treeConfig energyEnv initState).result = some (some 0)
      ∧ (compute_energies_dde treeConfig energyEnv initState).result = some (some 0)
      ∧ (compute_energies treeConfig energyEnv initState).state.en.Etot0
          = (compute_energies treeConfig energyEnv initState).state.en.Etot
      ∧ (compute_energies treeConfig energyEnv initState).state.en.Etot1
          = (compute_energies treeConfig energyEnv initState).state.en.Etot
      ∧ (compute_energies treeConfig energyEnv initState).state.en.store_energy_flag = false :=
  compute_energies_reference_call treeConfig energyEnv initState rfl
    (by
      rw [(compute_energies_state treeConfig energyEnv initState (by decide)).1]
      norm_num [totalEpot, totalEkin, AllSum, energyEnv, quietEnv, treeConfig, List.range_succ])

/-- C19: two calls of `compute_energies` in succession on the same particle
state (the same oracles `env`) return the same drift, whether or not the first
of them is the reference call. -/
theorem compute_energies_repeatable (cfg : Config) (env : Env) (s : State) :
    (compute_energies cfg env s).returned = true
      ∧ (compute_energies cfg env (compute_energies cfg env s).state).returned = true
      ∧ (compute_energies cfg env (compute_energies cfg env s).state).result
          = (compute_energies cfg env s).result := by
  obtain ⟨h1, -, h3, -, h5, h6, -, -⟩ := compute_energies_drifts cfg env s
  obtain ⟨k1, -, k3, -, -, k6, -, -⟩ :=
    compute_energies_drifts cfg env (compute_energies cfg env s).state
  refine ⟨h1, k1, ?_⟩
  rw [k6, h6, k3, h5, compute_energies_Etot_congr cfg env (compute_energies cfg env s).state s]
  simp

/-! ## The balance loop of `iterate_setup` -/

theorem exec_bind_assoc {α β γ : Type} (m : Exec α) (f : α → Exec β) (g : β → Exec γ) :
    (m >>= f) >>= g = m >>= fun a => f a >>= g := by
  funext s
  simp only [bind_run]
  cases m s <;> rfl

/-- `iterate_setup` is its three blocks in sequence. -/
theorem iterate_setup_eq (cfg : Config) (env : Env) :
    iterate_setup cfg env = (do
      setupStreams
      setupBalance cfg env
      setupFinish env) := by
  by_cases h1 : cfg.USE_MPI = true <;> by_cases h2 : cfg.nProcs > 1 <;>
    simp only [iterate_setup, setupStreams, setupBalance, setupFinish, h1, h2, if_true, if_false,
      Bool.false_eq_true, exec_bind_assoc] <;>
    rfl

theorem setupStreams_run (s : State) :
    (setupStreams s).returned = true
      ∧ ∃ evs, (setupStreams s).state.trace = s.trace ++ evs
          ∧ evs.filter isRedistributionOp = [] := by
  by_cases h1 : s.execStream = none <;> by_cases h2 : s.gravStream = none <;>
    by_cases h3 : s.copyStream = none <;> by_cases h4 : s.LETDataToHostStream = none <;>
    simp [setupStreams, newStreamIfNull, h1, h2, h3, h4, isRedistributionOp]

theorem setupFinish_run (env : Env) (s : State) :
    (setupFinish env s).returned = true
      ∧ (setupFinish env s).state.trace = s.trace ++ [Event.sort_bodies true (some true)] := by
  simp [setupFinish]

theorem passCount_le (env : Env) (k i : Nat) : passCount env k i ≤ k := by
  induction k generalizing i with
  | zero => simp [passCount]
  | succ k ih =>
    unfold passCount
    split
    · omega
    · have := ih (i + 1)
      omega

theorem passCount_pos (env : Env) (k i : Nat) (hk : 0 < k) : 0 < passCount env k i := by
  cases k with
  | zero => omega
  | succ k =>
    unfold passCount
    split <;> omega

/-- Every pass before the last one made is unbalanced. -/
theorem passCount_unbalanced (env : Env) (k i j : Nat) (hj : j + 1 < passCount env k i) :
    passBalanced env (i + j) = false := by
  induction k generalizing i j with
  | zero => simp [passCount] at hj
  | succ k ih =>
    unfold passCount at hj
    by_cases hb : passBalanced env i = true
    · rw [if_pos hb] at hj
      omega
    · rw [if_neg hb] at hj
      cases j with
      | zero => simpa using hb
      | succ j =>
        have := ih (i + 1) j (by omega)
        rw [show i + (j + 1) = i + 1 + j by omega]
        exact this

/-- When the loop stops before its bound, the last pass made is balanced. -/
theorem passCount_balanced (env : Env) (k i : Nat) (hlt : passCount env k i < k) :
    passBalanced env (i + (passCount env k i - 1)) = true := by
  induction k generalizing i with
  | zero => omega
  | succ k ih =>
    unfold passCount at hlt ⊢
    by_cases hb : passBalanced env i = true
    · rw [if_pos hb]
      simpa using hb
    · rw [if_neg hb] at hlt ⊢
      have h1 := ih (i + 1) (by omega)
      have h2 := passCount_pos env k (i + 1) (by omega)
      rw [show i + (1 + passCount env k (i + 1) - 1) = i + 1 + (passCount env k (i + 1) - 1) by omega]
      exact h1

/-- The balance loop with `k` passes left, when the percentage of every pass it
can reach is defined: it returns after `passCount env k i` passes. -/
theorem setupPasses_run (cfg : Config) (env : Env) (k i : Nat) (s : State)
    (hdef : ∀ j, i ≤ j → j < i + k →
      perc (env.setupPass j).maxN (env.setupPass j).minN ≠ none) :
    (setupPasses cfg env k i s).returned = true
      ∧ ∃ evs, (setupPasses cfg env k i s).state.trace = s.trace ++ evs
          ∧ evs.filter isRedistributionOp = passEvents (passCount env k i) := by
  induction k generalizing i s with
  | zero => exact ⟨rfl, [], by simp [setupPasses], rfl⟩
  | succ k ih =>
    obtain ⟨p, hp⟩ : ∃ p, perc (env.setupPass i).maxN (env.setupPass i).minN = some p := by
      have := hdef i (le_refl i) (by omega)
      cases hq : perc (env.setupPass i).maxN (env.setupPass i).minN with
      | none => exact absurd hq this
      | some p => exact ⟨p, rfl⟩
    by_cases hlt : p < 10
    · have hb : passBalanced env i = true := by simp [passBalanced, hp, hlt]
      refine ⟨by simp [setupPasses, hp, hlt], [Event.sort_bodies true (some true),
        Event.parallelDataSummary, Event.MPI_Allreduce, Event.MPI_Allreduce], by
          simp [setupPasses, hp, hlt], ?_⟩
      simp [passCount, hb, passEvents, isRedistributionOp]
    · have hb : passBalanced env i = false := by simp [passBalanced, hp, hlt]
      obtain ⟨s1, hs1⟩ : ∃ s1 : State, s1 = { s with
          n := (env.setupPass i).newN,
          trace := s.trace ++ [Event.sort_bodies true (some true)] ++ [Event.parallelDataSummary]
            ++ [Event.MPI_Allreduce] ++ [Event.MPI_Allreduce] } := ⟨_, rfl⟩
      have hstep : setupPasses cfg env (k + 1) i s = setupPasses cfg env k (i + 1) s1 := by
        rw [hs1]
        simp [setupPasses, hp, hlt]
      obtain ⟨i1, evs, i2, i3⟩ := ih (i + 1) s1 (fun j h1 h2 => hdef j (by omega) (by omega))
      rw [hstep]
      refine ⟨i1, [Event.sort_bodies true (some true), Event.parallelDataSummary,
        Event.MPI_Allreduce, Event.MPI_Allreduce] ++ evs, ?_, ?_⟩
      · rw [i2, hs1]
        simp
      · have hc : passCount env (k + 1) i = passCount env k (i + 1) + 1 := by
          simp only [passCount, hb, Bool.false_eq_true, if_false]
          omega
        rw [List.filter_append, i3, hc]
        rfl

theorem bind_unit_of_returned {β : Type} (m : Exec Unit) (f : Unit → Exec β) (s : State)
    (h : (m s).returned = true) : (m >>= f) s = f () (m s).state := by
  obtain ⟨u, hu⟩ := eq_ret_of_returned _ h
  rw [bind_run]
  cases hm : m s with
  | ret a s1 => rfl
  | halt a s1 => rw [hm] at h; cases h

theorem passEvents_count (m : Nat) :
    (passEvents m ++ [Event.sort_bodies true (some true)]).count Event.parallelDataSummary = m := by
  induction m with
  | zero => decide
  | succ m ih =>
    rw [passEvents, List.cons_append, List.cons_append,
      List.count_cons_of_ne (by decide), List.count_cons_self, ih]

/-- The run of `iterate_setup` when the balance loop is entered and every
percentage is defined. -/
theorem iterate_setup_balanced_run (cfg : Config) (env : Env) (s : State)
    (hmpi : cfg.USE_MPI = true) (hn : cfg.nProcs > 1)
    (hdef : ∀ j, j < 5 → perc (env.setupPass j).maxN (env.setupPass j).minN ≠ none) :
    (iterate_setup cfg env s).returned = true
      ∧ (eventsSince s (iterate_setup cfg env s).state).filter isRedistributionOp
          = passEvents (passCount env 5 0) ++ [Event.sort_bodies true (some true)] := by
  obtain ⟨r1, e1, t1, f1⟩ := setupStreams_run s
  have hb : setupBalance cfg env (setupStreams s).state
      = setupPasses cfg env 5 0 (setupStreams s).state := by
    simp [setupBalance, hmpi, hn]
  obtain ⟨r2, e2, t2, f2⟩ := setupPasses_run cfg env 5 0 (setupStreams s).state
    (fun j _ h => hdef j (by omega))
  rw [← hb] at r2 t2
  obtain ⟨r3, t3⟩ := setupFinish_run env (setupBalance cfg env (setupStreams s).state).state
  have hrun : iterate_setup cfg env s
      = setupFinish env (setupBalance cfg env (setupStreams s).state).state := by
    rw [iterate_setup_eq, bind_unit_of_returned _ _ _ r1, bind_unit_of_returned _ _ _ r2]
  rw [hrun]
  refine ⟨r3, ?_⟩
  rw [eventsSince_append s _ (e1 ++ e2 ++ [Event.sort_bodies true (some true)])
    (by rw [t3, t2, t1]; simp)]
  rw [List.filter_append, List.filter_append, f1, f2]
  rfl

/-- The run of `iterate_setup` with a single process. -/
theorem iterate_setup_single_run (cfg : Config) (env : Env) (s : State)
    (hn : ¬ cfg.nProcs > 1) :
    (iterate_setup cfg env s).returned = true
      ∧ (eventsSince s (iterate_setup cfg env s).state).filter isRedistributionOp
          = [Event.sort_bodies true (some true)] := by
  obtain ⟨r1, e1, t1, f1⟩ := setupStreams_run s
  have hb : setupBalance cfg env (setupStreams s).state
      = Outcome.ret () (setupStreams s).state := by
    by_cases hm : cfg.USE_MPI = true <;> simp [setupBalance, hm, hn]
  obtain ⟨r3, t3⟩ := setupFinish_run env (setupStreams s).state
  have hrun : iterate_setup cfg env s = setupFinish env (setupStreams s).state := by
    rw [iterate_setup_eq, bind_unit_of_returned _ _ _ r1,
      bind_unit_of_returned _ _ _ (by rw [hb]; rfl), hb]
    rfl
  rw [hrun]
  refine ⟨r3, ?_⟩
  rw [eventsSince_append s _ (e1 ++ [Event.sort_bodies true (some true)])
    (by rw [t3, t1]; simp)]
  rw [List.filter_append, f1]
  rfl

/-- The balance loop in terms of the test of line 97: in a build with
`USE_MPI` and with `nProcs > 1`, when the percentage
of line 91 is defined in every pass, `iterate_setup` returns after
`passCount env 5 0` redistribution passes (`sort_bodies` followed by
`parallelDataSummary`) and one final `sort_bodies`. The number of passes is at
least 1 and at most 5; every pass before the last one made measured 10% or
more, and when fewer than 5 passes are made the last one measured less than
10%. With `nProcs` not above 1, `iterate_setup` returns with the final
`sort_bodies` alone and no redistribution pass. -/
theorem setup_balance_loop (cfg cfg1 : Config) (env : Env) (s : State)
    (hmpi : cfg.USE_MPI = true) (hn : cfg.nProcs > 1)
    (hdef : ∀ j, j < 5 → perc (env.setupPass j).maxN (env.setupPass j).minN ≠ none)
    (h1 : ¬ cfg1.nProcs > 1) :
    (iterate_setup cfg env s).returned = true
      ∧ (eventsSince s (iterate_setup cfg env s).state).filter isRedistributionOp
          = passEvents (passCount env 5 0) ++ [Event.sort_bodies true (some true)]
      ∧ (eventsSince s (iterate_setup cfg env s).state).count Event.parallelDataSummary
          = passCount env 5 0
      ∧ 1 ≤ passCount env 5 0
      ∧ passCount env 5 0 ≤ 5
      ∧ (∀ j, j + 1 < passCount env 5 0 → passBalanced env j = false)
      ∧ (passCount env 5 0 < 5 → passBalanced env (passCount env 5 0 - 1) = true)
      ∧ (iterate_setup cfg1 env s).returned = true
      ∧ (eventsSince s (iterate_setup cfg1 env s).state).filter isRedistributionOp
          = [Event.sort_bodies true (some true)] := by
  obtain ⟨r, f⟩ := iterate_setup_balanced_run cfg env s hmpi hn hdef
  obtain ⟨r1, f1⟩ := iterate_setup_single_run cfg1 env s h1
  refine ⟨r, f, ?_, passCount_pos env 5 0 (by decide), passCount_le env 5 0,
    fun j hj => ?_, fun hlt => ?_, r1, f1⟩
  · rw [← List.count_filter (show isRedistributionOp Event.parallelDataSummary = true from rfl),
      f, passEvents_count]
  · have := passCount_unbalanced env 5 0 j hj
    rwa [Nat.zero_add] at this
  · have := passCount_balanced env 5 0 hlt
    rwa [Nat.zero_add] at this

theorem setup_balance_loop_witness :
    (iterate_setup twoProcTreeConfig unevenEnv initState).returned = true
      ∧ (eventsSince initState (iterate_setup twoProcTreeConfig unevenEnv initState).state).filter isRedistributionOp
          = passEvents (passCount unevenEnv 5 0) ++ [Event.sort_bodies true (some true)]
      ∧ (eventsSince initState (iterate_setup twoProcTreeConfig unevenEnv initState).state).count Event.parallelDataSummary
          = passCount unevenEnv 5 0
      ∧ 1 ≤ passCount unevenEnv 5 0
      ∧ passCount unevenEnv 5 0 ≤ 5
      ∧ (∀ j, j + 1 < passCount unevenEnv 5 0 → passBalanced unevenEnv j = false)
      ∧ (passCount unevenEnv 5 0 < 5 → passBalanced unevenEnv (passCount unevenEnv 5 0 - 1) = true)
      ∧ (iterate_setup treeConfig unevenEnv initState).returned = true
      ∧ (eventsSince initState (iterate_setup treeConfig unevenEnv initState).state).filter isRedistributionOp
          = [Event.sort_bodies true (some true)] :=
  setup_balance_loop twoProcTreeConfig treeConfig unevenEnv initState rfl (by decide)
    (by decide) (by decide)

/-! ## Snapshots, channels, timings and layouts -/

/-! ## The domain flag of the tree sort -/

theorem avoids_refl (p : Event → Bool) (s : State) : Avoids p s.trace s :=
  ⟨[], by simp, fun _ h => absurd h (List.not_mem_nil _)⟩

theorem avoids_append {p : Event → Bool} {base : List Event} {s s1 : State} {evs : List Event}
    (h : Avoids p base s) (ht : s1.trace = s.trace ++ evs) (hp : ∀ e ∈ evs, p e = false) :
    Avoids p base s1 := by
  obtain ⟨e0, h0, p0⟩ := h
  refine ⟨e0 ++ evs, by rw [ht, h0, List.append_assoc], fun e he => ?_⟩
  rcases List.mem_append.1 he with h1 | h1
  · exact p0 e h1
  · exact hp e h1

/-- A block whose alphabet avoids `p` keeps `Avoids p base`, whatever its
outcome. -/
theorem triple_avoids_of_frame {α : Type} {al : List Event} {kI kT kN kA : Bool} {m : Exec α}
    {p : Event → Bool} {base : List Event}
    (hm : Sat (Frame al kI kT kN kA) m) (hq : ∀ e ∈ al, p e = false) :
    Triple (Avoids p base) m (Avoids p base) (Avoids p base) := by
  constructor
  intro s hs
  obtain ⟨⟨evs, ht, ha⟩, -⟩ := hm.run s
  have := avoids_append hs ht (fun e he => hq e (ha e he))
  cases hms : m s with
  | ret a s1 => rw [hms] at this; exact this
  | halt h s1 => rw [hms] at this; exact this

theorem treeUpdate_true_avoids (cfg : Config) (env : Env) (r : Int) (base : List Event) :
    Triple (Avoids isStaleSort base) (treeUpdate cfg env true r)
      (Avoids isStaleSort base) (Avoids isStaleSort base) := by
  constructor
  intro s hs
  by_cases hr : r = 0 <;> by_cases hb : cfg.DO_BLOCK_TIMESTEP = true <;>
    simp only [treeUpdate, hr, hb, bind_run, emit_run, get_time_run, modifyS_run, pure_run,
      if_true, if_false, Bool.false_eq_true] <;>
    exact avoids_append hs (by simp only [List.append_assoc]; rfl) (by decide)


theorem approxAlphabet_fresh : ∀ e ∈ approxAlphabet, isStaleSort e = false := by decide

theorem treeGravity_avoids (cfg : Config) (env : Env) (base : List Event) :
    Triple (Avoids isStaleSort base) (treeGravity cfg env)
      (Avoids isStaleSort base) (Avoids isStaleSort base) := by
  constructor
  intro s hs
  obtain ⟨evs, ht, ha, -⟩ := treeGravity_run cfg env s
  have := avoids_append hs ht (fun e he => by
    rcases List.mem_cons.1 he with h | h
    · rw [h]; rfl
    · exact approxAlphabet_fresh e (ha e h))
  cases hms : treeGravity cfg env s with
  | ret a s1 => rw [hms] at this; exact this
  | halt h s1 => rw [hms] at this; exact this

theorem forces_true_avoids (cfg : Config) (env : Env) (base : List Event) :
    Triple (Avoids isStaleSort base) (forces cfg env true)
      (Avoids isStaleSort base) (Avoids isStaleSort base) := by
  by_cases hd : cfg.useDirectGravity = true
  · constructor
    intro s hs
    simp only [forces, hd, if_true, direct_gravity, bind_run, emit_run, pure_run]
    exact avoids_append hs (by simp only [List.append_assoc]; rfl) (by decide)
  · have hd1 : cfg.useDirectGravity = false := by simpa using hd
    constructor
    intro s hs
    simp only [forces, hd1, Bool.false_eq_true, if_false, bind_run, getS_run]
    cases hc : cmod s.iter cfg.rebuild_tree_rate with
    | none => exact hs
    | some r =>
      exact (triple_bind (treeUpdate_true_avoids cfg env r base)
        (fun _ => treeGravity_avoids cfg env base)).run s hs

theorem afterForcesAlphabet_fresh : ∀ e ∈ afterForcesAlphabet, isStaleSort e = false := by decide
theorem correctAlphabet_fresh : ∀ e ∈ correctAlphabet, isStaleSort e = false := by decide
theorem loadBalanceAlphabet_fresh : ∀ e ∈ loadBalanceAlphabet, isStaleSort e = false := by decide
theorem energyAlphabet_fresh : ∀ e ∈ energyAlphabet, isStaleSort e = false := by decide
theorem outputAlphabet_fresh : ∀ e ∈ outputAlphabet, isStaleSort e = false := by decide
theorem predictAlphabet_fresh : ∀ e ∈ predictAlphabet, isStaleSort e = false := by decide
theorem domainAlphabet_fresh : ∀ e ∈ domainAlphabet, isStaleSort e = false := by decide
theorem nil_fresh : ∀ e ∈ ([] : List Event), isStaleSort e = false := by decide

/-- The part of a step after the domain update, entered with
`needDomainUpdate = true`, issues no `sort_bodies` with a false flag. -/
theorem stepTail_true_avoids (cfg : Config) (env : Env) (base : List Event) :
    Triple (Avoids isStaleSort base) (stepTail cfg env true)
      (Avoids isStaleSort base) (Avoids isStaleSort base) := by
  unfold stepTail
  refine triple_bind (forces_true_avoids cfg env base) (fun t1 => ?_)
  refine triple_bind (triple_avoids_of_frame (afterForces_frame cfg env t1)
    afterForcesAlphabet_fresh) (fun _ => ?_)
  refine triple_bind (triple_avoids_of_frame (correctStep_frame cfg env)
    correctAlphabet_fresh) (fun _ => ?_)
  refine triple_bind (triple_avoids_of_frame (loadBalance_frame cfg env)
    loadBalanceAlphabet_fresh) (fun _ => ?_)
  refine triple_bind (triple_avoids_of_frame countActive_frame nil_fresh) (fun _ => ?_)
  refine triple_bind (triple_avoids_of_frame (energyStep_frame cfg env)
    energyAlphabet_fresh) (fun _ => ?_)
  refine triple_bind (triple_avoids_of_frame (statistics_frame cfg env)
    outputAlphabet_fresh) (fun _ => ?_)
  refine triple_bind (triple_avoids_of_frame (snapshot_frame cfg env)
    outputAlphabet_fresh) (fun _ => ?_)
  exact triple_avoids_of_frame (stopConditions_frame cfg env) energyAlphabet_fresh

/-- The domain update followed by the rest of the step: the rest is entered
with `needDomainUpdate = true`. -/
theorem domain_then_tail_avoids (cfg : Config) (env : Env) (base : List Event) :
    Triple (Avoids isStaleSort base) (domainUpdate cfg env >>= stepTail cfg env)
      (Avoids isStaleSort base) (Avoids isStaleSort base) := by
  constructor
  intro s hs
  have hd := (triple_avoids_of_frame (domainUpdate_frame cfg env) domainAlphabet_fresh).run s hs
  rw [bind_run]
  cases hdu : domainUpdate cfg env s with
  | halt h s1 =>
    rw [hdu] at hd
    exact hd
  | ret nd s1 =>
    rw [hdu] at hd
    have hnd : nd = true := domainUpdate_value hdu
    subst hnd
    exact (stepTail_true_avoids cfg env base).run s1 hd

theorem iterate_once_avoids_stale_sort (cfg : Config) (env : Env) (s : State) :
    ∀ e ∈ eventsSince s (iterate_once cfg env s).state, isStaleSort e = false := by
  obtain ⟨s2, pe, hrun, h2t, hpa, -, -, -⟩ := iterate_once_head cfg env s
  have h2 : Avoids isStaleSort s.trace s2 := ⟨Event.iterate_once :: Event.predict :: pe, h2t,
    fun e he => by
      rcases List.mem_cons.1 he with h | h
      · rw [h]; rfl
      · rcases List.mem_cons.1 h with h | h
        · rw [h]; rfl
        · exact predictAlphabet_fresh e (hpa e h)⟩
  have h3 := (domain_then_tail_avoids cfg env s.trace).run s2 h2
  rw [hrun]
  have h4 : Avoids isStaleSort s.trace ((domainUpdate cfg env >>= stepTail cfg env) s2).state := by
    cases hms : (domainUpdate cfg env >>= stepTail cfg env) s2 with
    | ret a s1 => rw [hms] at h3; exact h3
    | halt h s1 => rw [hms] at h3; exact h3
  obtain ⟨evs, ht, hp⟩ := h4
  rw [eventsSince_append s _ evs ht]
  exact hp


theorem iterate_once_rebuild_sorts (cfg : Config) (env : Env) (s : State)
    (hd : cfg.useDirectGravity = false) (hc : cmod s.iter cfg.rebuild_tree_rate = some 0) :
    Event.sort_bodies true none ∈ eventsSince s (iterate_once cfg env s).state := by
  obtain ⟨s2, pe, hrun, h2t, hpa, h2i, -, -⟩ := iterate_once_head cfg env s
  have hc2 : cmod s2.iter cfg.rebuild_tree_rate = some 0 := by rw [h2i]; exact hc
  obtain ⟨nd, hdu⟩ := eq_ret_of_returned _ (domainUpdate_returned cfg env s2 (by rw [hc2]; simp))
  have hnd : nd = true := domainUpdate_value hdu
  subst hnd
  obtain ⟨⟨de, hdt, hda⟩, hdi, -⟩ := (domainUpdate_frame cfg env).run s2
  have hc3 : cmod (domainUpdate cfg env s2).state.iter cfg.rebuild_tree_rate = some 0 := by
    rw [hdi rfl]
    exact hc2
  obtain ⟨⟨fe, hft, hff⟩, -, -⟩ := forces_tree_run cfg env true _ _ hd hc3
  have hst : (iterate_once cfg env s).state
      = (forces cfg env true (domainUpdate cfg env s2).state).state := by
    rw [hrun, bind_run, hdu]
    exact stepTail_tree_state cfg env true _ hd
  rw [hst, eventsSince_append s _ (Event.iterate_once :: Event.predict :: pe ++ (de ++ fe))
    (by rw [hft, hdt, h2t]; simp [List.append_assoc])]
  have hmem : Event.sort_bodies true none ∈ fe.filter isTreeOp := by
    rw [hff]
    simp
  have := (List.mem_filter.1 hmem).1
  simp [this]

theorem domainUpdate_result (cfg : Config) (env : Env) (s : State) :
    (domainUpdate cfg env s).result ≠ some false := by
  cases h : domainUpdate cfg env s with
  | halt a s1 => simp [Outcome.result]
  | ret nd s1 =>
    have := domainUpdate_value h
    subst this
    simp [Outcome.result]

/-- C25: `needDomainUpdate` is true whenever `sort_bodies` reads it. For every
configuration, every `nProcs` and every state: the domain block of a step
never yields `needDomainUpdate = false` (lines 168-169 set it to false and then
to true), a step issues no `sort_bodies` with a false flag, whether or not the
domain decomposition ran in it, and a tree-mode step that rebuilds the tree
(`iter % rebuild_tree_rate` is 0) issues `sort_bodies` with the flag true. -/
theorem rebuild_sort_updates_domain (cfg : Config) (env : Env) (s : State) :
    (domainUpdate cfg env s).result ≠ some false
      ∧ (∀ e ∈ eventsSince s (iterate_once cfg env s).state, isStaleSort e = false)
      ∧ (cfg.useDirectGravity = false → cmod s.iter cfg.rebuild_tree_rate = some 0 →
          Event.sort_bodies true none ∈ eventsSince s (iterate_once cfg env s).state
            ∧ Event.sort_bodies false none ∉ eventsSince s (iterate_once cfg env s).state) := by
  refine ⟨domainUpdate_result cfg env s, iterate_once_avoids_stale_sort cfg env s,
    fun hd hc => ⟨iterate_once_rebuild_sorts cfg env s hd hc, fun hmem => ?_⟩⟩
  have := iterate_once_avoids_stale_sort cfg env s _ hmem
  exact absurd this (by decide)


/-! ## The execution channels -/

theorem sameStreams_refl (s : State) : SameStreams s s := ⟨rfl, rfl, rfl, rfl⟩

theorem sameStreams_trans {a b c : State} (h1 : SameStreams a b) (h2 : SameStreams b c) :
    SameStreams a c :=
  ⟨h2.1.trans h1.1, h2.2.1.trans h1.2.1, h2.2.2.1.trans h1.2.2.1, h2.2.2.2.trans h1.2.2.2⟩

theorem sat_bind_of_trans {α β : Type} {R : State → State → Prop}
    (hR : ∀ a b c, R a b → R b c → R a c) {m : Exec α} {f : α → Exec β}
    (hm : Sat R m) (hf : ∀ a, Sat R (f a)) : Sat R (m >>= f) := by
  constructor
  intro s
  have h1 := hm.run s
  rw [bind_run]
  cases hms : m s with
  | halt h s1 => rw [hms] at h1; exact h1
  | ret a s1 =>
    rw [hms] at h1
    exact hR _ _ _ h1 ((hf a).run s1)

theorem setupPasses_streams (cfg : Config) (env : Env) (k i : Nat) :
    Sat (fun s s1 => SameStreams s s1 ∧ ∃ evs, s1.trace = s.trace ++ evs
      ∧ evs.filter isStreamOp = []) (setupPasses cfg env k i) := by
  induction k generalizing i with
  | zero => exact ⟨fun s => ⟨sameStreams_refl s, [], by simp [setupPasses], rfl⟩⟩
  | succ k ih =>
    constructor
    intro s
    cases hp : perc (env.setupPass i).maxN (env.setupPass i).minN with
    | none =>
      refine ⟨by simp [setupPasses, hp, SameStreams], [Event.sort_bodies true (some true),
        Event.parallelDataSummary, Event.MPI_Allreduce, Event.MPI_Allreduce],
        by simp [setupPasses, hp], rfl⟩
    | some p =>
      by_cases hlt : p < 10
      · refine ⟨by simp [setupPasses, hp, hlt, SameStreams], [Event.sort_bodies true (some true),
          Event.parallelDataSummary, Event.MPI_Allreduce, Event.MPI_Allreduce],
          by simp [setupPasses, hp, hlt], rfl⟩
      · obtain ⟨s1, hs1⟩ : ∃ s1 : State, s1 = { s with
            n := (env.setupPass i).newN,
            trace := s.trace ++ [Event.sort_bodies true (some true)]
              ++ [Event.parallelDataSummary] ++ [Event.MPI_Allreduce]
              ++ [Event.MPI_Allreduce] } := ⟨_, rfl⟩
        have hstep : setupPasses cfg env (k + 1) i s = setupPasses cfg env k (i + 1) s1 := by
          rw [hs1]
          simp [setupPasses, hp, hlt]
        obtain ⟨i1, evs, i2, i3⟩ := (ih (i + 1)).run s1
        rw [hstep]
        refine ⟨sameStreams_trans (by rw [hs1]; exact sameStreams_refl s) i1,
          [Event.sort_bodies true (some true), Event.parallelDataSummary,
            Event.MPI_Allreduce, Event.MPI_Allreduce] ++ evs, ?_, ?_⟩
        · rw [i2, hs1]
          simp
        · rw [List.filter_append, i3]
          rfl


/-- The channel block of `iterate_setup`: it creates exactly the channels whose
handle is `NULL` and keeps the others. -/
theorem setupStreams_streams (s : State) :
    (setupStreams s).returned = true
      ∧ (setupStreams s).state.execStream ≠ none
      ∧ (setupStreams s).state.gravStream ≠ none
      ∧ (setupStreams s).state.copyStream ≠ none
      ∧ (setupStreams s).state.LETDataToHostStream ≠ none
      ∧ (s.execStream ≠ none → (setupStreams s).state.execStream = s.execStream)
      ∧ (s.gravStream ≠ none → (setupStreams s).state.gravStream = s.gravStream)
      ∧ (s.copyStream ≠ none → (setupStreams s).state.copyStream = s.copyStream)
      ∧ (s.LETDataToHostStream ≠ none →
          (setupStreams s).state.LETDataToHostStream = s.LETDataToHostStream)
      ∧ ∃ evs, (setupStreams s).state.trace = s.trace ++ evs
          ∧ evs.filter isStreamOp
            = (if s.execStream = none then [Event.newStream Stream.execStream] else [])
              ++ ((if s.gravStream = none then [Event.newStream Stream.gravStream] else [])
              ++ ((if s.copyStream = none then [Event.newStream Stream.copyStream] else [])
              ++ (if s.LETDataToHostStream = none
                    then [Event.newStream Stream.LETDataToHostStream] else []))) := by
  by_cases h1 : s.execStream = none <;> by_cases h2 : s.gravStream = none <;>
    by_cases h3 : s.copyStream = none <;> by_cases h4 : s.LETDataToHostStream = none <;>
    simp [setupStreams, newStreamIfNull, h1, h2, h3, h4, isStreamOp]

theorem setupBalance_streams (cfg : Config) (env : Env) :
    Sat (fun s s1 => SameStreams s s1 ∧ ∃ evs, s1.trace = s.trace ++ evs
      ∧ evs.filter isStreamOp = []) (setupBalance cfg env) := by
  constructor
  intro s
  by_cases h1 : cfg.USE_MPI = true <;> by_cases h2 : cfg.nProcs > 1
  · have : setupBalance cfg env s = setupPasses cfg env 5 0 s := by simp [setupBalance, h1, h2]
    rw [this]
    exact (setupPasses_streams cfg env 5 0).run s
  all_goals exact ⟨by simp [setupBalance, h1, h2, SameStreams], [],
    by simp [setupBalance, h1, h2], rfl⟩

theorem setupFinish_streams (env : Env) :
    Sat (fun s s1 => SameStreams s s1 ∧ ∃ evs, s1.trace = s.trace ++ evs
      ∧ evs.filter isStreamOp = []) (setupFinish env) :=
  ⟨fun s => ⟨by simp [setupFinish, SameStreams], [Event.sort_bodies true (some true)],
    by simp [setupFinish], rfl⟩⟩

/-- `iterate_teardown` releases exactly the channels that exist and leaves all
four handles `NULL`. -/
theorem iterate_teardown_run (s : State) :
    (iterate_teardown s).returned = true
      ∧ (iterate_teardown s).state.execStream = none
      ∧ (iterate_teardown s).state.gravStream = none
      ∧ (iterate_teardown s).state.copyStream = none
      ∧ (iterate_teardown s).state.LETDataToHostStream = none
      ∧ eventsSince s (iterate_teardown s).state
          = Event.iterate_teardown
            :: ((if s.execStream = none then [] else [Event.deleteStream Stream.execStream])
              ++ ((if s.gravStream = none then [] else [Event.deleteStream Stream.gravStream])
              ++ ((if s.copyStream = none then [] else [Event.deleteStream Stream.copyStream])
              ++ (if s.LETDataToHostStream = none then []
                    else [Event.deleteStream Stream.LETDataToHostStream])))) := by
  by_cases h1 : s.execStream = none <;> by_cases h2 : s.gravStream = none <;>
    by_cases h3 : s.copyStream = none <;> by_cases h4 : s.LETDataToHostStream = none <;>
    simp [iterate_teardown, deleteStreamIfSet, h1, h2, h3, h4, eventsSince]

/-- A second `iterate_teardown` only records the call. -/
theorem iterate_teardown_idle (s : State) (h1 : s.execStream = none) (h2 : s.gravStream = none)
    (h3 : s.copyStream = none) (h4 : s.LETDataToHostStream = none) :
    iterate_teardown s
      = Outcome.ret () { s with trace := s.trace ++ [Event.iterate_teardown] } := by
  simp [iterate_teardown, deleteStreamIfSet, h1, h2, h3, h4]


theorem streams_rel_trans (a b c : State)
    (h1 : SameStreams a b ∧ ∃ evs, b.trace = a.trace ++ evs ∧ evs.filter isStreamOp = [])
    (h2 : SameStreams b c ∧ ∃ evs, c.trace = b.trace ++ evs ∧ evs.filter isStreamOp = []) :
    SameStreams a c ∧ ∃ evs, c.trace = a.trace ++ evs ∧ evs.filter isStreamOp = [] := by
  obtain ⟨r1, e1, t1, f1⟩ := h1
  obtain ⟨r2, e2, t2, f2⟩ := h2
  exact ⟨sameStreams_trans r1 r2, e1 ++ e2, by rw [t2, t1, List.append_assoc],
    by rw [List.filter_append, f1, f2]; rfl⟩

/-- The channels after `iterate_setup`, whether it returns or stops in the
balance loop. -/
theorem iterate_setup_streams (cfg : Config) (env : Env) (s : State) :
    (iterate_setup cfg env s).state.execStream ≠ none
      ∧ (iterate_setup cfg env s).state.gravStream ≠ none
      ∧ (iterate_setup cfg env s).state.copyStream ≠ none
      ∧ (iterate_setup cfg env s).state.LETDataToHostStream ≠ none
      ∧ (s.execStream ≠ none → (iterate_setup cfg env s).state.execStream = s.execStream)
      ∧ (s.gravStream ≠ none → (iterate_setup cfg env s).state.gravStream = s.gravStream)
      ∧ (s.copyStream ≠ none → (iterate_setup cfg env s).state.copyStream = s.copyStream)
      ∧ (s.LETDataToHostStream ≠ none →
          (iterate_setup cfg env s).state.LETDataToHostStream = s.LETDataToHostStream)
      ∧ (eventsSince s (iterate_setup cfg env s).state).filter isStreamOp
            = (if s.execStream = none then [Event.newStream Stream.execStream] else [])
              ++ ((if s.gravStream = none then [Event.newStream Stream.gravStream] else [])
              ++ ((if s.copyStream = none then [Event.newStream Stream.copyStream] else [])
              ++ (if s.LETDataToHostStream = none
                    then [Event.newStream Stream.LETDataToHostStream] else []))) := by
  obtain ⟨r1, a1, a2, a3, a4, k1, k2, k3, k4, e1, t1, f1⟩ := setupStreams_streams s
  have hrun : iterate_setup cfg env s
      = (setupBalance cfg env >>= fun _ => setupFinish env) (setupStreams s).state := by
    rw [iterate_setup_eq, bind_unit_of_returned _ _ _ r1]
  obtain ⟨⟨b1, b2, b3, b4⟩, e2, t2, f2⟩ :=
    (sat_bind_of_trans streams_rel_trans (setupBalance_streams cfg env)
      (fun _ => setupFinish_streams env)).run (setupStreams s).state
  rw [hrun]
  refine ⟨by rw [b1]; exact a1, by rw [b2]; exact a2, by rw [b3]; exact a3, by rw [b4]; exact a4,
    fun h => by rw [b1]; exact k1 h, fun h => by rw [b2]; exact k2 h,
    fun h => by rw [b3]; exact k3 h, fun h => by rw [b4]; exact k4 h, ?_⟩
  rw [eventsSince_append s _ (e1 ++ e2) (by rw [t2, t1, List.append_assoc]),
    List.filter_append, f1, f2, List.append_nil]

/-- C22: from any state, `iterate_teardown` returns with the four channel
handles `NULL`, having released exactly the channels that existed; a second
call releases nothing and changes nothing but the record of the call; an
`iterate_setup` that follows creates all four channels again; an
`iterate_setup` on a state `sx` in which the four channels exist creates none
and keeps the four handles. -/
theorem teardown_and_setup_channels (cfg : Config) (env : Env) (s sx : State)
    (h1 : sx.execStream ≠ none) (h2 : sx.gravStream ≠ none) (h3 : sx.copyStream ≠ none)
    (h4 : sx.LETDataToHostStream ≠ none) :
    (iterate_teardown s).returned = true
      ∧ (iterate_teardown s).state.execStream = none
      ∧ (iterate_teardown s).state.gravStream = none
      ∧ (iterate_teardown s).state.copyStream = none
      ∧ (iterate_teardown s).state.LETDataToHostStream = none
      ∧ eventsSince s (iterate_teardown s).state
          = Event.iterate_teardown
            :: ((if s.execStream = none then [] else [Event.deleteStream Stream.execStream])
              ++ ((if s.gravStream = none then [] else [Event.deleteStream Stream.gravStream])
              ++ ((if s.copyStream = none then [] else [Event.deleteStream Stream.copyStream])
              ++ (if s.LETDataToHostStream = none then []
                    else [Event.deleteStream Stream.LETDataToHostStream]))))
      ∧ iterate_teardown (iterate_teardown s).state
          = Outcome.ret () { (iterate_teardown s).state with
              trace := (iterate_teardown s).state.trace ++ [Event.iterate_teardown] }
      ∧ (iterate_setup cfg env (iterate_teardown s).state).state.execStream ≠ none
      ∧ (iterate_setup cfg env (iterate_teardown s).state).state.gravStream ≠ none
      ∧ (iterate_setup cfg env (iterate_teardown s).state).state.copyStream ≠ none
      ∧ (iterate_setup cfg env (iterate_teardown s).state).state.LETDataToHostStream ≠ none
      ∧ (eventsSince (iterate_teardown s).state
            (iterate_setup cfg env (iterate_teardown s).state).state).filter isStreamOp
          = [Event.newStream Stream.execStream, Event.newStream Stream.gravStream,
             Event.newStream Stream.copyStream, Event.newStream Stream.LETDataToHostStream]
      ∧ SameStreams sx (iterate_setup cfg env sx).state
      ∧ (eventsSince sx (iterate_setup cfg env sx).state).filter isStreamOp = [] := by
  obtain ⟨r, n1, n2, n3, n4, ev⟩ := iterate_teardown_run s
  obtain ⟨a1, a2, a3, a4, -, -, -, -, f⟩ := iterate_setup_streams cfg env (iterate_teardown s).state
  obtain ⟨-, -, -, -, k1, k2, k3, k4, g⟩ := iterate_setup_streams cfg env sx
  refine ⟨r, n1, n2, n3, n4, ev, iterate_teardown_idle _ n1 n2 n3 n4, a1, a2, a3, a4, ?_,
    ⟨k1 h1, k2 h2, k3 h3, k4 h4⟩, ?_⟩
  · rw [f, n1, n2, n3, n4]
    rfl
  · rw [g, if_neg h1, if_neg h2, if_neg h3, if_neg h4]
    rfl

theorem teardown_and_setup_channels_witness :
    (iterate_teardown streamsState).returned = true
      ∧ (iterate_teardown streamsState).state.execStream = none
      ∧ (iterate_teardown streamsState).state.gravStream = none
      ∧ (iterate_teardown streamsState).state.copyStream = none
      ∧ (iterate_teardown streamsState).state.LETDataToHostStream = none
      ∧ eventsSince streamsState (iterate_teardown streamsState).state
          = Event.iterate_teardown
            :: ((if streamsState.execStream = none then [] else [Event.deleteStream Stream.execStream])
              ++ ((if streamsState.gravStream = none then [] else [Event.deleteStream Stream.gravStream])
              ++ ((if streamsState.copyStream = none then [] else [Event.deleteStream Stream.copyStream])
              ++ (if streamsState.LETDataToHostStream = none then []
                    else [Event.deleteStream Stream.LETDataToHostStream]))))
      ∧ iterate_teardown (iterate_teardown streamsState).state
          = Outcome.ret () { (iterate_teardown streamsState).state with
              trace := (iterate_teardown streamsState).state.trace ++ [Event.iterate_teardown] }
      ∧ (iterate_setup twoProcTreeConfig quietEnv (iterate_teardown streamsState).state).state.execStream ≠ none
      ∧ (iterate_setup twoProcTreeConfig quietEnv (iterate_teardown streamsState).state).state.gravStream ≠ none
      ∧ (iterate_setup twoProcTreeConfig quietEnv (iterate_teardown streamsState).state).state.copyStream ≠ none
      ∧ (iterate_setup twoProcTreeConfig quietEnv (iterate_teardown streamsState).state).state.LETDataToHostStream ≠ none
      ∧ (eventsSince (iterate_teardown streamsState).state
            (iterate_setup twoProcTreeConfig quietEnv (iterate_teardown streamsState).state).state).filter isStreamOp
          = [Event.newStream Stream.execStream, Event.newStream Stream.gravStream,
             Event.newStream Stream.copyStream, Event.newStream Stream.LETDataToHostStream]
      ∧ SameStreams streamsState (iterate_setup twoProcTreeConfig quietEnv streamsState).state
      ∧ (eventsSince streamsState (iterate_setup twoProcTreeConfig quietEnv streamsState).state).filter isStreamOp = [] :=
  teardown_and_setup_channels twoProcTreeConfig quietEnv streamsState streamsState
    (by decide) (by decide) (by decide) (by decide)


/-! ## The snapshot hand-off -/

/-! ## The snapshot hand-off -/

set_option maxRecDepth 8000 in
theorem stepAlphabet_finished : ∀ e ∈ stepAlphabet, isUnfinishedCopy e = false := by
  unfold stepAlphabet headAlphabet tailAlphabet forcesAlphabet
  simp only [List.forall_mem_append, List.forall_mem_cons]
  refine ⟨⟨rfl, ?_⟩, ?_, ⟨?_, ?_, ?_⟩, ?_, ?_, ?_, ?_, ?_⟩ <;> decide

/-- No step, whatever its configuration, state and outcome, issues a copy
into the snapshot buffer while `writingFinished` is false. -/
theorem iterate_once_finished_copies (cfg : Config) (env : Env) (s : State) :
    ∀ e ∈ eventsSince s (iterate_once cfg env s).state, isUnfinishedCopy e = false := by
  obtain ⟨⟨evs, ht, ha⟩, -⟩ := (iterate_once_frame cfg env).run s
  rw [eventsSince_append s _ evs ht]
  exact forall_of_alphabet ha stepAlphabet_finished

/-- C21: on the shared-buffer snapshot path (`useMPIIO` false, `snapshotIter > 0`,
`t_current >= nextSnapTime`) the operations of the snapshot block are either
none, or exactly the copies of positions, velocities and ids into
`ioSharedData`, each issued while `writingFinished` is true, followed by the
assignment `writingFinished = false`. So no copy is issued while the flag is
false, and the flag is cleared only after the three copies. When the wait for
the flag never ends the block stops there and copies nothing; when the wait
returns the flag is set; when it returns with an empty buffer the three copies
and the clearing are made. No operation of the whole step is a copy into the
snapshot buffer issued while `writingFinished` is false. -/
theorem snapshot_waits_for_writer (cfg : Config) (env : Env) (s : State)
    (hio : Config.useMPIIO cfg = false) (hsi : cfg.snapshotIter > 0)
    (ht : s.t_current ≥ s.nextSnapTime) :
    (eventsSince s (snapshot cfg env s).state = [] ∨ eventsSince s (snapshot cfg env s).state = snapshotHandOff)
      ∧ (∀ b, Event.d2hShared b false ∉ eventsSince s (snapshot cfg env s).state)
      ∧ (∀ pre post, eventsSince s (snapshot cfg env s).state = pre ++ Event.setWritingFinished false :: post →
          pre = [Event.d2hShared Buffer.bodies_pos true, Event.d2hShared Buffer.bodies_vel true,
                 Event.d2hShared Buffer.bodies_ids true] ∧ post = [])
      ∧ ((snapshotWait cfg env s).returned = false →
          snapshot cfg env s = Outcome.halt Halt.waitsForever
              { s with nextSnapTime := s.nextSnapTime + cfg.snapshotIter }
            ∧ eventsSince s (snapshot cfg env s).state = [])
      ∧ ((snapshotWait cfg env s).returned = true →
          (snapshotWait cfg env s).state.ioSharedData.writingFinished = true)
      ∧ ((snapshotWait cfg env s).returned = true →
          (snapshotWait cfg env s).state.ioSharedData.nBodies = 0 →
          eventsSince s (snapshot cfg env s).state = snapshotHandOff)
      ∧ (∀ e ∈ eventsSince s (iterate_once cfg env s).state, isUnfinishedCopy e = false) := by
  obtain ⟨p1, p2, p3, p4⟩ := snapshot_path_run cfg env s hio hsi ht
  have hev : eventsSince s (snapshot cfg env s).state = []
      ∨ eventsSince s (snapshot cfg env s).state = snapshotHandOff := by
    cases hr : (snapshotWait cfg env s).returned with
    | false => exact Or.inl (p1 hr).2
    | true =>
      by_cases hn : (snapshotWait cfg env s).state.ioSharedData.nBodies = 0
      · exact Or.inr (p4 hr hn)
      · exact Or.inl (p3 hr hn).2
  refine ⟨hev, fun b => ?_, fun pre post h => ?_, p1, p2, p4,
    iterate_once_finished_copies cfg env s⟩
  · rcases hev with h | h <;> rw [h] <;> cases b <;> decide
  · rcases hev with h1 | h1
    · rw [h1] at h
      exact absurd h (by simp)
    · rw [h1] at h
      have hlen := congrArg List.length h
      simp only [snapshotHandOff, List.length_cons, List.length_nil, List.length_append] at hlen
      match pre, h with
      | [], h => simp [snapshotHandOff] at h
      | [_], h => simp [snapshotHandOff] at h
      | [_, _], h => simp [snapshotHandOff] at h
      | [a, b, c], h =>
        simp only [snapshotHandOff, List.cons_append, List.nil_append, List.cons.injEq] at h
        obtain ⟨h1, h2, h3, -, h5⟩ := h
        subst h1 h2 h3
        exact ⟨rfl, h5.symm⟩
      | _ :: _ :: _ :: _ :: _, h =>
        simp only [List.length_cons] at hlen
        omega

theorem snapshot_waits_for_writer_witness :
    (eventsSince writingState (snapshot snapshotConfig writerEnv writingState).state = [] ∨ eventsSince writingState (snapshot snapshotConfig writerEnv writingState).state = snapshotHandOff)
      ∧ (∀ b, Event.d2hShared b false ∉ eventsSince writingState (snapshot snapshotConfig writerEnv writingState).state)
      ∧ (∀ pre post, eventsSince writingState (snapshot snapshotConfig writerEnv writingState).state = pre ++ Event.setWritingFinished false :: post →
          pre = [Event.d2hShared Buffer.bodies_pos true, Event.d2hShared Buffer.bodies_vel true,
                 Event.d2hShared Buffer.bodies_ids true] ∧ post = [])
      ∧ ((snapshotWait snapshotConfig writerEnv writingState).returned = false →
          snapshot snapshotConfig writerEnv writingState = Outcome.halt Halt.waitsForever
              { writingState with nextSnapTime := writingState.nextSnapTime + snapshotConfig.snapshotIter }
            ∧ eventsSince writingState (snapshot snapshotConfig writerEnv writingState).state = [])
      ∧ ((snapshotWait snapshotConfig writerEnv writingState).returned = true →
          (snapshotWait snapshotConfig writerEnv writingState).state.ioSharedData.writingFinished = true)
      ∧ ((snapshotWait snapshotConfig writerEnv writingState).returned = true →
          (snapshotWait snapshotConfig writerEnv writingState).state.ioSharedData.nBodies = 0 →
          eventsSince writingState (snapshot snapshotConfig writerEnv writingState).state = snapshotHandOff)
      ∧ (∀ e ∈ eventsSince writingState (iterate_once snapshotConfig writerEnv writingState).state, isUnfinishedCopy e = false) :=
  snapshot_waits_for_writer snapshotConfig writerEnv writingState rfl
    (by norm_num [snapshotConfig, directConfig, treeConfig])
    (by norm_num [writingState, initState])

/-! ## The wait-time accounting -/

/-- The load-balance block with several processes: the wall time of the
reduction is added to `lastWaitTime`, and the new `lastWaitTime` to
`totalWaitTime`. -/
theorem loadBalance_wait (cfg : Config) (env : Env) (s : State)
    (hm : cfg.USE_MPI = true) (hp : cfg.nProcs > 1) :
    (loadBalance cfg env s).returned = true
      ∧ (loadBalance cfg env s).state.idata.lastWaitTime
          = s.idata.lastWaitTime + (env.get_time (s.clock + 1) - env.get_time s.clock)
      ∧ (loadBalance cfg env s).state.idata.totalWaitTime
          = s.idata.totalWaitTime
            + (s.idata.lastWaitTime + (env.get_time (s.clock + 1) - env.get_time s.clock)) := by
  simp [loadBalance, hm, hp]

/-- C24, refuted after the start-up phase: a two-process step that starts at
`iter = 32` with 5 units left in `lastWaitTime` by earlier steps, and whose
load-balance reduction takes 1 unit of wall time, ends with `lastWaitTime = 6`
and not 1: line 308 adds to `lastWaitTime` (`+=`), and the reset of line 121 is
made only while `iter < 32`. `totalWaitTime` then grows by 6, not by 1. -/
theorem wait_time_accumulates_across_steps :
    ¬ lateState.iter < 32
      ∧ (iterate_once mpiDirectConfig tickEnv lateState).returned = true
      ∧ (iterate_once mpiDirectConfig tickEnv lateState).state.idata.lastWaitTime = 6
      ∧ (iterate_once mpiDirectConfig tickEnv lateState).state.idata.totalWaitTime = 11
      ∧ (loadBalance mpiDirectConfig tickEnv lateState).state.idata.lastWaitTime = 6
      ∧ (∀ k : Nat, tickEnv.get_time (k + 1) - tickEnv.get_time k = 1) := by
  refine ⟨by decide, rfl, ?_, ?_, ?_, ?_⟩
  · simp [iterate_once, clearStartupTimings, predictStep, predict, domainUpdate, forces,
      direct_gravity, afterForces, correctStep, correct, loadBalance, countActive, energyStep,
      compute_energies, statistics, snapshot, stopConditions, lateState, mpiDirectConfig,
      directConfig, treeConfig, tickEnv, quietEnv, initState, zeroIterationData, cmod, INT_MIN,
      fdiv, AllSum]
    norm_num
  · simp [iterate_once, clearStartupTimings, predictStep, predict, domainUpdate, forces,
      direct_gravity, afterForces, correctStep, correct, loadBalance, countActive, energyStep,
      compute_energies, statistics, snapshot, stopConditions, lateState, mpiDirectConfig,
      directConfig, treeConfig, tickEnv, quietEnv, initState, zeroIterationData, cmod, INT_MIN,
      fdiv, AllSum]
    norm_num
  · rw [(loadBalance_wait mpiDirectConfig tickEnv lateState rfl (by decide)).2.1]
    norm_num [lateState, zeroIterationData, tickEnv, initState]
  · intro k
    simp [tickEnv]


/-! ## The reference energies -/

/-- A call of `compute_energies` after the reference call keeps the reference
energies and the flag. -/
theorem compute_energies_reference_kept (cfg : Config) (env : Env) (s : State)
    (hf : s.en.store_energy_flag = false) :
    (compute_energies cfg env s).state.en.store_energy_flag = false
      ∧ (compute_energies cfg env s).state.en.Ekin0 = s.en.Ekin0
      ∧ (compute_energies cfg env s).state.en.Epot0 = s.en.Epot0
      ∧ (compute_energies cfg env s).state.en.Etot0 = s.en.Etot0 := by
  by_cases hr : cfg.procId = 0 <;> simp [compute_energies, hf, hr]

/-- C27, counterexample: with a total energy of zero (all partial sums zero),
the step-to-step drift of an immediately repeated call is the quotient `0 / 0`,
which is not the value 0. -/
theorem repeated_call_zero_energy_drift :
    (compute_energies treeConfig quietEnv initState).state.en.Etot = 0
      ∧ (compute_energies_dde treeConfig quietEnv
          (compute_energies treeConfig quietEnv initState).state).result = some none
      ∧ (compute_energies_dde treeConfig quietEnv
          (compute_energies treeConfig quietEnv initState).state).result ≠ some (some 0) := by
  have h0 : (compute_energies treeConfig quietEnv initState).state.en.Etot = 0 := by
    rw [(compute_energies_state treeConfig quietEnv initState (by decide)).1]
    norm_num [totalEpot, totalEkin, AllSum, quietEnv, treeConfig, List.range_succ]
  have h1 := (compute_energies_drifts treeConfig quietEnv
    (compute_energies treeConfig quietEnv initState).state).2.2.2.2.2.2.1
  have h2 := (compute_energies_drifts treeConfig quietEnv initState).2.2.2.2.1
  have h3 := (compute_energies_drifts treeConfig quietEnv initState).2.2.2.1
  have h4 := compute_energies_Etot_congr treeConfig quietEnv
    (compute_energies treeConfig quietEnv initState).state initState
  rw [h2, h4, h3, h0] at h1
  simp only [Bool.false_eq_true, if_false, sub_self, fdiv, if_true] at h1
  exact ⟨h0, h1, by rw [h1]; simp⟩


/-! ## The energy bookkeeping outside `compute_energies` -/

theorem enKept_trans (a b c : State) (h1 : EnKept a b) (h2 : EnKept b c) : EnKept a c :=
  Eq.trans h2 h1

theorem keeps_pure {α : Type} (a : α) : Sat EnKept (pure a : Exec α) := ⟨fun _ => rfl⟩

theorem keeps_getS : Sat EnKept getS := ⟨fun _ => rfl⟩

theorem keeps_haltWith {α : Type} (h : Halt) : Sat EnKept (haltWith h : Exec α) := ⟨fun _ => rfl⟩

theorem keeps_get_time (env : Env) : Sat EnKept (get_time env) := ⟨fun _ => rfl⟩

theorem keeps_emit (e : Event) : Sat EnKept (emit e) := ⟨fun _ => rfl⟩

theorem keeps_modifyS {f : State → State} (h : ∀ s, (f s).en = s.en) : Sat EnKept (modifyS f) :=
  ⟨fun s => h s⟩

theorem keeps_d2hShared (b : Buffer) : Sat EnKept (d2hShared b) := ⟨fun _ => rfl⟩

theorem keeps_setWritingFinished (b : Bool) : Sat EnKept (setWritingFinished b) :=
  ⟨fun _ => rfl⟩

theorem keeps_bind {α β : Type} {m : Exec α} {f : α → Exec β}
    (hm : Sat EnKept m) (hf : ∀ a, Sat EnKept (f a)) : Sat EnKept (m >>= f) :=
  sat_bind_of_trans enKept_trans hm hf

theorem clearStartupTimings_keeps_en (env : Env) :
    Sat EnKept (clearStartupTimings env) := by
  unfold clearStartupTimings
  repeat (first
    | exact keeps_pure _
    | exact keeps_getS
    | exact keeps_haltWith _
    | exact keeps_get_time _
    | exact keeps_emit _
    | exact keeps_modifyS (fun _ => rfl)
    | apply keeps_bind
    | intro _
    | split)

theorem predictStep_keeps_en (cfg : Config) (env : Env) :
    Sat EnKept (predictStep cfg env) := by
  unfold predictStep predict
  repeat (first
    | exact keeps_pure _
    | exact keeps_getS
    | exact keeps_haltWith _
    | exact keeps_get_time _
    | exact keeps_emit _
    | exact keeps_modifyS (fun _ => rfl)
    | apply keeps_bind
    | intro _
    | split)

theorem domainUpdate_keeps_en (cfg : Config) (env : Env) :
    Sat EnKept (domainUpdate cfg env) := by
  unfold domainUpdate
  repeat (first
    | exact keeps_pure _
    | exact keeps_getS
    | exact keeps_haltWith _
    | exact keeps_get_time _
    | exact keeps_emit _
    | exact keeps_modifyS (fun _ => rfl)
    | apply keeps_bind
    | intro _
    | split)

theorem treeUpdate_keeps_en (cfg : Config) (env : Env) (nd : Bool) (r : Int) :
    Sat EnKept (treeUpdate cfg env nd r) := by
  unfold treeUpdate
  repeat (first
    | exact keeps_pure _
    | exact keeps_getS
    | exact keeps_haltWith _
    | exact keeps_get_time _
    | exact keeps_emit _
    | exact keeps_modifyS (fun _ => rfl)
    | apply keeps_bind
    | intro _
    | split)

set_option maxRecDepth 8000 in
theorem approximate_gravity_keeps_en (cfg : Config) (env : Env) :
    Sat EnKept (approximate_gravity cfg env) := by
  unfold approximate_gravity
  repeat (first
    | exact keeps_pure _
    | exact keeps_getS
    | exact keeps_haltWith _
    | exact keeps_get_time _
    | exact keeps_emit _
    | exact keeps_modifyS (fun _ => rfl)
    | apply keeps_bind
    | intro _
    | split)

theorem approximate_gravity_let_keeps_en (c : LetCall) :
    Sat EnKept (approximate_gravity_let c) := by
  unfold approximate_gravity_let
  repeat (first
    | exact keeps_pure _
    | exact keeps_getS
    | exact keeps_haltWith _
    | exact keeps_get_time _
    | exact keeps_emit _
    | exact keeps_modifyS (fun _ => rfl)
    | apply keeps_bind
    | intro _
    | split)

theorem letCallsLoop_keeps_en (cs : List LetCall) : Sat EnKept (letCallsLoop cs) := by
  induction cs with
  | nil => exact keeps_pure _
  | cons c cs ih =>
    unfold letCallsLoop
    exact keeps_bind (approximate_gravity_let_keeps_en c) (fun _ => ih)

theorem makeLET_keeps_en (env : Env) :
    Sat EnKept (makeLET env) := by
  unfold makeLET essential_tree_exchangeV2
  repeat (first
    | with_reducible exact letCallsLoop_keeps_en _
    | exact keeps_pure _
    | exact keeps_getS
    | exact keeps_haltWith _
    | exact keeps_get_time _
    | exact keeps_emit _
    | exact keeps_modifyS (fun _ => rfl)
    | apply keeps_bind
    | intro _
    | split)

theorem treeGravity_keeps_en (cfg : Config) (env : Env) :
    Sat EnKept (treeGravity cfg env) := by
  unfold treeGravity
  repeat (first
    | with_reducible exact approximate_gravity_keeps_en _ _
    | with_reducible exact makeLET_keeps_en _
    | exact keeps_pure _
    | exact keeps_getS
    | exact keeps_haltWith _
    | exact keeps_get_time _
    | exact keeps_emit _
    | exact keeps_modifyS (fun _ => rfl)
    | apply keeps_bind
    | intro _
    | split)

theorem forces_keeps_en (cfg : Config) (env : Env) (nd : Bool) :
    Sat EnKept (forces cfg env nd) := by
  unfold forces direct_gravity
  repeat (first
    | with_reducible exact treeUpdate_keeps_en _ _ _ _
    | with_reducible exact treeGravity_keeps_en _ _
    | exact keeps_pure _
    | exact keeps_getS
    | exact keeps_haltWith _
    | exact keeps_get_time _
    | exact keeps_emit _
    | exact keeps_modifyS (fun _ => rfl)
    | apply keeps_bind
    | intro _
    | split)

theorem afterForces_keeps_en (cfg : Config) (env : Env) (t1 : ℚ) :
    Sat EnKept (afterForces cfg env t1) := by
  unfold afterForces
  repeat (first
    | exact keeps_pure _
    | exact keeps_getS
    | exact keeps_haltWith _
    | exact keeps_get_time _
    | exact keeps_emit _
    | exact keeps_modifyS (fun _ => rfl)
    | apply keeps_bind
    | intro _
    | split)

theorem correctStep_keeps_en (cfg : Config) (env : Env) :
    Sat EnKept (correctStep cfg env) := by
  unfold correctStep correct
  repeat (first
    | exact keeps_pure _
    | exact keeps_getS
    | exact keeps_haltWith _
    | exact keeps_get_time _
    | exact keeps_emit _
    | exact keeps_modifyS (fun _ => rfl)
    | apply keeps_bind
    | intro _
    | split)

theorem loadBalance_keeps_en (cfg : Config) (env : Env) :
    Sat EnKept (loadBalance cfg env) := by
  unfold loadBalance
  repeat (first
    | exact keeps_pure _
    | exact keeps_getS
    | exact keeps_haltWith _
    | exact keeps_get_time _
    | exact keeps_emit _
    | exact keeps_modifyS (fun _ => rfl)
    | apply keeps_bind
    | intro _
    | split)

theorem countActive_keeps_en :
    Sat EnKept (countActive) := by
  unfold countActive
  repeat (first
    | exact keeps_pure _
    | exact keeps_getS
    | exact keeps_haltWith _
    | exact keeps_get_time _
    | exact keeps_emit _
    | exact keeps_modifyS (fun _ => rfl)
    | apply keeps_bind
    | intro _
    | split)

theorem statistics_keeps_en (cfg : Config) (env : Env) :
    Sat EnKept (statistics cfg env) := by
  unfold statistics
  repeat (first
    | exact keeps_pure _
    | exact keeps_getS
    | exact keeps_haltWith _
    | exact keeps_get_time _
    | exact keeps_emit _
    | exact keeps_modifyS (fun _ => rfl)
    | apply keeps_bind
    | intro _
    | split)

theorem waitWritingFinished_keeps_en (env : Env) :
    Sat EnKept (waitWritingFinished env) := by
  unfold waitWritingFinished
  repeat (first
    | exact keeps_pure _
    | exact keeps_getS
    | exact keeps_haltWith _
    | exact keeps_get_time _
    | exact keeps_emit _
    | exact keeps_modifyS (fun _ => rfl)
    | apply keeps_bind
    | intro _
    | split)

theorem snapshot_keeps_en (cfg : Config) (env : Env) :
    Sat EnKept (snapshot cfg env) := by
  unfold snapshot
  repeat (first
    | with_reducible exact waitWritingFinished_keeps_en _
    | exact keeps_d2hShared _
    | exact keeps_setWritingFinished _
    | exact keeps_pure _
    | exact keeps_getS
    | exact keeps_haltWith _
    | exact keeps_get_time _
    | exact keeps_emit _
    | exact keeps_modifyS (fun _ => rfl)
    | apply keeps_bind
    | intro _
    | split)


theorem refKept_trans (a b c : State) (h1 : RefKept a b) (h2 : RefKept b c) : RefKept a c := by
  intro h
  obtain ⟨f1, k1, p1, t1⟩ := h1 h
  obtain ⟨f2, k2, p2, t2⟩ := h2 f1
  exact ⟨f2, k2.trans k1, p2.trans p1, t2.trans t1⟩

theorem sat_ref_of_en {α : Type} {m : Exec α} (h : Sat EnKept m) : Sat RefKept m := by
  constructor
  intro s hf
  have := h.run s
  unfold EnKept at this
  rw [this]
  exact ⟨hf, rfl, rfl, rfl⟩

theorem compute_energies_ref (cfg : Config) (env : Env) :
    Sat RefKept (compute_energies cfg env) :=
  ⟨fun s hf => compute_energies_reference_kept cfg env s hf⟩

theorem energyStep_ref (cfg : Config) (env : Env) : Sat RefKept (energyStep cfg env) := by
  unfold energyStep
  repeat (first
    | with_reducible exact compute_energies_ref _ _
    | exact sat_ref_of_en (keeps_pure _)
    | exact sat_ref_of_en (keeps_get_time _)
    | exact sat_ref_of_en (keeps_modifyS (fun _ => rfl))
    | apply sat_bind_of_trans refKept_trans
    | intro _)

theorem stopConditions_ref (cfg : Config) (env : Env) : Sat RefKept (stopConditions cfg env) := by
  unfold stopConditions
  repeat (first
    | with_reducible exact compute_energies_ref _ _
    | exact sat_ref_of_en (keeps_pure _)
    | exact sat_ref_of_en keeps_getS
    | exact sat_ref_of_en (keeps_get_time _)
    | exact sat_ref_of_en (keeps_modifyS (fun _ => rfl))
    | apply sat_bind_of_trans refKept_trans
    | intro _
    | split)

/-- A whole step keeps the reference energies once the reference call has been
made, whatever its outcome. -/
theorem iterate_once_ref (cfg : Config) (env : Env) : Sat RefKept (iterate_once cfg env) := by
  unfold iterate_once
  repeat (first
    | with_reducible exact energyStep_ref _ _
    | with_reducible exact stopConditions_ref _ _
    | with_reducible exact sat_ref_of_en (clearStartupTimings_keeps_en _)
    | with_reducible exact sat_ref_of_en (predictStep_keeps_en _ _)
    | with_reducible exact sat_ref_of_en (domainUpdate_keeps_en _ _)
    | with_reducible exact sat_ref_of_en (forces_keeps_en _ _ _)
    | with_reducible exact sat_ref_of_en (afterForces_keeps_en _ _ _)
    | with_reducible exact sat_ref_of_en (correctStep_keeps_en _ _)
    | with_reducible exact sat_ref_of_en (loadBalance_keeps_en _ _)
    | with_reducible exact sat_ref_of_en countActive_keeps_en
    | with_reducible exact sat_ref_of_en (statistics_keeps_en _ _)
    | with_reducible exact sat_ref_of_en (snapshot_keeps_en _ _)
    | exact sat_ref_of_en (keeps_emit _)
    | apply sat_bind_of_trans refKept_trans
    | intro _)


/-- C27, amended: after a call of `compute_energies`, from whatever state and
with whatever total energy, `store_energy_flag` is false and `Etot1` is the
`Etot` of that call. From then on a further call, on whatever particle state
(`env2`), and a whole step of `iterate_once` keep `Ekin0`, `Epot0`, `Etot0` and
the flag. When the `Etot` of the call is not zero, an immediately repeated call
on the unchanged particle state computes the step-to-step drift `dde = 0`,
whatever the state `s` before the first of the two calls was; when it is zero
the drift is the quotient `0 / 0`. -/
theorem reference_energies_invariant (cfg : Config) (env env2 : Env) (s : State) :
    (compute_energies cfg env s).state.en.store_energy_flag = false
      ∧ (compute_energies cfg env s).state.en.Etot1 = (compute_energies cfg env s).state.en.Etot
      ∧ (compute_energies cfg env2 (compute_energies cfg env s).state).state.en.store_energy_flag = false
      ∧ (compute_energies cfg env2 (compute_energies cfg env s).state).state.en.Ekin0 = (compute_energies cfg env s).state.en.Ekin0
      ∧ (compute_energies cfg env2 (compute_energies cfg env s).state).state.en.Epot0 = (compute_energies cfg env s).state.en.Epot0
      ∧ (compute_energies cfg env2 (compute_energies cfg env s).state).state.en.Etot0 = (compute_energies cfg env s).state.en.Etot0
      ∧ (iterate_once cfg env2 (compute_energies cfg env s).state).state.en.store_energy_flag = false
      ∧ (iterate_once cfg env2 (compute_energies cfg env s).state).state.en.Ekin0 = (compute_energies cfg env s).state.en.Ekin0
      ∧ (iterate_once cfg env2 (compute_energies cfg env s).state).state.en.Epot0 = (compute_energies cfg env s).state.en.Epot0
      ∧ (iterate_once cfg env2 (compute_energies cfg env s).state).state.en.Etot0 = (compute_energies cfg env s).state.en.Etot0
      ∧ ((compute_energies cfg env s).state.en.Etot ≠ 0 →
          (compute_energies_dde cfg env (compute_energies cfg env s).state).result
            = some (some 0))
      ∧ ((compute_energies cfg env s).state.en.Etot = 0 →
          (compute_energies_dde cfg env (compute_energies cfg env s).state).result
            = some none) := by
  obtain ⟨-, -, -, h4, h5, -, -, -⟩ := compute_energies_drifts cfg env s
  obtain ⟨c1, c2, c3, c4⟩ :=
    compute_energies_reference_kept cfg env2 (compute_energies cfg env s).state h5
  obtain ⟨i1, i2, i3, i4⟩ := (iterate_once_ref cfg env2).run (compute_energies cfg env s).state h5
  have k := (compute_energies_drifts cfg env (compute_energies cfg env s).state).2.2.2.2.2.2.1
  refine ⟨h5, h4, c1, c2, c3, c4, i1, i2, i3, i4, fun hE => ?_, fun hE => ?_⟩
  · rw [k, h5, h4, compute_energies_Etot_congr cfg env (compute_energies cfg env s).state s]
    simp only [Bool.false_eq_true, if_false, sub_self, fdiv, if_neg hE, zero_div]
  · rw [k, h5, h4, compute_energies_Etot_congr cfg env (compute_energies cfg env s).state s]
    simp only [Bool.false_eq_true, if_false, sub_self, fdiv, hE, if_true]

theorem reference_energies_invariant_witness :
    (compute_energies treeConfig energyEnv initState).state.en.store_energy_flag = false
      ∧ (compute_energies treeConfig energyEnv initState).state.en.Etot1 = (compute_energies treeConfig energyEnv initState).state.en.Etot
      ∧ (compute_energies treeConfig quietEnv (compute_energies treeConfig energyEnv initState).state).state.en.store_energy_flag = false
      ∧ (compute_energies treeConfig quietEnv (compute_energies treeConfig energyEnv initState).state).state.en.Ekin0 = (compute_energies treeConfig energyEnv initState).state.en.Ekin0
      ∧ (compute_energies treeConfig quietEnv (compute_energies treeConfig energyEnv initState).state).state.en.Epot0 = (compute_energies treeConfig energyEnv initState).state.en.Epot0
      ∧ (compute_energies treeConfig quietEnv (compute_energies treeConfig energyEnv initState).state).state.en.Etot0 = (compute_energies treeConfig energyEnv initState).state.en.Etot0
      ∧ (iterate_once treeConfig quietEnv (compute_energies treeConfig energyEnv initState).state).state.en.store_energy_flag = false
      ∧ (iterate_once treeConfig quietEnv (compute_energies treeConfig energyEnv initState).state).state.en.Ekin0 = (compute_energies treeConfig energyEnv initState).state.en.Ekin0
      ∧ (iterate_once treeConfig quietEnv (compute_energies treeConfig energyEnv initState).state).state.en.Epot0 = (compute_energies treeConfig energyEnv initState).state.en.Epot0
      ∧ (iterate_once treeConfig quietEnv (compute_energies treeConfig energyEnv initState).state).state.en.Etot0 = (compute_energies treeConfig energyEnv initState).state.en.Etot0
      ∧ (compute_energies_dde treeConfig energyEnv (compute_energies treeConfig energyEnv initState).state).result = some (some 0) :=
  have h := reference_energies_invariant treeConfig energyEnv quietEnv initState
  ⟨h.1, h.2.1, h.2.2.1, h.2.2.2.1, h.2.2.2.2.1, h.2.2.2.2.2.1, h.2.2.2.2.2.2.1,
    h.2.2.2.2.2.2.2.1, h.2.2.2.2.2.2.2.2.1, h.2.2.2.2.2.2.2.2.2.1,
    h.2.2.2.2.2.2.2.2.2.2.1 (by
      rw [(compute_energies_state treeConfig energyEnv initState (by decide)).1]
      norm_num [totalEpot, totalEkin, AllSum, energyEnv, quietEnv, treeConfig,
        List.range_succ])⟩


/-! ## Integer arithmetic of the balance test and of the launch size -/

theorem wrap32_of_range (x : Int) (h0 : 0 ≤ x) (h1 : x ≤ INT_MAX) : wrap32 x = x := by
  unfold wrap32
  unfold INT_MAX at h1
  omega

/-- Without overflow of `100*(maxN-minN)` the test of line 97 succeeds exactly
when the counts differ by less than a tenth of the smallest. -/
theorem perc_lt_ten_iff (maxN minN : Int) (h0 : 0 < minN) (hle : minN ≤ maxN)
    (hno : 100 * (maxN - minN) ≤ INT_MAX) :
    ∃ p, perc maxN minN = some p ∧ (p < 10 ↔ 10 * (maxN - minN) < minN) := by
  have hd : wrap32 (maxN - minN) = maxN - minN :=
    wrap32_of_range _ (by omega) (by unfold INT_MAX at *; omega)
  have hm : wrap32 (100 * wrap32 (maxN - minN)) = 100 * (maxN - minN) := by
    rw [hd]
    exact wrap32_of_range _ (by omega) hno
  refine ⟨Int.tdiv (100 * (maxN - minN)) minN, ?_, ?_⟩
  · unfold perc
    rw [hm, if_neg]
    rintro (h | ⟨-, h⟩) <;> omega
  · rw [Int.tdiv_eq_ediv (by omega : 0 ≤ 100 * (maxN - minN)) (by omega : 0 ≤ minN),
      Int.ediv_lt_iff_lt_mul h0]
    constructor <;> intro h <;> omega

/-- C23, refuted by overflow: with `maxN = 40000000` and `minN = 10000000` the
counts differ by 300% of the smallest, but the product `100*(maxN-minN)` does
not fit an `int`; it wraps to `-1294967296`, `perc` is `-129`, and the test
`perc < 10` succeeds, so the balance loop stops after this pass. -/
theorem balance_test_overflows :
    (0 : Int) < 10000000 ∧ (10000000 : Int) ≤ 40000000 ∧ (40000000 : Int) ≤ INT_MAX
      ∧ wrap32 (100 * wrap32 (40000000 - 10000000)) = -1294967296
      ∧ perc 40000000 10000000 = some (-129)
      ∧ passBalanced hugeEnv 0 = true
      ∧ passCount hugeEnv 5 0 = 1
      ∧ ¬ (10 * ((40000000 : Int) - 10000000) < 10000000) := by
  refine ⟨by decide, by decide, by decide, by decide, by decide, by decide, by decide, by decide⟩


/-- Where the product of line 91 does not overflow and the smallest count is
positive, the test of line 97 is the comparison of the counts. -/
theorem passBalanced_eq_spec (env : Env) (i : Nat)
    (h0 : 0 < (env.setupPass i).minN) (hle : (env.setupPass i).minN ≤ (env.setupPass i).maxN)
    (hno : 100 * ((env.setupPass i).maxN - (env.setupPass i).minN) ≤ INT_MAX) :
    passBalanced env i = belowTenPercent (env.setupPass i) := by
  obtain ⟨p, hp, hiff⟩ := perc_lt_ten_iff _ _ h0 hle hno
  unfold passBalanced belowTenPercent
  rw [hp]
  by_cases h : p < 10
  · simp [h, hiff.1 h]
  · have h2 : ¬ 10 * ((env.setupPass i).maxN - (env.setupPass i).minN) < (env.setupPass i).minN :=
      fun hh => h (hiff.2 hh)
    simp [h, h2]

/-- Where no pass overflows line 91, the loop makes the passes the description
asks for: up to and including the first pass whose counts differ by less than
a tenth of the smallest. -/
theorem passCount_eq_spec (env : Env) (k i : Nat)
    (h : ∀ j, i ≤ j → j < i + k →
      0 < (env.setupPass j).minN ∧ (env.setupPass j).minN ≤ (env.setupPass j).maxN
        ∧ 100 * ((env.setupPass j).maxN - (env.setupPass j).minN) ≤ INT_MAX) :
    passCount env k i = specPassCount env k i := by
  induction k generalizing i with
  | zero => rfl
  | succ k ih =>
    obtain ⟨h0, hle, hno⟩ := h i (Nat.le_refl i) (by omega)
    unfold passCount specPassCount
    rw [passBalanced_eq_spec env i h0 hle hno, ih (i + 1) (fun j h1 h2 => h j (by omega) (by omega))]

/-- C20, refuted by the overflow of line 91: with two processes and counts of
40000000 and 10000000 in every pass, no pass measures less than 10% (the counts
differ by 300% of the smallest), so the loop is to make its 5 passes;
`iterate_setup` returns after one pass and the final `sort_bodies`, because the
percentage of the first pass wraps to `-129`. -/
theorem setup_stops_at_unbalanced_pass :
    twoProcTreeConfig.USE_MPI = true
      ∧ twoProcTreeConfig.nProcs > 1
      ∧ (∀ j, belowTenPercent (hugeEnv.setupPass j) = false)
      ∧ specPassCount hugeEnv 5 0 = 5
      ∧ perc (hugeEnv.setupPass 0).maxN (hugeEnv.setupPass 0).minN = some (-129)
      ∧ (iterate_setup twoProcTreeConfig hugeEnv initState).returned = true
      ∧ (eventsSince initState (iterate_setup twoProcTreeConfig hugeEnv initState).state).filter
            isRedistributionOp
          = [Event.sort_bodies true (some true), Event.parallelDataSummary,
             Event.sort_bodies true (some true)]
      ∧ (eventsSince initState (iterate_setup twoProcTreeConfig hugeEnv initState).state).count
            Event.parallelDataSummary = 1 := by
  obtain ⟨r, f⟩ := iterate_setup_balanced_run twoProcTreeConfig hugeEnv initState rfl
    (by decide) (fun j _ => show perc (40000000 : Int) 10000000 ≠ none by decide)
  have hc : passCount hugeEnv 5 0 = 1 := by decide
  rw [hc] at f
  refine ⟨rfl, by decide,
    fun j => show belowTenPercent { newN := 40000000, maxN := 40000000, minN := 10000000 }
      = false by decide,
    by decide, by decide, r, f, ?_⟩
  rw [← List.count_filter (show isRedistributionOp Event.parallelDataSummary = true from rfl), f]
  decide

/-- C30: for `0 <= n <= INT_MAX - 255`, `direct_gravity` launches with the local
work size 256 and with the global work size `256 * ((n + 255) / 256)`, computed
without overflow: a multiple of 256, not less than `n`, exceeding `n` by less
than 256, and the smallest such multiple; for `n = 0` it is 0. -/
theorem direct_gravity_launch_size (n : Int) (h0 : 0 ≤ n) (h1 : n ≤ INT_MAX - 255) :
    direct_gravity_localWork = [256, 1]
      ∧ direct_gravity_globalWork n = 256 * ((n + 255) / 256)
      ∧ 256 ∣ direct_gravity_globalWork n
      ∧ n ≤ direct_gravity_globalWork n
      ∧ direct_gravity_globalWork n - n < 256
      ∧ (∀ m : Int, 256 ∣ m → n ≤ m → direct_gravity_globalWork n ≤ m)
      ∧ (n = 0 → direct_gravity_globalWork n = 0) := by
  have hg : direct_gravity_globalWork n = 256 * ((n + 255) / 256) := by
    unfold direct_gravity_globalWork
    unfold INT_MAX at h1
    rw [wrap32_of_range (n + 255) (by omega) (by unfold INT_MAX; omega),
      Int.tdiv_eq_ediv (by omega : 0 ≤ n + 255) (by omega : (0 : Int) ≤ 256),
      wrap32_of_range _ (by omega) (by unfold INT_MAX; omega)]
    omega
  refine ⟨rfl, hg, ?_, ?_, ?_, ?_, ?_⟩
  · rw [hg]
    exact Dvd.intro _ rfl
  · rw [hg]
    omega
  · rw [hg]
    omega
  · rintro m ⟨k, rfl⟩ hk
    rw [hg]
    omega
  · intro hn
    rw [hg, hn]
    rfl

theorem direct_gravity_launch_size_witness :
    direct_gravity_localWork = [256, 1]
      ∧ direct_gravity_globalWork 1000 = 256 * ((1000 + 255) / 256)
      ∧ 256 ∣ direct_gravity_globalWork 1000
      ∧ 1000 ≤ direct_gravity_globalWork 1000
      ∧ direct_gravity_globalWork 1000 - 1000 < 256
      ∧ (∀ m : Int, 256 ∣ m → 1000 ≤ m → direct_gravity_globalWork 1000 ≤ m)
      ∧ ((1000 : Int) = 0 → direct_gravity_globalWork 1000 = 0) :=
  direct_gravity_launch_size 1000 (by decide) (by decide)


/-! ## The layout of the LET buffer -/

theorem wrap32_le (x : Int) : wrap32 x ≤ INT_MAX := by
  unfold wrap32 INT_MAX
  omega

/-- For every descriptor, also one whose offsets do not fit an `int`, the
pointers `boxSILoc`, `boxCILoc` and `multiLoc` start at the offsets of the
textures of node sizes, node centers and multipoles. -/
theorem let_pointers_match (c : LetCall) :
    boxSILocOffset c = (letTexNodeSize c).start
      ∧ boxCILocOffset c = (letTexNodeCenter c).start
      ∧ multiLocOffset c = (letTexMultipole c).start := by
  refine ⟨rfl, ?_, rfl⟩
  unfold boxCILocOffset letTexNodeCenter wrap32
  simp only
  omega

/-- The two bounds on the offsets are needed: a descriptor whose multipole
texture is bound to the region `[P+2(N+off), P+2(N+off)+3N)` has offsets that
fit an `int`. -/
theorem let_layout_bound_needed (c : LetCall)
    (h : letTexMultipole c
      = { start := c.remoteP + 2 * (c.remoteN + c.nodeTexOffset), size := 3 * c.remoteN }) :
    c.remoteP + 2 * (c.remoteN + c.nodeTexOffset) ≤ INT_MAX ∧ 3 * c.remoteN ≤ INT_MAX := by
  have h1 := congrArg TexRegion.start h
  have h2 := congrArg TexRegion.size h
  simp only [letTexMultipole] at h1 h2
  exact ⟨h1 ▸ wrap32_le _, h2 ▸ wrap32_le _⟩

/-- Beyond the two bounds the offsets wrap: for `P = 0`,
`N = 2^30`, `off = 0` the multipole region is bound at `-2^31` with the size
`-2^30`, before the end of the node centers. -/
theorem let_layout_overflows :
    0 ≤ hugeLetCall.remoteP ∧ 0 ≤ hugeLetCall.remoteN ∧ 0 ≤ hugeLetCall.nodeTexOffset
      ∧ hugeLetCall.remoteN ≤ INT_MAX
      ∧ (letTexMultipole hugeLetCall).start = -2147483648
      ∧ (letTexMultipole hugeLetCall).start
          ≠ hugeLetCall.remoteP + 2 * (hugeLetCall.remoteN + hugeLetCall.nodeTexOffset)
      ∧ (letTexMultipole hugeLetCall).size = -1073741824
      ∧ ¬ TexRegion.before (letTexNodeCenter hugeLetCall) (letTexMultipole hugeLetCall) := by
  refine ⟨by decide, by decide, by decide, by decide, by decide, by decide, by decide, ?_⟩
  unfold TexRegion.before
  decide

theorem isRendered_iff (p : BonsaiSharedData) :
    isRendered p = true
      ↔ p.ID.type ≠ 0 ∧ p.rho.feq 0 = false ∧ p.h.feq 0 = false ∧ p.h.fgt 100 = false := by
  simp only [isRendered, skipPtcl, IDType.getType, Bool.and_eq_true, Bool.not_eq_true',
    Bool.or_eq_false_iff, decide_eq_true_eq, ne_eq, Int.natCast_eq_zero]
  tauto

/-- For a value that is not a NaN, `x > c` is false exactly when `x <= c`
is true. -/
theorem fgt_false_iff_fle (x : FloatVal) (c : ℚ) (h : x ≠ FloatVal.nan) :
    x.fgt c = false ↔ x.fle c = true := by
  cases x with
  | num q => simp [FloatVal.fgt, FloatVal.fle]
  | inf negative => cases negative <;> simp [FloatVal.fgt, FloatVal.fle]
  | nan => exact absurd rfl h

/-- A particle whose smoothing length is not a NaN is kept exactly when its
type is not `0`, `rho != 0`, `h != 0` and `h <= 100`; one whose smoothing
length is a NaN is kept exactly when its type is not `0` and `rho != 0`. -/
theorem isRendered_cases (p : BonsaiSharedData) :
    (p.h ≠ FloatVal.nan →
        (isRendered p = true
          ↔ p.ID.type ≠ 0 ∧ p.rho.fne 0 = true ∧ p.h.fne 0 = true ∧ p.h.fle 100 = true))
      ∧ (p.h = FloatVal.nan →
        (isRendered p = true ↔ p.ID.type ≠ 0 ∧ p.rho.fne 0 = true)) := by
  constructor
  · intro h
    rw [isRendered_iff, fgt_false_iff_fle p.h 100 h]
    simp [FloatVal.fne]
  · intro h
    rw [isRendered_iff, h]
    simp [FloatVal.fne, FloatVal.feq, FloatVal.fgt]

theorem isRendered_of_skip (p : BonsaiSharedData) (h : skipPtcl p = true) :
    isRendered p = false := by
  simp [isRendered, h]

theorem isRendered_of_dark (p : BonsaiSharedData) (h : p.ID.getType = 0) :
    isRendered p = false := by
  simp [isRendered, h]

theorem isRendered_of_star (p : BonsaiSharedData) (h1 : ¬ skipPtcl p = true)
    (h2 : ¬ p.ID.getType = 0) : isRendered p = true := by
  simp [isRendered, h1, h2]

theorem countLoop_foldl (data : List BonsaiSharedData) (acc : Nat × Nat) :
    (data.foldl countStep acc).2 = acc.2 + (data.filter isRendered).length := by
  induction data generalizing acc with
  | nil => simp
  | cons p ps ih =>
    rw [List.foldl_cons, ih]
    unfold countStep
    by_cases h1 : skipPtcl p = true
    · simp [h1, isRendered_of_skip p h1]
    · by_cases h2 : p.ID.getType = 0
      · simp [h1, h2, isRendered_of_dark p h2]
      · simp [h1, h2, isRendered_of_star p h1 h2]; omega

theorem countLoop_nS (data : List BonsaiSharedData) :
    (countLoop data).2 = (data.filter isRendered).length := by
  unfold countLoop
  rw [countLoop_foldl]
  simp

theorem copyLoop_spec (env : RendererEnv) (nS : Nat) (data : List BonsaiSharedData) :
    ∀ (done pad : List RendererParticle) (r : RendererData),
      r.data = done ++ pad → pad.length = (data.filter isRendered).length →
      done.length + pad.length ≤ nS →
      copyLoop env data done.length nS r
        = (none, done.length + pad.length,
            { r with data := done ++ (data.filter isRendered).map (toRendererParticle env) }) := by
  induction data with
  | nil =>
    intro done pad r hr hp _
    have hpad : pad = [] := List.eq_nil_of_length_eq_zero (by simpa using hp)
    subst hpad
    cases r
    simp_all [copyLoop]
  | cons p ps ih =>
    intro done pad r hr hp hn
    unfold copyLoop
    by_cases h1 : skipPtcl p = true
    · rw [if_pos h1]
      have := ih done pad r hr (by simpa [isRendered_of_skip p h1] using hp) hn
      simpa [isRendered_of_skip p h1] using this
    · rw [if_neg h1]
      by_cases h2 : p.ID.getType = 0
      · rw [if_pos h2]
        have := ih done pad r hr (by simpa [isRendered_of_dark p h2] using hp) hn
        simpa [isRendered_of_dark p h2] using this
      · rw [if_neg h2]
        have hk := isRendered_of_star p h1 h2
        rw [List.filter_cons_of_pos hk] at hp ⊢
        cases pad with
        | nil => simp at hp
        | cons q pad1 =>
          have hlen : done.length < r.data.length := by rw [hr]; simp
          rw [if_pos hlen]
          simp only [List.length_cons] at hp hn
          have hle : done.length + 1 ≤ nS := by omega
          simp only [hle, if_true]
          have hset : r.data.set done.length (toRendererParticle env p)
              = (done ++ [toRendererParticle env p]) ++ pad1 := by
            rw [hr]; simp
          have := ih (done ++ [toRendererParticle env p]) pad1
            { r with data := r.data.set done.length (toRendererParticle env p) } hset
            (by omega) (by simp; omega)
          simp only [List.length_append, List.length_singleton] at this
          rw [this]
          simp [Nat.add_assoc, Nat.add_comm 1]

theorem selectParticles_eq (env : RendererEnv) (data : List BonsaiSharedData) (t : ℚ)
    (r : RendererData) :
    selectParticles env data t r
      = (none, { r with data := (data.filter isRendered).map (toRendererParticle env),
                        time := t,
                        nBodySim := (data.filter isRendered).length }) := by
  unfold selectParticles
  have h := copyLoop_spec env (countLoop data).2 data []
    ((r.resize (countLoop data).2).setTime t).data ((r.resize (countLoop data).2).setTime t) rfl
    (by simp [RendererData.resize, RendererData.setTime, countLoop_nS]; omega)
    (by simp [RendererData.resize, RendererData.setTime, countLoop_nS]; omega)
  have hlen : ((r.resize (countLoop data).2).setTime t).data.length
      = (data.filter isRendered).length := by
    simp [RendererData.resize, RendererData.setTime, countLoop_nS]; omega
  simp only [List.length_nil, Nat.zero_add, List.nil_append, hlen] at h
  simp only [h]
  simp [RendererData.resize, RendererData.setTime, RendererData.setNbodySim]


theorem fetchBody_completed (env : RendererEnv) (rank nrank g : Int) (s : RendererState)
    (hg : g = nrank) (hn : env.data.length = env.nBodies) :
    fetchBody env rank nrank g s = FetchOutcome.ret true (fetchedState env s) := by
  simp [fetchBody, hg, hn, selectParticles_eq, fetchedState, RendererState.emit,
    RendererData.computeMinMax]

theorem fetchBody_assert (env : RendererEnv) (rank nrank g : Int) (s : RendererState)
    (hg : g = nrank) (hn : env.data.length ≠ env.nBodies) :
    ∃ s1, fetchBody env rank nrank g s = FetchOutcome.halt Halt.assertFailed s1 := by
  simp [fetchBody, hg, hn]

theorem fetchBody_pending (env : RendererEnv) (rank nrank g : Int) (s : RendererState)
    (hg : g ≠ nrank) :
    fetchBody env rank nrank g s
      = FetchOutcome.ret false
          { s with terminateRenderer := decide (env.tCurrent = -1)
                   shm := s.shm ++ [ShmEvent.releaseLock ShmLock.header] } := by
  simp [fetchBody, hg, RendererState.emit]

/-- What `fetchBody` does on a return: with `b = true` it ends in
`fetchedState`, with `b = false` it only releases the header lock. -/
theorem fetchBody_ret (env : RendererEnv) (rank nrank g : Int) (s s1 : RendererState) (b : Bool)
    (h : fetchBody env rank nrank g s = FetchOutcome.ret b s1) :
    (b = true ∧ g = nrank ∧ env.data.length = env.nBodies ∧ s1 = fetchedState env s)
      ∨ (b = false ∧ g ≠ nrank
          ∧ s1 = { s with terminateRenderer := decide (env.tCurrent = -1)
                          shm := s.shm ++ [ShmEvent.releaseLock ShmLock.header] }) := by
  by_cases hg : g = nrank
  · by_cases hn : env.data.length = env.nBodies
    · rw [fetchBody_completed env rank nrank g s hg hn] at h
      injection h with h1 h2
      exact Or.inl ⟨h1.symm, hg, hn, h2.symm⟩
    · obtain ⟨s2, h2⟩ := fetchBody_assert env rank nrank g s hg hn
      rw [h2] at h
      cases h
  · rw [fetchBody_pending env rank nrank g s hg] at h
    injection h with h1 h2
    exact Or.inr ⟨h1.symm, hg, h2.symm⟩

theorem fetchBody_halt (env : RendererEnv) (rank nrank g : Int) (s s1 : RendererState)
    (e : Halt) (h : fetchBody env rank nrank g s = FetchOutcome.halt e s1) :
    e = Halt.assertFailed ∧ env.data.length ≠ env.nBodies := by
  by_cases hg : g = nrank
  · by_cases hn : env.data.length = env.nBodies
    · rw [fetchBody_completed env rank nrank g s hg hn] at h
      cases h
    · obtain ⟨s2, h2⟩ := fetchBody_assert env rank nrank g s hg hn
      rw [h2] at h
      injection h with h1 _
      exact ⟨h1.symm, hn⟩
  · rw [fetchBody_pending env rank nrank g s hg] at h
    cases h

theorem fetchBody_locks (env : RendererEnv) (rank nrank g : Int) (s s1 : RendererState)
    (b : Bool) (h : fetchBody env rank nrank g s = FetchOutcome.ret b s1) :
    ∃ evs, s1.shm = s.shm ++ evs ∧ acquired ShmLock.header evs = 0
      ∧ released ShmLock.header evs = 1
      ∧ acquired ShmLock.data evs = released ShmLock.data evs := by
  rcases fetchBody_ret env rank nrank g s s1 b h with ⟨_, _, _, h1⟩ | ⟨_, _, h1⟩
  · refine ⟨[ShmEvent.acquireLock ShmLock.data] ++ [ShmEvent.MPI_Reduce,
      ShmEvent.releaseLock ShmLock.data, ShmEvent.setDoneWriting,
      ShmEvent.releaseLock ShmLock.header], ?_, by decide, by decide, by decide⟩
    rw [h1]; simp [fetchedState]
  · refine ⟨[ShmEvent.releaseLock ShmLock.header], ?_, by decide, by decide, by decide⟩
    rw [h1]

theorem fetchHandshake_locks (env : RendererEnv) (quickSync : Bool) (s s1 : RendererState)
    (h : fetchHandshake env quickSync s = some s1) :
    s1.rData = s.rData
      ∧ ∃ evs, s1.shm = s.shm ++ evs ∧ ∀ l, acquired l evs = released l evs := by
  unfold fetchHandshake at h
  split at h
  · split at h
    · cases h
    · rename_i k _
      injection h with h
      subst h
      refine ⟨rfl, _, rfl, ?_⟩
      intro l
      cases l <;> simp [acquired, released, List.count_cons, List.count_replicate]
  · injection h with h
    subst h
    exact ⟨rfl, [], by simp, fun l => rfl⟩

theorem quickSyncLoop_locks (env : RendererEnv) (nrank : Int) (fuel : Nat) :
    ∀ (k : Nat) (s s1 : RendererState) (g : Int),
      quickSyncLoop env nrank fuel k s = some (g, s1) →
      g = nrank ∧ ∃ evs, s1.shm = s.shm ++ evs
        ∧ acquired ShmLock.header evs = released ShmLock.header evs + 1
        ∧ acquired ShmLock.data evs = 0 ∧ released ShmLock.data evs = 0 := by
  induction fuel with
  | zero => intro k s s1 g h; cases h
  | succ n ih =>
    intro k s s1 g h
    obtain ⟨sumL, hL⟩ : ∃ x : Int, x = (if env.done_writing k then 0 else 1) := ⟨_, rfl⟩
    have hstep : quickSyncLoop env nrank (n + 1) k s
        = if env.allreduce k sumL = nrank then
            some (env.allreduce k sumL,
              s.emit [ShmEvent.acquireLock ShmLock.header, ShmEvent.MPI_Allreduce sumL])
          else quickSyncLoop env nrank n (k + 1)
            ((s.emit [ShmEvent.acquireLock ShmLock.header, ShmEvent.MPI_Allreduce sumL]).emit
              [ShmEvent.releaseLock ShmLock.header, ShmEvent.usleep]) := by
      rw [hL]; rfl
    rw [hstep] at h
    split at h
    · rename_i hg
      injection h with h
      injection h with h1 h2
      subst h1 h2
      refine ⟨hg, _, rfl, ?_, ?_, ?_⟩ <;> simp [acquired, released, List.count_cons]
    · obtain ⟨hg, evs, he, h1, h2, h3⟩ := ih _ _ _ _ h
      refine ⟨hg, _, by rw [he]; simp only [RendererState.emit, List.append_assoc]; rfl,
        ?_, ?_, ?_⟩
      · simp only [acquired, released] at h1 ⊢
        simp [List.count_cons, h1]
      · simp only [acquired] at h2 ⊢
        simp [List.count_cons, h2]
      · simp only [released] at h3 ⊢
        simp [List.count_cons, h3]


theorem recvData_length (old message : List BonsaiSharedData) (n : Nat) :
    (recvData old message n).length = n := by
  simp [recvData]; omega

theorem fetchSharedData_ret (env : RendererEnv) (quickSync : Bool) (rank nrank : Int)
    (fuel : Nat) (s s1 : RendererState) (b : Bool)
    (h : fetchSharedData env quickSync rank nrank fuel s = some (FetchOutcome.ret b s1)) :
    ∃ s0, fetchHandshake env quickSync s = some s0
      ∧ ((b = false ∧ s1 = s0)
        ∨ (∃ g s2, quickSync = true ∧ quickSyncLoop env nrank fuel 0 s0 = some (g, s2)
            ∧ fetchBody env rank nrank g s2 = FetchOutcome.ret b s1)
        ∨ (quickSync = false
            ∧ fetchBody env rank nrank (plainSync env s0).1 (plainSync env s0).2
                = FetchOutcome.ret b s1)) := by
  unfold fetchSharedData at h
  split at h
  · cases h
  · rename_i s0 h0
    refine ⟨s0, h0, ?_⟩
    split at h
    · injection h with h
      injection h with h1 h2
      exact Or.inl ⟨h1.symm, h2.symm⟩
    · split at h
      · rename_i hq
        split at h
        · cases h
        · rename_i g s2 hl
          injection h with h
          exact Or.inr (Or.inl ⟨g, s2, hq, hl, h⟩)
      · rename_i hq
        injection h with h
        exact Or.inr (Or.inr ⟨by simpa using hq, h⟩)

theorem fetchSharedData_halt (env : RendererEnv) (quickSync : Bool) (rank nrank : Int)
    (fuel : Nat) (s s1 : RendererState) (e : Halt)
    (h : fetchSharedData env quickSync rank nrank fuel s = some (FetchOutcome.halt e s1)) :
    e = Halt.waitsForever ∨ (e = Halt.assertFailed ∧ env.data.length ≠ env.nBodies) := by
  unfold fetchSharedData at h
  split at h
  · injection h with h
    injection h with h1 _
    exact Or.inl h1.symm
  · split at h
    · cases h
    · split at h
      · split at h
        · cases h
        · injection h with h
          exact Or.inr (fetchBody_halt _ _ _ _ _ _ _ h)
      · injection h with h
        exact Or.inr (fetchBody_halt _ _ _ _ _ _ _ h)

theorem fetchSharedData_plain (env : RendererEnv) (rank nrank : Int) (fuel : Nat)
    (s : RendererState) (hn : s.rData.isNewData = false)
    (hg : env.allreduce 0 (if env.tCurrent ≠ s.tLast then 1 else 0) = nrank)
    (hd : env.data.length = env.nBodies) :
    fetchSharedData env false rank nrank fuel s
      = some (FetchOutcome.ret true (fetchedState env (plainSync env s).2)) := by
  have h1 : (plainSync env s).1 = nrank := hg
  simp [fetchSharedData, fetchHandshake, hn, fetchBody_completed env rank nrank _ _ h1 hd]

theorem fetchSharedDataMPI_run (env : RendererEnv) (rank : Int) (s : RendererState) :
    (cmod (if s.worldRank = -1 then env.commRank else s.worldRank) 2 = some 1
        ∧ s.rData.isNewData = false
        ∧ ∃ s1, fetchSharedDataMPI env rank s = FetchOutcome.ret true s1
          ∧ s1.mpiData = recvData s.mpiData env.data env.nBodies
          ∧ s1.rData.data = (s1.mpiData.filter isRendered).map (toRendererParticle env)
          ∧ s1.rData.nBodySim = (s1.mpiData.filter isRendered).length)
      ∨ ((cmod (if s.worldRank = -1 then env.commRank else s.worldRank) 2 ≠ some 1
          ∨ s.rData.isNewData = true)
        ∧ ∃ s1, fetchSharedDataMPI env rank s = FetchOutcome.halt Halt.assertFailed s1) := by
  by_cases hw : cmod (if s.worldRank = -1 then env.commRank else s.worldRank) 2 = some 1
  · by_cases hn : s.rData.isNewData = true
    · refine Or.inr ⟨Or.inr hn, ?_⟩
      by_cases h1 : s.worldRank = -1
      · simp only [h1, if_true] at hw
        simp [fetchSharedDataMPI, h1, hw, hn, RendererState.emit]
      · simp only [h1, if_false] at hw
        simp [fetchSharedDataMPI, h1, hw, hn, RendererState.emit]
    · have hn1 : s.rData.isNewData = false := by simpa using hn
      refine Or.inl ⟨hw, hn1, ?_⟩
      by_cases h1 : s.worldRank = -1
      · simp only [h1, if_true] at hw
        simp [fetchSharedDataMPI, h1, hw, hn1, RendererState.emit, recvData_length,
          selectParticles_eq, RendererData.computeMinMax]
      · simp only [h1, if_false] at hw
        simp [fetchSharedDataMPI, h1, hw, hn1, RendererState.emit, recvData_length,
          selectParticles_eq, RendererData.computeMinMax]
  · refine Or.inr ⟨Or.inl hw, ?_⟩
    by_cases h1 : s.worldRank = -1
    · simp only [h1, if_true] at hw
      simp [fetchSharedDataMPI, h1, hw]
    · simp only [h1, if_false] at hw
      simp [fetchSharedDataMPI, h1, hw]


/-- C26, counterexample: a star with density 1 whose smoothing length `h` is a
NaN is not skipped, since `rho == 0`, `h == 0.0` and `h > 100` are all false
for it, although `h <= 100` is false too. Both `fetchSharedData` and
`fetchSharedDataMPI` return `true` with this particle in `rData`. -/
theorem fetch_keeps_nan_smoothing_length :
    nanParticle.ID.type ≠ 0
      ∧ nanParticle.rho.fne 0 = true
      ∧ nanParticle.h.fne 0 = true
      ∧ nanParticle.h.fle 100 = false
      ∧ skipPtcl nanParticle = false
      ∧ (∃ s1, fetchSharedData nanEnv false 0 1 0 freshRenderer
            = some (FetchOutcome.ret true s1)
          ∧ s1.rData.data = [toRendererParticle nanEnv nanParticle])
      ∧ (∃ s1, fetchSharedDataMPI nanEnv 0 freshRenderer = FetchOutcome.ret true s1
          ∧ s1.rData.data = [toRendererParticle nanEnv nanParticle]) := by
  have hk : isRendered nanParticle = true := by decide
  refine ⟨by decide, by decide, by decide, by decide, by decide, ?_, ?_⟩
  · refine ⟨_, fetchSharedData_plain nanEnv 0 1 0 freshRenderer rfl (by decide) rfl, ?_⟩
    simp [fetchedState, nanEnv, hk]
  · rcases fetchSharedDataMPI_run nanEnv 0 freshRenderer with ⟨_, _, s1, h1, h2, h3, _⟩ | ⟨h, _⟩
    · refine ⟨s1, h1, ?_⟩
      have hd : s1.mpiData = [nanParticle] := by
        rw [h2]
        simp [recvData, nanEnv, freshRenderer]
      rw [h3, hd]
      simp [hk]
    · rcases h with h | h
      · exact absurd (by decide) h
      · cases h

/-- C26, amended: when `fetchSharedData` returns `true`, and whenever
`fetchSharedDataMPI` returns, `rData` holds exactly the particles of the buffer
that are not skipped and whose type is not `0`, converted, in the order of the
buffer, and their number is the count `nS` of the first pass. The copying loop
started after `resize(nS)` never stops at the `assert(ip <= nS)` nor writes past
the end, and ends with `ip = nS`. A particle is skipped exactly when one of
`rho == 0`, `h == 0.0`, `h > 100` holds in floating point: a particle whose `h`
is not a NaN is kept exactly when its type is not `0`, `rho != 0`, `h != 0` and
`h <= 100`, and a particle whose `h` is a NaN is kept exactly when its type is
not `0` and `rho != 0`. `fetchSharedData` stops only while waiting for the
handshake or at `assert(size == nBodies)`, and it does return `true` in the
plain mode when the reduction yields `nrank` and the sizes agree;
`fetchSharedDataMPI` returns `true` when the rank is odd and `rData` holds no
unconsumed data. -/
theorem fetch_keeps_unskipped_stars (env : RendererEnv) (quickSync : Bool) (rank nrank : Int)
    (fuel : Nat) (s : RendererState) :
    (∀ s1, fetchSharedData env quickSync rank nrank fuel s = some (FetchOutcome.ret true s1) →
        s1.rData.data = (env.data.filter isRendered).map (toRendererParticle env)
          ∧ s1.rData.data.length = (countLoop env.data).2
          ∧ s1.rData.nBodySim = (countLoop env.data).2)
      ∧ (∀ b s1, fetchSharedDataMPI env rank s = FetchOutcome.ret b s1 →
          b = true
            ∧ s1.mpiData = recvData s.mpiData env.data env.nBodies
            ∧ s1.rData.data = (s1.mpiData.filter isRendered).map (toRendererParticle env)
            ∧ s1.rData.data.length = (countLoop s1.mpiData).2
            ∧ s1.rData.nBodySim = (countLoop s1.mpiData).2)
      ∧ (∀ (data : List BonsaiSharedData) (t : ℚ) (r : RendererData),
          copyLoop env data 0 (countLoop data).2 ((r.resize (countLoop data).2).setTime t)
            = (none, (countLoop data).2,
                { (r.resize (countLoop data).2).setTime t with
                  data := (data.filter isRendered).map (toRendererParticle env) }))
      ∧ (∀ p : BonsaiSharedData,
          isRendered p = true
            ↔ p.ID.type ≠ 0 ∧ p.rho.feq 0 = false ∧ p.h.feq 0 = false ∧ p.h.fgt 100 = false)
      ∧ (∀ p : BonsaiSharedData, p.h ≠ FloatVal.nan →
          (isRendered p = true
            ↔ p.ID.type ≠ 0 ∧ p.rho.fne 0 = true ∧ p.h.fne 0 = true ∧ p.h.fle 100 = true))
      ∧ (∀ p : BonsaiSharedData, p.h = FloatVal.nan →
          (isRendered p = true ↔ p.ID.type ≠ 0 ∧ p.rho.fne 0 = true))
      ∧ (∀ e s1, fetchSharedData env quickSync rank nrank fuel s
            = some (FetchOutcome.halt e s1) →
          e = Halt.waitsForever ∨ (e = Halt.assertFailed ∧ env.data.length ≠ env.nBodies))
      ∧ (quickSync = false → s.rData.isNewData = false →
          env.allreduce 0 (if env.tCurrent ≠ s.tLast then 1 else 0) = nrank →
          env.data.length = env.nBodies →
          ∃ s1, fetchSharedData env quickSync rank nrank fuel s
            = some (FetchOutcome.ret true s1))
      ∧ (cmod (if s.worldRank = -1 then env.commRank else s.worldRank) 2 = some 1 →
          s.rData.isNewData = false →
          ∃ s1, fetchSharedDataMPI env rank s = FetchOutcome.ret true s1) := by
  refine ⟨?_, ?_, ?_, isRendered_iff, fun p => (isRendered_cases p).1,
    fun p => (isRendered_cases p).2,
    fun e s1 => fetchSharedData_halt env quickSync rank nrank fuel s s1 e, ?_, ?_⟩
  · intro s1 h
    obtain ⟨s0, _, hc⟩ := fetchSharedData_ret env quickSync rank nrank fuel s s1 true h
    have key : ∀ g s2, fetchBody env rank nrank g s2 = FetchOutcome.ret true s1 →
        s1.rData.data = (env.data.filter isRendered).map (toRendererParticle env)
          ∧ s1.rData.data.length = (countLoop env.data).2
          ∧ s1.rData.nBodySim = (countLoop env.data).2 := by
      intro g s2 hb
      rcases fetchBody_ret env rank nrank g s2 s1 true hb with ⟨_, _, _, h1⟩ | ⟨h1, _⟩
      · rw [h1]; simp [fetchedState, countLoop_nS]
      · cases h1
    rcases hc with ⟨h1, _⟩ | ⟨g, s2, _, _, hb⟩ | ⟨_, hb⟩
    · cases h1
    · exact key _ _ hb
    · exact key _ _ hb
  · intro b s1 h
    rcases fetchSharedDataMPI_run env rank s with ⟨_, _, s2, h2, h3, h4, h5⟩ | ⟨_, s2, h2⟩
    · rw [h2] at h
      injection h with hb hs
      subst hb hs
      refine ⟨rfl, h3, h4, ?_, ?_⟩
      · rw [h4, countLoop_nS]; simp
      · rw [h5, countLoop_nS]
    · rw [h2] at h
      cases h
  · intro data t r
    have hlen : ((r.resize (countLoop data).2).setTime t).data.length
        = (data.filter isRendered).length := by
      simp [RendererData.resize, RendererData.setTime, countLoop_nS]; omega
    have h := copyLoop_spec env (countLoop data).2 data []
      ((r.resize (countLoop data).2).setTime t).data ((r.resize (countLoop data).2).setTime t)
      rfl hlen (by rw [hlen, countLoop_nS]; simp)
    simp only [List.length_nil, Nat.zero_add, List.nil_append, hlen] at h
    rw [h, countLoop_nS]
  · intro hq hn hg hd
    subst hq
    exact ⟨_, fetchSharedData_plain env rank nrank fuel s hn hg hd⟩
  · intro hw hn
    rcases fetchSharedDataMPI_run env rank s with ⟨_, _, s2, h2, _⟩ | ⟨h1, _⟩
    · exact ⟨s2, h2⟩
    · rcases h1 with h1 | h1
      · exact absurd hw h1
      · rw [hn] at h1; cases h1

/-- C29: on every return of `fetchSharedData`, with `true` or with `false`,
the operations of the call acquire the header lock as often as they release
it, and the data lock as often as they release it. -/
theorem fetch_releases_locks (env : RendererEnv) (quickSync : Bool) (rank nrank : Int)
    (fuel : Nat) (s s1 : RendererState) (b : Bool)
    (h : fetchSharedData env quickSync rank nrank fuel s = some (FetchOutcome.ret b s1)) :
    ∃ evs, s1.shm = s.shm ++ evs ∧ ∀ l, acquired l evs = released l evs := by
  obtain ⟨s0, h0, hc⟩ := fetchSharedData_ret env quickSync rank nrank fuel s s1 b h
  obtain ⟨_, e0, he0, hb0⟩ := fetchHandshake_locks env quickSync s s0 h0
  rcases hc with ⟨_, h1⟩ | ⟨g, s2, _, hl, hb⟩ | ⟨_, hb⟩
  · subst h1
    exact ⟨e0, he0, hb0⟩
  · obtain ⟨_, e1, he1, a1, a2, a3⟩ := quickSyncLoop_locks env nrank fuel 0 s0 s2 g hl
    obtain ⟨e2, he2, b1, b2, b3⟩ := fetchBody_locks env rank nrank g s2 s1 b hb
    refine ⟨e0 ++ (e1 ++ e2), by rw [he2, he1, he0]; simp, ?_⟩
    intro l
    have c0 := hb0 l
    cases l
    · simp only [acquired, released, List.count_append] at c0 a1 b1 b2 ⊢
      omega
    · simp only [acquired, released, List.count_append] at c0 a2 a3 b3 ⊢
      omega
  · obtain ⟨e2, he2, b1, b2, b3⟩ :=
      fetchBody_locks env rank nrank _ (plainSync env s0).2 s1 b hb
    refine ⟨e0 ++ ([ShmEvent.acquireLock ShmLock.header,
        ShmEvent.MPI_Allreduce (if env.tCurrent ≠ s0.tLast then 1 else 0)] ++ e2),
      by rw [he2]; simp [plainSync, RendererState.emit, he0], ?_⟩
    intro l
    have c0 := hb0 l
    cases l
    · simp only [acquired, released, List.count_append] at c0 b1 b2 ⊢
      simp [List.count_cons]
      omega
    · simp only [acquired, released, List.count_append] at c0 b3 ⊢
      simp [List.count_cons]
      omega

theorem fetch_releases_locks_witness :
    fetchSharedData pollingEnv true 0 2 3 freshRenderer
        = some (FetchOutcome.ret true polledRenderer)
      ∧ ∃ evs, polledRenderer.shm = freshRenderer.shm ++ evs
          ∧ ∀ l, acquired l evs = released l evs :=
  have h : fetchSharedData pollingEnv true 0 2 3 freshRenderer
      = some (FetchOutcome.ret true polledRenderer) := by decide
  ⟨h, fetch_releases_locks pollingEnv true 0 2 3 freshRenderer polledRenderer true h⟩

end Bonsai
